import Mathlib

/-!
# dog-app-bff: store contract, relational store and HTTP handlers

A shallow embedding of `internal/types`, `internal/store` and
`internal/handlers`.  Go strings are modelled as Lean strings (valid Unicode
text), Go slices as `Option (List α)` (`none` is the nil slice), a Go
`(value, error)` result as `Except GoError value`, and the mutable world behind
a store interface as an explicit state that every store method threads.  The
standard-library functions the handlers call (`http.Error`, `time.Parse`,
`Time.MarshalJSON`, the scanner, decoder and encoder of `encoding/json`,
`path.Base`, `errors.Is`) are modelled after their Go sources; output written
with `log.Printf` is not modelled.
-/

namespace DogApp

/-! ## Errors -/

/-- Go error values that occur in the program.  `ErrNotFound` and
`ErrForeignKeyViolation` are the two sentinels of `store/store.go`,
`ErrNoRows` is `sql.ErrNoRows`, `other` is any further error value (a driver
error, an `errors.New` of a test double, an encoding error) and `wrap` is
`fmt.Errorf("...: %w", inner)`. -/
inductive GoError where
  | ErrNotFound
  | ErrForeignKeyViolation
  | ErrNoRows
  | other (msg : String)
  | wrap (msg : String) (inner : GoError)
  deriving DecidableEq, Repr

/-- The `errors.Is(err, target)` of the standard library for the comparable
error values above: `err` is `target`, or wraps an error that is. -/
def errorsIs : GoError → GoError → Bool
  | .wrap msg inner, target =>
      decide (GoError.wrap msg inner = target) || errorsIs inner target
  | err, target => decide (err = target)

instance instDecidableEqExcept {ε α : Type} [DecidableEq ε] [DecidableEq α] :
    DecidableEq (Except ε α) := fun a b =>
  match a, b with
  | .ok x, .ok y =>
      if h : x = y then isTrue (by rw [h]) else isFalse (fun h2 => h (Except.ok.inj h2))
  | .error x, .error y =>
      if h : x = y then isTrue (by rw [h]) else isFalse (fun h2 => h (Except.error.inj h2))
  | .ok _, .error _ => isFalse (fun h2 => Except.noConfusion h2)
  | .error _, .ok _ => isFalse (fun h2 => Except.noConfusion h2)

/-! ## Domain types (`internal/types/types.go`) -/

structure Breed where
  ID : String
  Name : String
  Temperament : String
  Origin : String
  deriving DecidableEq, Repr

/-- The `time.Time` values of the program are calendar dates: the `birth`
column is a `date`, and `time.Parse("2006-01-02", _)` yields midnight UTC of
the parsed day.  The year is an integer because `time.Time` (and the column)
can hold years outside `0..9999`. -/
structure Time where
  year : Int
  month : Nat
  day : Nat
  deriving DecidableEq, Repr

structure Pet where
  ID : String
  Name : String
  Birth : Time
  Breed : Breed
  deriving DecidableEq, Repr

structure CreatePetRequest where
  Name : String
  Birth : String
  BreedID : String
  deriving DecidableEq, Repr

/-- A Go slice: `none` is the nil slice, `some l` a non-nil slice with the
elements `l`. -/
abbrev Slice (α : Type) := Option (List α)

/-- The `len(s)` of a slice. -/
def Slice.len {α : Type} : Slice α → Nat
  | none => 0
  | some l => l.length

/-- The `append(s, x)` of a slice: appending to the nil slice allocates. -/
def Slice.append {α : Type} : Slice α → α → Slice α
  | none, x => some [x]
  | some l, x => some (l ++ [x])

/-- The elements of a slice in order (what `range` visits). -/
def Slice.elems {α : Type} : Slice α → List α
  | none => []
  | some l => l

/-! ## `net/http`: the response writer and `http.Error` -/

def StatusOK : Nat := 200
def StatusCreated : Nat := 201
def StatusBadRequest : Nat := 400
def StatusNotFound : Nat := 404
def StatusMethodNotAllowed : Nat := 405
def StatusInternalServerError : Nat := 500

/-- The state of an `http.ResponseWriter` (as recorded by
`httptest.ResponseRecorder`): the live header map, the header snapshot and
status taken by the first `WriteHeader`, and the body written so far. -/
structure ResponseWriter where
  header : List (String × String)
  wroteHeader : Bool
  sentHeader : List (String × String)
  code : Nat
  body : String
  deriving DecidableEq, Repr

/-- A fresh recorder: `httptest.NewRecorder()`. -/
def NewRecorder : ResponseWriter :=
  { header := [], wroteHeader := false, sentHeader := [], code := StatusOK, body := "" }

/-- The `Header.Del(key)` on an association list. -/
def headerDel (h : List (String × String)) (key : String) : List (String × String) :=
  h.filter (fun kv => kv.1 != key)

/-- The `Header.Set(key, value)`: replaces any existing value of the key. -/
def headerSet (h : List (String × String)) (key value : String) : List (String × String) :=
  headerDel h key ++ [(key, value)]

/-- The `Header.Get(key)`: the value of the key, or the empty string. -/
def headerGet (h : List (String × String)) (key : String) : String :=
  match h.find? (fun kv => kv.1 == key) with
  | some kv => kv.2
  | none => ""

/-- Runs `w.Header().Set(key, value)`. -/
def ResponseWriter.setHeader (w : ResponseWriter) (key value : String) : ResponseWriter :=
  { w with header := headerSet w.header key value }

/-- Runs `w.Header().Del(key)`. -/
def ResponseWriter.delHeader (w : ResponseWriter) (key : String) : ResponseWriter :=
  { w with header := headerDel w.header key }

/-- Runs `w.WriteHeader(code)`: the first call fixes the status and snapshots
the headers, later calls are ignored. -/
def ResponseWriter.WriteHeader (w : ResponseWriter) (code : Nat) : ResponseWriter :=
  if w.wroteHeader then w
  else { w with wroteHeader := true, sentHeader := w.header, code := code }

/-- Runs `w.Write(data)`: an implicit `WriteHeader(200)` when no header was
written yet, then the data is appended to the body. -/
def ResponseWriter.Write (w : ResponseWriter) (data : String) : ResponseWriter :=
  let w1 := w.WriteHeader StatusOK
  { w1 with body := w1.body ++ data }

/-- The `http.Error(w, error, code)` of the standard library: plain-text
content type, `nosniff`, the status, and the message followed by a newline
(`fmt.Fprintln`). -/
def httpError (w : ResponseWriter) (error : String) (code : Nat) : ResponseWriter :=
  let w1 := w.delHeader "Content-Length"
  let w2 := w1.setHeader "Content-Type" "text/plain; charset=utf-8"
  let w3 := w2.setHeader "X-Content-Type-Options" "nosniff"
  let w4 := w3.WriteHeader code
  w4.Write (error ++ "\n")

/-- The response a client observes once the handler has returned: the status
(200 when the handler never wrote), the header snapshot and the body. -/
structure Response where
  status : Nat
  contentType : String
  body : String
  deriving DecidableEq, Repr

/-- The observed response of a finished response writer. -/
def ResponseWriter.result (w : ResponseWriter) : Response :=
  let w1 := w.WriteHeader StatusOK
  { status := w1.code, contentType := headerGet w1.sentHeader "Content-Type", body := w1.body }

/-! ## `time`: `time.Parse("2006-01-02", value)` and `Time.MarshalJSON` -/

/-- The `isDigit` of package `time`: an ASCII decimal digit. -/
def isDigit (c : Char) : Bool := decide (48 ≤ c.toNat) && decide (c.toNat ≤ 57)

/-- The value of an ASCII decimal digit. -/
def digitVal (c : Char) : Nat := c.toNat - 48

/-- The layout element `2006` (`stdLongYear`): at least four characters, and
the first four are digits (`atoi` of `value[0:4]` must consume all of it). -/
def parseLongYear : List Char → Option (Nat × List Char)
  | a :: b :: c :: d :: rest =>
      if isDigit a && isDigit b && isDigit c && isDigit d then
        some (digitVal a * 1000 + digitVal b * 100 + digitVal c * 10 + digitVal d, rest)
      else none
  | _ => none

/-- The `getnum(s, true)` of package `time`: exactly two digits. -/
def getnum : List Char → Option (Nat × List Char)
  | a :: b :: rest =>
      if isDigit a && isDigit b then some (digitVal a * 10 + digitVal b, rest) else none
  | _ => none

/-- The `skip(value, "-")` of package `time`: the literal text of the layout
must be present. -/
def skipDash : List Char → Option (List Char)
  | c :: rest => if c = '-' then some rest else none
  | [] => none

/-- The `isLeap(year)` of package `time`. -/
def isLeap (year : Nat) : Bool :=
  year % 4 == 0 && (year % 100 != 0 || year % 400 == 0)

/-- The `daysIn(m, year)` of package `time`. -/
def daysIn (m year : Nat) : Nat :=
  if m == 2 && isLeap year then 29
  else match m with
    | 1 => 31 | 2 => 28 | 3 => 31 | 4 => 30 | 5 => 31 | 6 => 30
    | 7 => 31 | 8 => 31 | 9 => 30 | 10 => 31 | 11 => 30 | 12 => 31
    | _ => 0

/-- The `time.Parse("2006-01-02", value)` of the standard library, chunk by
chunk: year, `-`, zero-padded month (range checked at once), `-`, zero-padded
day, no text left over, and finally the day validated against the month. -/
def timeParse (value : String) : Except GoError Time :=
  match parseLongYear value.data with
  | none => .error (.other "parsing time: cannot parse as \"2006\"")
  | some (year, v1) =>
    match skipDash v1 with
    | none => .error (.other "parsing time: cannot parse as \"-\"")
    | some v2 =>
      match getnum v2 with
      | none => .error (.other "parsing time: cannot parse as \"01\"")
      | some (month, v3) =>
        if month = 0 ∨ 12 < month then .error (.other "parsing time: month out of range")
        else
          match skipDash v3 with
          | none => .error (.other "parsing time: cannot parse as \"-\"")
          | some v4 =>
            match getnum v4 with
            | none => .error (.other "parsing time: cannot parse as \"02\"")
            | some (day, v5) =>
              if v5 ≠ [] then .error (.other "parsing time: extra text")
              else if day < 1 ∨ daysIn month year < day then
                .error (.other "parsing time: day out of range")
              else .ok { year := (year : Int), month := month, day := day }

/-- The decimal digit character of a number below ten. -/
def digitChar (n : Nat) : Char := Char.ofNat (48 + n % 10)

/-- A number written with two decimal digits. -/
def pad2 (n : Nat) : List Char := [digitChar (n / 10), digitChar n]

/-- A number written with four decimal digits. -/
def pad4 (n : Nat) : List Char :=
  [digitChar (n / 1000), digitChar (n / 100), digitChar (n / 10), digitChar n]

/-- The text `YYYY-MM-DD` of a calendar date. -/
def formatDate (year month day : Nat) : String :=
  String.mk (pad4 year ++ ['-'] ++ pad2 month ++ ['-'] ++ pad2 day)

/-- The `Time.MarshalJSON` of the standard library on a midnight-UTC time: the
quoted RFC 3339 text, or an error when the year is outside `0..9999`. -/
def Time.MarshalJSON (t : Time) : Except GoError String :=
  if t.year < 0 ∨ 10000 ≤ t.year then
    .error (.other "Time.MarshalJSON: year outside of range [0,9999]")
  else
    .ok ("\"" ++ formatDate t.year.toNat t.month t.day ++ "T00:00:00Z\"")

/-! ## `encoding/json`: values and the scanner -/

/-- A JSON value as the scanner of `encoding/json` delimits it; a number keeps
its literal text, a string is already unquoted. -/
inductive JSON where
  | null
  | bool (b : Bool)
  | num (text : List Char)
  | str (s : String)
  | arr (elems : List JSON)
  | obj (members : List (String × JSON))
  deriving Repr

/-- The `isSpace` of the scanner: space, tab, carriage return, line feed. -/
def isSpace (c : Char) : Bool :=
  c == ' ' || c == '\t' || c == '\r' || c == '\n'

/-- Drops leading JSON white space. -/
def skipSpace : List Char → List Char
  | [] => []
  | c :: cs => if isSpace c then skipSpace cs else c :: cs

/-- The value of a hexadecimal digit (`0-9`, `a-f`, `A-F`). -/
def hexVal (c : Char) : Option Nat :=
  if 48 ≤ c.toNat ∧ c.toNat ≤ 57 then some (c.toNat - 48)
  else if 97 ≤ c.toNat ∧ c.toNat ≤ 102 then some (c.toNat - 87)
  else if 65 ≤ c.toNat ∧ c.toNat ≤ 70 then some (c.toNat - 55)
  else none

/-- The `getu4` of `encoding/json` on the four characters after a
backslash-u: the UTF-16 code unit they spell. -/
def getu4 : List Char → Option (Nat × List Char)
  | a :: b :: c :: d :: rest =>
      match hexVal a, hexVal b, hexVal c, hexVal d with
      | some x, some y, some z, some w => some (x * 4096 + y * 256 + z * 16 + w, rest)
      | _, _, _, _ => none
  | _ => none

/-- The rune written for a UTF-16 code unit `rr` read from an escape, given
the text after it: a high surrogate followed by an escaped low surrogate is
the combined rune (both consumed), any other surrogate is U+FFFD. -/
def decodeU (rr : Nat) (rest : List Char) : Char × List Char :=
  if 0xD800 ≤ rr ∧ rr < 0xE000 then
    match rest with
    | '\\' :: 'u' :: more =>
        match getu4 more with
        | some (rr1, rest2) =>
            if rr < 0xDC00 ∧ 0xDC00 ≤ rr1 ∧ rr1 < 0xE000 then
              (Char.ofNat ((rr - 0xD800) * 1024 + (rr1 - 0xDC00) + 0x10000), rest2)
            else (Char.ofNat 0xFFFD, rest)
        | none => (Char.ofNat 0xFFFD, rest)
    | _ => (Char.ofNat 0xFFFD, rest)
  else (Char.ofNat rr, rest)

/-- The character a one-letter escape stands for (`unquote`). -/
def simpleEscape (e : Char) : Option Char :=
  if e = '\"' then some '\"'
  else if e = '\\' then some '\\'
  else if e = '/' then some '/'
  else if e = 'b' then some (Char.ofNat 8)
  else if e = 'f' then some (Char.ofNat 12)
  else if e = 'n' then some '\n'
  else if e = 'r' then some '\r'
  else if e = 't' then some '\t'
  else none

/-- What the scanner finds next inside a string literal. -/
inductive StringStep where
  | done (rest : List Char)
  | char (ch : Char) (rest : List Char)
  | fail

/-- One step inside a string literal (`stateInString`, `stateInStringEsc`,
`stateInStringEscU` and the matching part of `unquote`): the closing quote, an
escape, or a literal character, which must not be a control character. -/
def stringStep (c : Char) (cs : List Char) : StringStep :=
  if c = '\"' then .done cs
  else if c = '\\' then
    match cs with
    | [] => .fail
    | e :: rest =>
        if e = 'u' then
          match getu4 rest with
          | none => .fail
          | some (rr, rest1) => .char (decodeU rr rest1).1 (decodeU rr rest1).2
        else
          match simpleEscape e with
          | none => .fail
          | some ch => .char ch rest
  else if c.toNat < 0x20 then .fail
  else .char c cs

/-- Scans a string literal after its opening quote and unquotes it: returns
the text and what follows the closing quote.  The fuel bounds the characters
of the text. -/
def scanString : Nat → List Char → Option (List Char × List Char)
  | 0, _ => none
  | _ + 1, [] => none
  | fuel + 1, c :: cs =>
      match stringStep c cs with
      | .done rest => some ([], rest)
      | .fail => none
      | .char ch rest =>
          match scanString fuel rest with
          | some (s, r) => some (ch :: s, r)
          | none => none

/-- Splits off the leading decimal digits. -/
def takeDigits : List Char → List Char × List Char
  | [] => ([], [])
  | c :: cs =>
      if isDigit c then
        let r := takeDigits cs
        (c :: r.1, r.2)
      else ([], c :: cs)

/-- The exponent of a number (`stateE`, `stateESign`, `stateE0`), entered after
an `e` or `E`: an optional sign and at least one digit. -/
def scanExp (cs : List Char) : Option (List Char × List Char) :=
  let signed : List Char × List Char :=
    match cs with
    | c :: rest => if c = '+' ∨ c = '-' then ([c], rest) else ([], cs)
    | [] => ([], [])
  match takeDigits signed.2 with
  | ([], _) => none
  | (ds, rest) => some (signed.1 ++ ds, rest)

/-- The part of a number after its integer digits (`state0`, `state1`,
`stateDot`, `stateDot0`): an optional fraction, which needs a digit, and an
optional exponent; anything else ends the number. -/
def scanFracExp (cs : List Char) : Option (List Char × List Char) :=
  let withExp (cs : List Char) : Option (List Char × List Char) :=
    match cs with
    | c :: rest =>
        if c = 'e' ∨ c = 'E' then
          match scanExp rest with
          | some (t, r) => some (c :: t, r)
          | none => none
        else some ([], cs)
    | [] => some ([], [])
  match cs with
  | c :: rest =>
      if c = '.' then
        match takeDigits rest with
        | ([], _) => none
        | (ds, rest1) =>
            match withExp rest1 with
            | some (t, r) => some (c :: ds ++ t, r)
            | none => none
      else withExp cs
  | [] => some ([], [])

/-- The integer digits of a number (`stateBeginValue`, `stateNeg`): a lone
`0`, or a non-zero digit followed by digits. -/
def scanInt : List Char → Option (List Char × List Char)
  | [] => none
  | c :: cs =>
      if c = '0' then some ([c], cs)
      else if isDigit c then
        let r := takeDigits cs
        some (c :: r.1, r.2)
      else none

/-- Scans a number literal: an optional minus sign, the integer digits, then
fraction and exponent. -/
def scanNumber (cs : List Char) : Option (List Char × List Char) :=
  let signed : List Char × List Char :=
    match cs with
    | c :: rest => if c = '-' then ([c], rest) else ([], cs)
    | [] => ([], [])
  match scanInt signed.2 with
  | none => none
  | some (ds, rest) =>
      match scanFracExp rest with
      | none => none
      | some (t, r) => some (signed.1 ++ ds ++ t, r)

/-- Expects the given text at the head of the input (the rest of a literal
name such as `rue` after `t`). -/
def expectText : List Char → List Char → Option (List Char)
  | [], cs => some cs
  | _ :: _, [] => none
  | e :: es, c :: cs => if c = e then expectText es cs else none

/-- The deepest nesting the scanner accepts (`maxNestingDepth`). -/
def maxNestingDepth : Nat := 10000

mutual
/-- Scans one JSON value at the head of the input (no leading white space) and
returns it with the text that follows.  The fuel bounds the recursion, `depth`
is the number of arrays and objects already open. -/
def scanValue : Nat → Nat → List Char → Option (JSON × List Char)
  | 0, _, _ => none
  | _ + 1, _, [] => none
  | fuel + 1, depth, c :: cs =>
      if c = '\x7b' then
        if maxNestingDepth ≤ depth then none
        else
          match skipSpace cs with
          | [] => none
          | d :: ds =>
              if d = '\x7d' then some (.obj [], ds)
              else
                match scanMembers fuel (depth + 1) (d :: ds) with
                | some (ms, r) => some (.obj ms, r)
                | none => none
      else if c = '[' then
        if maxNestingDepth ≤ depth then none
        else
          match skipSpace cs with
          | [] => none
          | d :: ds =>
              if d = ']' then some (.arr [], ds)
              else
                match scanElems fuel (depth + 1) (d :: ds) with
                | some (es, r) => some (.arr es, r)
                | none => none
      else if c = '\"' then
        match scanString (cs.length + 1) cs with
        | some (s, r) => some (.str (String.mk s), r)
        | none => none
      else if c = 't' then
        match expectText ['r', 'u', 'e'] cs with
        | some r => some (.bool true, r)
        | none => none
      else if c = 'f' then
        match expectText ['a', 'l', 's', 'e'] cs with
        | some r => some (.bool false, r)
        | none => none
      else if c = 'n' then
        match expectText ['u', 'l', 'l'] cs with
        | some r => some (.null, r)
        | none => none
      else
        match scanNumber (c :: cs) with
        | some (t, r) => some (.num t, r)
        | none => none
/-- Scans the elements of an array after the first element has been found to
start: a value, then a comma and more elements, or the closing bracket. -/
def scanElems : Nat → Nat → List Char → Option (List JSON × List Char)
  | 0, _, _ => none
  | fuel + 1, depth, cs =>
      match scanValue fuel depth cs with
      | none => none
      | some (v, r) =>
          match skipSpace r with
          | [] => none
          | d :: ds =>
              if d = ',' then
                match scanElems fuel depth (skipSpace ds) with
                | some (vs, r2) => some (v :: vs, r2)
                | none => none
              else if d = ']' then some ([v], ds)
              else none
/-- Scans the members of an object: a string key, a colon, a value, then a
comma and more members, or the closing brace. -/
def scanMembers : Nat → Nat → List Char → Option (List (String × JSON) × List Char)
  | 0, _, _ => none
  | _ + 1, _, [] => none
  | fuel + 1, depth, c :: cs =>
      if c = '\"' then
        match scanString (cs.length + 1) cs with
        | none => none
        | some (k, r) =>
            match skipSpace r with
            | [] => none
            | d :: ds =>
                if d = ':' then
                  match scanValue fuel depth (skipSpace ds) with
                  | none => none
                  | some (v, r2) =>
                      match skipSpace r2 with
                      | [] => none
                      | e :: es =>
                          if e = ',' then
                            match scanMembers fuel depth (skipSpace es) with
                            | some (ms, r3) => some ((String.mk k, v) :: ms, r3)
                            | none => none
                          else if e = '\x7d' then some ([(String.mk k, v)], es)
                          else none
                else none
      else none
end

/-! ## `encoding/json`: decoding a request body into `CreatePetRequest` -/

/-- The `Decoder.readValue` of `encoding/json`: skips white space and delimits
the first JSON value of the stream.  An empty stream is `io.EOF`; whatever
follows the first value is left unread. -/
def readValue (body : String) : Except GoError JSON :=
  match skipSpace body.data with
  | [] => .error (.other "EOF")
  | c :: cs =>
      match scanValue ((c :: cs).length + 1) 0 (c :: cs) with
      | some (v, _) => .ok v
      | none => .error (.other "invalid character or unexpected end of JSON input")

/-- The `foldName` of `encoding/json` on the characters that can fold to an
ASCII letter: ASCII lower case to upper case, U+017F to `S`, U+212A to `K`. -/
def foldRune (c : Char) : Char :=
  if 97 ≤ c.toNat ∧ c.toNat ≤ 122 then Char.ofNat (c.toNat - 32)
  else if c.toNat = 0x17F then 'S'
  else if c.toNat = 0x212A then 'K'
  else c

/-- Folds every character of a key. -/
def foldName (key : String) : String := String.mk (key.data.map foldRune)

/-- The fields of `CreatePetRequest`. -/
inductive Field where
  | Name
  | Birth
  | BreedID
  deriving DecidableEq, Repr

/-- The field an object key selects: the exact JSON name of the struct tag
first, otherwise the name that matches under case folding; an unknown key
selects nothing and its value is skipped. -/
def lookupField (key : String) : Option Field :=
  if key = "name" then some .Name
  else if key = "birth" then some .Birth
  else if key = "breedId" then some .BreedID
  else if foldName key = "NAME" then some .Name
  else if foldName key = "BIRTH" then some .Birth
  else if foldName key = "BREEDID" then some .BreedID
  else none

/-- Stores a JSON value into a Go string (`literalStore`, `array`, `object`):
a string is assigned, `null` leaves the field untouched, every other value
leaves it untouched and reports an `UnmarshalTypeError`. -/
def storeString (v : JSON) (old : String) : String × Option GoError :=
  match v with
  | .str s => (s, none)
  | .null => (old, none)
  | .bool _ => (old, some (.other "json: cannot unmarshal bool into Go struct field of type string"))
  | .num _ => (old, some (.other "json: cannot unmarshal number into Go struct field of type string"))
  | .arr _ => (old, some (.other "json: cannot unmarshal array into Go struct field of type string"))
  | .obj _ => (old, some (.other "json: cannot unmarshal object into Go struct field of type string"))

/-- Keeps the first error (`decodeState.saveError`). -/
def saveError (saved : Option GoError) (err : Option GoError) : Option GoError :=
  match saved with
  | some e => some e
  | none => err

/-- Decodes the members of an object into the struct, in order; decoding goes
on after a type error, which is saved. -/
def unmarshalMembers :
    List (String × JSON) → CreatePetRequest → Option GoError → CreatePetRequest × Option GoError
  | [], req, saved => (req, saved)
  | (key, v) :: ms, req, saved =>
      match lookupField key with
      | none => unmarshalMembers ms req saved
      | some .Name =>
          let r := storeString v req.Name
          unmarshalMembers ms { req with Name := r.1 } (saveError saved r.2)
      | some .Birth =>
          let r := storeString v req.Birth
          unmarshalMembers ms { req with Birth := r.1 } (saveError saved r.2)
      | some .BreedID =>
          let r := storeString v req.BreedID
          unmarshalMembers ms { req with BreedID := r.1 } (saveError saved r.2)

/-- The `decodeState.unmarshal` of `encoding/json` into a zero
`CreatePetRequest`: an object fills the fields, `null` is a no-op, any other
value is an `UnmarshalTypeError`; a saved error is returned at the end. -/
def unmarshalCreatePetRequest (v : JSON) : Except GoError CreatePetRequest :=
  let zero : CreatePetRequest := { Name := "", Birth := "", BreedID := "" }
  match v with
  | .null => .ok zero
  | .obj ms =>
      match unmarshalMembers ms zero none with
      | (req, none) => .ok req
      | (_, some e) => .error e
  | _ => .error (.other "json: cannot unmarshal value into Go value of type types.CreatePetRequest")

/-- Runs `json.NewDecoder(r.Body).Decode(&requestBody)` on a fresh
`CreatePetRequest`: reads the first value of the body and unmarshals it. -/
def decodeCreatePetRequest (body : String) : Except GoError CreatePetRequest :=
  match readValue body with
  | .error e => .error e
  | .ok v => unmarshalCreatePetRequest v

/-! ## `encoding/json`: encoding the responses -/

/-- The lower-case hexadecimal digit of a number below sixteen. -/
def hexDigit (n : Nat) : Char :=
  if n % 16 < 10 then Char.ofNat (48 + n % 16) else Char.ofNat (87 + n % 16)

/-- The text the encoder writes for one character of a string
(`appendString` with HTML escaping, the default of `Encoder`): quote and
backslash are escaped, backspace, form feed, line feed, carriage return and
tab get their short escape (as of Go 1.22), other control characters and `<`,
`>`, `&` are written as `\u00XX`, U+2028 and U+2029 as `\u2028` and
`\u2029`, and every other character as itself. -/
def escapeChar (c : Char) : List Char :=
  if c = '\"' then ['\\', '\"']
  else if c = '\\' then ['\\', '\\']
  else if c.toNat = 8 then ['\\', 'b']
  else if c.toNat = 12 then ['\\', 'f']
  else if c = '\n' then ['\\', 'n']
  else if c = '\r' then ['\\', 'r']
  else if c = '\t' then ['\\', 't']
  else if c.toNat < 0x20 ∨ c = '<' ∨ c = '>' ∨ c = '&' then
    ['\\', 'u', '0', '0', hexDigit (c.toNat / 16), hexDigit c.toNat]
  else if c.toNat = 0x2028 then ['\\', 'u', '2', '0', '2', '8']
  else if c.toNat = 0x2029 then ['\\', 'u', '2', '0', '2', '9']
  else [c]

/-- The inside of the JSON string literal of a Go string: every character as
the encoder writes it. -/
def escapeText (s : String) : List Char := (s.data.map escapeChar).flatten

/-- The JSON string literal of a Go string. -/
def encodeString (s : String) : List Char :=
  ['\"'] ++ escapeText s ++ ['\"']

/-- The JSON object of a `Breed`, fields in declaration order under their
struct tags. -/
def marshalBreed (b : Breed) : List Char :=
  "\x7b\"id\":".data ++ encodeString b.ID ++ ",\"name\":".data ++ encodeString b.Name
    ++ ",\"temperament\":".data ++ encodeString b.Temperament
    ++ ",\"origin\":".data ++ encodeString b.Origin ++ ['\x7d']

/-- The JSON object of a `Pet`; it fails when `Birth` cannot be marshalled. -/
def marshalPet (p : Pet) : Except GoError (List Char) :=
  match p.Birth.MarshalJSON with
  | .error e => .error (.wrap "json: error calling MarshalJSON for type time.Time" e)
  | .ok t =>
      .ok ("\x7b\"id\":".data ++ encodeString p.ID ++ ",\"name\":".data ++ encodeString p.Name
        ++ ",\"birth\":".data ++ t.data ++ ",\"breed\":".data ++ marshalBreed p.Breed ++ ['\x7d'])

/-- Joins encoded array elements with commas. -/
def joinElems : List (List Char) → List Char
  | [] => []
  | [x] => x
  | x :: y :: rest => x ++ [','] ++ joinElems (y :: rest)

/-- The JSON text of a `[]types.Breed`: `null` for the nil slice, otherwise an
array of the elements. -/
def marshalBreeds : Slice Breed → List Char
  | none => "null".data
  | some l => ['['] ++ joinElems (l.map marshalBreed) ++ [']']

/-- Marshals every pet in order, stopping at the first failure. -/
def marshalPetList : List Pet → Except GoError (List (List Char))
  | [] => .ok []
  | p :: ps =>
      match marshalPet p with
      | .error e => .error e
      | .ok t =>
          match marshalPetList ps with
          | .error e => .error e
          | .ok ts => .ok (t :: ts)

/-- The JSON text of a `[]types.Pet`: `null` for the nil slice, otherwise an
array of the elements. -/
def marshalPets : Slice Pet → Except GoError (List Char)
  | none => .ok "null".data
  | some l =>
      match marshalPetList l with
      | .error e => .error e
      | .ok ts => .ok (['['] ++ joinElems ts ++ [']'])

/-- Runs `json.NewEncoder(w).Encode(v)` given the outcome of marshalling `v`:
on success the text and a newline are written in one `Write`, on failure
nothing is written and the error is returned. -/
def encodeTo (w : ResponseWriter) (m : Except GoError (List Char)) :
    ResponseWriter × Option GoError :=
  match m with
  | .error e => (w, some e)
  | .ok t => (w.Write (String.mk (t ++ ['\n'])), none)

/-! ## `path.Base` -/

/-- The `path.Base(path)` of the standard library: the last element of the
path after trailing slashes are removed; `.` for the empty path and `/` for a
path of slashes only. -/
def pathBase (path : String) : String :=
  if path = "" then "."
  else
    let stripped := (path.data.reverse.dropWhile (fun c => c == '/')).reverse
    let last := (stripped.reverse.takeWhile (fun c => c != '/')).reverse
    if last = [] then "/" else String.mk last

/-! ## Store contract (`internal/store/store.go`) -/

/-- The `BreedStore` interface.  Every method receives the state of the world
behind the store and returns the state it leaves.  A nil error comes with the
record it announces. -/
structure BreedStore (σ : Type) where
  GetBreedByID : String → σ → Except GoError Breed × σ
  GetBreeds : σ → Except GoError (Slice Breed) × σ

/-- The `PetStore` interface. -/
structure PetStore (σ : Type) where
  GetPets : σ → Except GoError (Slice Pet) × σ
  GetPetByID : String → σ → Except GoError Pet × σ
  CreatePet : String → Time → String → σ → Except GoError Pet × σ

/-! ## Handlers (`internal/handlers`) -/

/-- What a handler reads of an `*http.Request`: the method, `r.URL.Path` and
the whole body. -/
structure Request where
  Method : String
  Path : String
  Body : String
  deriving DecidableEq, Repr

structure PetHandler (σ : Type) where
  petStore : PetStore σ
  breedStore : BreedStore σ

structure BreedHandler (σ : Type) where
  breedStore : BreedStore σ

def NewPetHandler {σ : Type} (ps : PetStore σ) (bs : BreedStore σ) : PetHandler σ :=
  { petStore := ps, breedStore := bs }

def NewBreedHandler {σ : Type} (bs : BreedStore σ) : BreedHandler σ :=
  { breedStore := bs }

/-- The method `BreedHandler.GetBreedsHandler` (log output is not modelled). -/
def GetBreedsHandler {σ : Type} (h : BreedHandler σ) (w : ResponseWriter) (_r : Request)
    (s : σ) : ResponseWriter × σ :=
  match h.breedStore.GetBreeds s with
  | (.error _, s1) => (httpError w "Internal Server Error" StatusInternalServerError, s1)
  | (.ok breeds, s1) =>
      let w1 := w.setHeader "Content-Type" "application/json"
      match encodeTo w1 (.ok (marshalBreeds breeds)) with
      | (w2, some _) => (httpError w2 "Internal Server Error" StatusInternalServerError, s1)
      | (w2, none) => (w2, s1)

/-- The method `BreedHandler.GetBreedByIDHandler`. -/
def GetBreedByIDHandler {σ : Type} (h : BreedHandler σ) (w : ResponseWriter) (r : Request)
    (s : σ) : ResponseWriter × σ :=
  let id := pathBase r.Path
  match h.breedStore.GetBreedByID id s with
  | (.error err, s1) =>
      if errorsIs err .ErrNotFound then (httpError w "Breed not found" StatusNotFound, s1)
      else (httpError w "Internal Server Error" StatusInternalServerError, s1)
  | (.ok breed, s1) =>
      let w1 := w.setHeader "Content-Type" "application/json"
      match encodeTo w1 (.ok (marshalBreed breed)) with
      | (w2, some _) => (httpError w2 "Internal Server Error" StatusInternalServerError, s1)
      | (w2, none) => (w2, s1)

/-- The method `PetHandler.getPetsHandler`. -/
def getPetsHandler {σ : Type} (ph : PetHandler σ) (w : ResponseWriter) (_r : Request)
    (s : σ) : ResponseWriter × σ :=
  match ph.petStore.GetPets s with
  | (.error _, s1) => (httpError w "Internal Server Error" StatusInternalServerError, s1)
  | (.ok pets, s1) =>
      let w1 := w.setHeader "Content-Type" "application/json"
      match encodeTo w1 (marshalPets pets) with
      | (w2, some _) => (httpError w2 "Internal Server Error" StatusInternalServerError, s1)
      | (w2, none) => (w2, s1)

/-- The method `PetHandler.GetPetByIDHandler`. -/
def GetPetByIDHandler {σ : Type} (ph : PetHandler σ) (w : ResponseWriter) (r : Request)
    (s : σ) : ResponseWriter × σ :=
  let id := pathBase r.Path
  match ph.petStore.GetPetByID id s with
  | (.error err, s1) =>
      if errorsIs err .ErrNotFound then (httpError w "Pet not found" StatusNotFound, s1)
      else (httpError w "Internal Server Error" StatusInternalServerError, s1)
  | (.ok pet, s1) =>
      let w1 := w.setHeader "Content-Type" "application/json"
      match encodeTo w1 (marshalPet pet) with
      | (w2, some _) => (httpError w2 "Internal Server Error" StatusInternalServerError, s1)
      | (w2, none) => (w2, s1)

/-- The method `PetHandler.createPetHandler`: decode the body, check the
breed, parse the birth date, create the pet, and answer 201 with the encoded
pet (an encoding failure is only logged). -/
def createPetHandler {σ : Type} (ph : PetHandler σ) (w : ResponseWriter) (r : Request)
    (s : σ) : ResponseWriter × σ :=
  match decodeCreatePetRequest r.Body with
  | .error _ => (httpError w "Error decoding the body of the request" StatusBadRequest, s)
  | .ok requestBody =>
      match ph.breedStore.GetBreedByID requestBody.BreedID s with
      | (.error _, s1) => (httpError w "Error at checking the breed" StatusBadRequest, s1)
      | (.ok _, s1) =>
          match timeParse requestBody.Birth with
          | .error _ =>
              (httpError w "Bad date of birth format. Use YYYY-MM-DD" StatusBadRequest, s1)
          | .ok birth =>
              match ph.petStore.CreatePet requestBody.Name birth requestBody.BreedID s1 with
              | (.error _, s2) =>
                  (httpError w "Error creating pet" StatusInternalServerError, s2)
              | (.ok newPet, s2) =>
                  let w1 := w.setHeader "Content-Type" "application/json"
                  let w2 := w1.WriteHeader StatusCreated
                  ((encodeTo w2 (marshalPet newPet)).1, s2)

/-- The method `PetHandler.PetsHandler`: dispatch on the request method. -/
def PetsHandler {σ : Type} (ph : PetHandler σ) (w : ResponseWriter) (r : Request)
    (s : σ) : ResponseWriter × σ :=
  if r.Method = "GET" then getPetsHandler ph w r s
  else if r.Method = "POST" then createPetHandler ph w r s
  else (httpError w "Method Not Allowed" StatusMethodNotAllowed, s)

/-! ## Test doubles (`internal/handlers/*_test.go`) -/

structure PetStoreMock where
  pets : Slice Pet
  breeds : Slice Breed
  fail : Bool
  deriving DecidableEq, Repr

structure BreedStoreMock where
  breeds : Slice Breed
  deriving DecidableEq, Repr

/-- The two test doubles a `PetHandler` under test is built from. -/
structure MockWorld where
  petStore : PetStoreMock
  breedStore : BreedStoreMock
  deriving DecidableEq, Repr

def PetStoreMock.GetPets (m : PetStoreMock) : Except GoError (Slice Pet) × PetStoreMock :=
  if m.fail then (.error (.other "store error"), m) else (.ok m.pets, m)

def PetStoreMock.GetPetByID (m : PetStoreMock) (id : String) :
    Except GoError Pet × PetStoreMock :=
  if m.fail then (.error (.other "store error"), m)
  else
    match (Slice.elems m.pets).find? (fun p => p.ID == id) with
    | some p => (.ok p, m)
    | none => (.error .ErrNotFound, m)

def PetStoreMock.CreatePet (m : PetStoreMock) (name : String) (birth : Time)
    (breedID : String) : Except GoError Pet × PetStoreMock :=
  if m.fail then (.error (.other "store error"), m)
  else
    match (Slice.elems m.breeds).find? (fun b => b.ID == breedID) with
    | none => (.error .ErrNotFound, m)
    | some breed =>
        let pet : Pet := { ID := "new-pet-id", Name := name, Birth := birth, Breed := breed }
        (.ok pet, { m with pets := Slice.append m.pets pet })

def BreedStoreMock.GetBreedByID (m : BreedStoreMock) (id : String) :
    Except GoError Breed × BreedStoreMock :=
  match (Slice.elems m.breeds).find? (fun b => b.ID == id) with
  | some b => (.ok b, m)
  | none => (.error .ErrNotFound, m)

def BreedStoreMock.GetBreeds (m : BreedStoreMock) : Except GoError (Slice Breed) × BreedStoreMock :=
  (.ok m.breeds, m)

/-- The `PetStoreMock` as a `PetStore` over the world of the two doubles. -/
def mockPetStore : PetStore MockWorld where
  GetPets := fun s => ((s.petStore.GetPets).1, { s with petStore := (s.petStore.GetPets).2 })
  GetPetByID := fun id s =>
    ((s.petStore.GetPetByID id).1, { s with petStore := (s.petStore.GetPetByID id).2 })
  CreatePet := fun name birth breedID s =>
    ((s.petStore.CreatePet name birth breedID).1,
      { s with petStore := (s.petStore.CreatePet name birth breedID).2 })

/-- The `BreedStoreMock` as a `BreedStore` over the world of the two doubles. -/
def mockBreedStore : BreedStore MockWorld where
  GetBreedByID := fun id s =>
    ((s.breedStore.GetBreedByID id).1, { s with breedStore := (s.breedStore.GetBreedByID id).2 })
  GetBreeds := fun s =>
    ((s.breedStore.GetBreeds).1, { s with breedStore := (s.breedStore.GetBreeds).2 })

/-- The handler of `TestCreatePetHandler`. -/
def mockPetHandler : PetHandler MockWorld := NewPetHandler mockPetStore mockBreedStore

/-- The stores of `TestCreatePetHandler`: one breed `b1`, no pets. -/
def testWorld : MockWorld :=
  { petStore :=
      { pets := none,
        breeds := some [{ ID := "b1", Name := "Breed1", Temperament := "T1", Origin := "O1" }],
        fail := false },
    breedStore :=
      { breeds := some [{ ID := "b1", Name := "Breed1", Temperament := "T1", Origin := "O1" }] } }

/-! ## Relational store (`internal/store/postgres_store.go`) -/

/-- A row of table `pets`. -/
structure PetRow where
  id : String
  name : String
  birth : Time
  breed_id : String
  deriving DecidableEq, Repr

/-- Modelled from the spec: the persisted schema, which the repository keeps
outside its Go sources: `breeds(id PK, name, temperament, origin)` and
`pets(id PK, name, birth date, breed_id FK -> breeds.id)`.  `seq` numbers the
identifiers the database generates for new pets, and `fault`, when set, is the
driver error with which the backend fails every statement (connectivity). -/
structure Database where
  breeds : List Breed
  pets : List PetRow
  seq : Nat
  fault : Option GoError
  deriving DecidableEq, Repr

/-- A result set of `database/sql`: the outcome of `rows.Scan` on each row
that `rows.Next` delivers, and the `rows.Err()` seen when iteration ends. -/
structure Rows (α : Type) where
  scans : List (Except GoError α)
  err : Option GoError

/-- The rows of `SELECT id, name, temperament, origin FROM breeds`. -/
def Database.queryBreeds (db : Database) : Except GoError (Rows Breed) :=
  match db.fault with
  | some e => .error e
  | none => .ok { scans := db.breeds.map .ok, err := none }

/-- The row of `SELECT id, name, temperament, origin FROM breeds WHERE id=$1`
as `QueryRow(..).Scan(..)` delivers it: the first match, or `sql.ErrNoRows`. -/
def Database.queryRowBreed (db : Database) (id : String) : Except GoError Breed :=
  match db.fault with
  | some e => .error e
  | none =>
      match db.breeds.find? (fun b => b.ID == id) with
      | some b => .ok b
      | none => .error .ErrNoRows

/-- The rows of `pets p JOIN breeds b ON p.breed_id = b.id`, each as the pet
with its embedded breed. -/
def Database.joinPets (db : Database) : List Pet :=
  db.pets.flatMap (fun p =>
    (db.breeds.filter (fun b => b.ID == p.breed_id)).map
      (fun b => { ID := p.id, Name := p.name, Birth := p.birth, Breed := b }))

/-- The rows of the pets query of `GetPets`. -/
def Database.queryPets (db : Database) : Except GoError (Rows Pet) :=
  match db.fault with
  | some e => .error e
  | none => .ok { scans := db.joinPets.map .ok, err := none }

/-- The row of the pets query of `GetPetByID` (`WHERE p.id=$1`). -/
def Database.queryRowPet (db : Database) (id : String) : Except GoError Pet :=
  match db.fault with
  | some e => .error e
  | none =>
      match db.joinPets.find? (fun p => p.ID == id) with
      | some p => .ok p
      | none => .error .ErrNoRows

/-- The statement `INSERT INTO pets (name, birth, breed_id) VALUES ($1, $2, $3)
RETURNING id`: the foreign key is checked, the row is stored under a generated
identifier, and the identifier is returned. -/
def Database.insertPet (db : Database) (name : String) (birth : Time) (breedID : String) :
    Except GoError String × Database :=
  match db.fault with
  | some e => (.error e, db)
  | none =>
      if db.breeds.any (fun b => b.ID == breedID) then
        let newID := String.mk (Nat.toDigits 10 db.seq)
        (.ok newID,
          { db with
            pets := db.pets ++ [{ id := newID, name := name, birth := birth, breed_id := breedID }],
            seq := db.seq + 1 })
      else (.error (.other "pq: insert on table \"pets\" violates foreign key constraint"), db)

/-- The statement `DELETE FROM pets WHERE id=$1` through `db.Exec`: it
succeeds whether or not a row matched. -/
def Database.execDeletePet (db : Database) (id : String) : Option GoError × Database :=
  match db.fault with
  | some e => (some e, db)
  | none => (none, { db with pets := db.pets.filter (fun p => p.id != id) })

structure PostgresStore where
  db : Database
  deriving DecidableEq, Repr

/-- The row loop of `GetBreeds`: scan each row and append it, stopping at the
first scan error. -/
def scanBreedRows : List (Except GoError Breed) → Slice Breed → Except GoError (Slice Breed)
  | [], breeds => .ok breeds
  | .error err :: _, _ => .error (.wrap "failed to scan breed" err)
  | .ok breed :: rest, breeds => scanBreedRows rest (Slice.append breeds breed)

/-- The method `PostgresStore.GetBreeds`; `breeds` starts as the nil slice
(`var breeds []types.Breed`). -/
def PostgresStore.GetBreeds (s : PostgresStore) : Except GoError (Slice Breed) × PostgresStore :=
  match s.db.queryBreeds with
  | .error err => (.error (.wrap "failed to query breeds" err), s)
  | .ok rows =>
      match scanBreedRows rows.scans none with
      | .error e => (.error e, s)
      | .ok breeds =>
          match rows.err with
          | some err => (.error (.wrap "error iterating over rows" err), s)
          | none => (.ok breeds, s)

/-- The method `PostgresStore.GetBreedByID`; the `switch err` compares the
scan error with `sql.ErrNoRows` by identity. -/
def PostgresStore.GetBreedByID (s : PostgresStore) (id : String) :
    Except GoError Breed × PostgresStore :=
  match s.db.queryRowBreed id with
  | .error .ErrNoRows => (.error .ErrNotFound, s)
  | .ok breed => (.ok breed, s)
  | .error err => (.error (.wrap ("query error for breed ID " ++ id) err), s)

/-- The row loop of `GetPets`. -/
def scanPetRows : List (Except GoError Pet) → Slice Pet → Except GoError (Slice Pet)
  | [], pets => .ok pets
  | .error err :: _, _ => .error (.wrap "failed to scan pet or breed" err)
  | .ok pet :: rest, pets => scanPetRows rest (Slice.append pets pet)

/-- The method `PostgresStore.GetPets`; `pets` starts as the nil slice. -/
def PostgresStore.GetPets (s : PostgresStore) : Except GoError (Slice Pet) × PostgresStore :=
  match s.db.queryPets with
  | .error err => (.error (.wrap "failed to query pets" err), s)
  | .ok rows =>
      match scanPetRows rows.scans none with
      | .error e => (.error e, s)
      | .ok pets =>
          match rows.err with
          | some err => (.error (.wrap "error iterating over rows" err), s)
          | none => (.ok pets, s)

/-- The method `PostgresStore.GetPetByID`. -/
def PostgresStore.GetPetByID (s : PostgresStore) (id : String) :
    Except GoError Pet × PostgresStore :=
  match s.db.queryRowPet id with
  | .error .ErrNoRows => (.error .ErrNotFound, s)
  | .ok pet => (.ok pet, s)
  | .error err => (.error (.wrap ("query error for breed ID " ++ id) err), s)

/-- The method `PostgresStore.CreatePet`: look the breed up first, then
insert and build the pet around the generated identifier. -/
def PostgresStore.CreatePet (s : PostgresStore) (name : String) (birth : Time)
    (breedID : String) : Except GoError Pet × PostgresStore :=
  match s.GetBreedByID breedID with
  | (.error err, s1) => (.error (.wrap ("failed to get breed with ID " ++ breedID) err), s1)
  | (.ok breed, s1) =>
      match s1.db.insertPet name birth breedID with
      | (.error err, db2) => (.error (.wrap "failed to insert pet and get ID" err), { db := db2 })
      | (.ok newPetID, db2) =>
          (.ok { ID := newPetID, Name := name, Birth := birth, Breed := breed }, { db := db2 })

/-- The method `PostgresStore.DeletePet`: the result of `Exec` is discarded
and only its error is returned. -/
def PostgresStore.DeletePet (s : PostgresStore) (id : String) : Option GoError × PostgresStore :=
  match s.db.execDeletePet id with
  | (some err, db1) => (some err, { db := db1 })
  | (none, db1) => (none, { db := db1 })

/-- The `PostgresStore` as the `BreedStore` that `main` passes to the server. -/
def postgresBreedStore : BreedStore PostgresStore where
  GetBreedByID := fun id s => s.GetBreedByID id
  GetBreeds := fun s => s.GetBreeds

/-- The `PostgresStore` as the `PetStore` that `main` passes to the server. -/
def postgresPetStore : PetStore PostgresStore where
  GetPets := fun s => s.GetPets
  GetPetByID := fun id s => s.GetPetByID id
  CreatePet := fun name birth breedID s => s.CreatePet name birth breedID

/-- The method `PetStoreMock.DeletePet` of the handler tests: the last pet
with the identifier is removed, and a missing identifier is `ErrNotFound`. -/
def PetStoreMock.DeletePet (m : PetStoreMock) (id : String) : Option GoError × PetStoreMock :=
  let idxs := (List.range (Slice.elems m.pets).length).filter
    (fun i => ((Slice.elems m.pets).get? i).any (fun p => p.ID == id))
  match idxs.getLast? with
  | none => (some .ErrNotFound, m)
  | some index => (none, { m with pets := some ((Slice.elems m.pets).eraseIdx index) })

/-! ## Instrumentation and specification-side notions -/

/-- A call on a store interface. -/
inductive StoreCall where
  | GetBreedByID (id : String)
  | GetBreeds
  | GetPets
  | GetPetByID (id : String)
  | CreatePet (name : String) (birth : Time) (breedID : String)
  deriving DecidableEq, Repr

/-- Whether a call is a `CreatePet`. -/
def StoreCall.isCreatePet : StoreCall → Bool
  | .CreatePet _ _ _ => true
  | _ => false

/-- A breed store that also records each call it receives, in order. -/
def tracedBreedStore {σ : Type} (bs : BreedStore σ) : BreedStore (σ × List StoreCall) where
  GetBreedByID := fun id st =>
    ((bs.GetBreedByID id st.1).1, ((bs.GetBreedByID id st.1).2, st.2 ++ [.GetBreedByID id]))
  GetBreeds := fun st => ((bs.GetBreeds st.1).1, ((bs.GetBreeds st.1).2, st.2 ++ [.GetBreeds]))

/-- A pet store that also records each call it receives, in order. -/
def tracedPetStore {σ : Type} (ps : PetStore σ) : PetStore (σ × List StoreCall) where
  GetPets := fun st => ((ps.GetPets st.1).1, ((ps.GetPets st.1).2, st.2 ++ [.GetPets]))
  GetPetByID := fun id st =>
    ((ps.GetPetByID id st.1).1, ((ps.GetPetByID id st.1).2, st.2 ++ [.GetPetByID id]))
  CreatePet := fun name birth breedID st =>
    ((ps.CreatePet name birth breedID st.1).1,
      ((ps.CreatePet name birth breedID st.1).2, st.2 ++ [.CreatePet name birth breedID]))

/-- A pet handler over the recording stores. -/
def tracedPetHandler {σ : Type} (ph : PetHandler σ) : PetHandler (σ × List StoreCall) :=
  NewPetHandler (tracedPetStore ph.petStore) (tracedBreedStore ph.breedStore)

/-- A breed handler over the recording store. -/
def tracedBreedHandler {σ : Type} (h : BreedHandler σ) : BreedHandler (σ × List StoreCall) :=
  NewBreedHandler (tracedBreedStore h.breedStore)

/-- A stateless breed store that knows the single breed `b`. -/
def singleBreedStore (b : Breed) : BreedStore Unit where
  GetBreedByID := fun id s => if id = b.ID then (.ok b, s) else (.error .ErrNotFound, s)
  GetBreeds := fun s => (.ok (some [b]), s)

/-- A stateless pet store that holds the single pet `p` and answers every
`CreatePet` with it. -/
def singlePetStore (p : Pet) : PetStore Unit where
  GetPets := fun s => (.ok (some [p]), s)
  GetPetByID := fun id s => if id = p.ID then (.ok p, s) else (.error .ErrNotFound, s)
  CreatePet := fun _ _ _ s => (.ok p, s)

/-- The number of days of a month of the Gregorian calendar: February has 29
days in a leap year (a multiple of 4 that is not a multiple of 100, or a
multiple of 400) and 28 otherwise; April, June, September and November have
30; the other months 31. -/
def monthLength (year month : Nat) : Nat :=
  if month = 2 then
    if year % 400 = 0 ∨ (year % 4 = 0 ∧ year % 100 ≠ 0) then 29 else 28
  else if month = 4 ∨ month = 6 ∨ month = 9 ∨ month = 11 then 30
  else 31

/-- A string that is a valid calendar date written exactly as `YYYY-MM-DD`:
the four-digit year, the two-digit month and the two-digit day of a day that
exists, separated by dashes, with nothing before or after. -/
def IsCalendarDate (s : String) : Prop :=
  ∃ year month day : Nat, year ≤ 9999 ∧ 1 ≤ month ∧ month ≤ 12 ∧ 1 ≤ day ∧
    day ≤ monthLength year month ∧ s = formatDate year month day

/-- The `json.Valid(data)` of the standard library: the whole text is one
JSON value with nothing but white space around it. -/
def jsonValid (body : String) : Bool :=
  match skipSpace body.data with
  | [] => false
  | c :: cs =>
      match scanValue ((c :: cs).length + 1) 0 (c :: cs) with
      | some (_, rest) => decide (skipSpace rest = [])
      | none => false

/-- The value of the member `key` of a JSON object, as decoding into a struct
sees it: the last member with that key. -/
def JSON.member (key : String) : JSON → Option JSON
  | .obj ms => ((ms.filter (fun kv => kv.1 == key)).getLast?).map (fun kv => kv.2)
  | _ => none

/-- The JSON value of a `Breed`. -/
def breedJSON (b : Breed) : JSON :=
  .obj [("id", .str b.ID), ("name", .str b.Name), ("temperament", .str b.Temperament),
    ("origin", .str b.Origin)]

/-- The JSON value of a `Pet` whose birth is in the range that
`Time.MarshalJSON` accepts. -/
def petJSON (p : Pet) : JSON :=
  .obj [("id", .str p.ID), ("name", .str p.Name),
    ("birth", .str (formatDate p.Birth.year.toNat p.Birth.month p.Birth.day ++ "T00:00:00Z")),
    ("breed", breedJSON p.Breed)]

/-! ## `encoding/json`: decoding the list responses -/

/-- The representation invariant of a `time.Time` seen as a date: the month
and the day are those of an existing calendar day. -/
def Time.IsDate (t : Time) : Prop :=
  1 ≤ t.month ∧ t.month ≤ 12 ∧ 1 ≤ t.day ∧ t.day ≤ daysIn t.month t.year.toNat

/-- The `Time.UnmarshalJSON` of the standard library on the times of the
model: `null` leaves the time untouched, a string must be an RFC 3339 text,
and of those only `YYYY-MM-DDT00:00:00Z` denotes a midnight-UTC date; any other
value is an error.  The date part is checked as `parseRFC3339` does (four
digits, month in range, day of the month in range), which is the check of the
layout `2006-01-02`.  The text is taken unquoted, which for a literal without
escapes, as the encoder writes it, is the raw text Go parses. -/
def storeTime (v : JSON) (old : Time) : Except GoError Time :=
  match v with
  | .null => .ok old
  | .str s =>
      if s.data.drop 10 = ['T', '0', '0', ':', '0', '0', ':', '0', '0', 'Z'] then
        timeParse (String.mk (s.data.take 10))
      else .error (.other "parsing time: not the text of a midnight UTC date")
  | _ => .error (.other "Time.UnmarshalJSON: input is not a JSON string")

/-- The fields of `Breed`. -/
inductive BreedField where
  | ID
  | Name
  | Temperament
  | Origin
  deriving DecidableEq, Repr

/-- The field of `Breed` an object key selects: the exact name of the struct
tag first, otherwise the name that matches under case folding. -/
def lookupBreedField (key : String) : Option BreedField :=
  if key = "id" then some .ID
  else if key = "name" then some .Name
  else if key = "temperament" then some .Temperament
  else if key = "origin" then some .Origin
  else if foldName key = "ID" then some .ID
  else if foldName key = "NAME" then some .Name
  else if foldName key = "TEMPERAMENT" then some .Temperament
  else if foldName key = "ORIGIN" then some .Origin
  else none

/-- Decodes the members of an object into a `Breed`, in order, keeping the
first type error. -/
def unmarshalBreedMembers :
    List (String × JSON) → Breed → Option GoError → Breed × Option GoError
  | [], b, saved => (b, saved)
  | (key, v) :: ms, b, saved =>
      match lookupBreedField key with
      | none => unmarshalBreedMembers ms b saved
      | some .ID =>
          let r := storeString v b.ID
          unmarshalBreedMembers ms { b with ID := r.1 } (saveError saved r.2)
      | some .Name =>
          let r := storeString v b.Name
          unmarshalBreedMembers ms { b with Name := r.1 } (saveError saved r.2)
      | some .Temperament =>
          let r := storeString v b.Temperament
          unmarshalBreedMembers ms { b with Temperament := r.1 } (saveError saved r.2)
      | some .Origin =>
          let r := storeString v b.Origin
          unmarshalBreedMembers ms { b with Origin := r.1 } (saveError saved r.2)

/-- Stores a JSON value into a `Breed` (`decodeState.value` on a struct): an
object fills the fields, `null` is a no-op, any other value is a saved type
error. -/
def storeBreed (v : JSON) (old : Breed) (saved : Option GoError) : Breed × Option GoError :=
  match v with
  | .obj ms => unmarshalBreedMembers ms old saved
  | .null => (old, saved)
  | _ =>
      (old, saveError saved
        (some (.other "json: cannot unmarshal value into Go value of type types.Breed")))

/-- The fields of `Pet`. -/
inductive PetField where
  | ID
  | Name
  | Birth
  | Breed
  deriving DecidableEq, Repr

/-- The field of `Pet` an object key selects. -/
def lookupPetField (key : String) : Option PetField :=
  if key = "id" then some .ID
  else if key = "name" then some .Name
  else if key = "birth" then some .Birth
  else if key = "breed" then some .Breed
  else if foldName key = "ID" then some .ID
  else if foldName key = "NAME" then some .Name
  else if foldName key = "BIRTH" then some .Birth
  else if foldName key = "BREED" then some .Breed
  else none

/-- Decodes the members of an object into a `Pet`, in order.  A type error is
saved and decoding goes on; an error of `Time.UnmarshalJSON` ends decoding. -/
def unmarshalPetMembers :
    List (String × JSON) → Pet → Option GoError → Except GoError (Pet × Option GoError)
  | [], p, saved => .ok (p, saved)
  | (key, v) :: ms, p, saved =>
      match lookupPetField key with
      | none => unmarshalPetMembers ms p saved
      | some .ID =>
          let r := storeString v p.ID
          unmarshalPetMembers ms { p with ID := r.1 } (saveError saved r.2)
      | some .Name =>
          let r := storeString v p.Name
          unmarshalPetMembers ms { p with Name := r.1 } (saveError saved r.2)
      | some .Birth =>
          match storeTime v p.Birth with
          | .error e => .error e
          | .ok t => unmarshalPetMembers ms { p with Birth := t } saved
      | some .Breed =>
          let r := storeBreed v p.Breed saved
          unmarshalPetMembers ms { p with Breed := r.1 } r.2

/-- Stores a JSON value into a `Pet`. -/
def storePet (v : JSON) (old : Pet) (saved : Option GoError) :
    Except GoError (Pet × Option GoError) :=
  match v with
  | .obj ms => unmarshalPetMembers ms old saved
  | .null => .ok (old, saved)
  | _ =>
      .ok (old, saveError saved
        (some (.other "json: cannot unmarshal value into Go value of type types.Pet")))

/-- The zero `Breed`. -/
def zeroBreed : Breed := { ID := "", Name := "", Temperament := "", Origin := "" }

/-- The zero `Pet`; the zero `time.Time` is January 1 of the year 1. -/
def zeroPet : Pet :=
  { ID := "", Name := "", Birth := { year := 1, month := 1, day := 1 }, Breed := zeroBreed }

/-- Decodes the elements of an array into a slice that starts empty: each
element is stored into a zero `Breed`. -/
def storeBreedElems : List JSON → Option GoError → List Breed × Option GoError
  | [], saved => ([], saved)
  | v :: vs, saved =>
      let r := storeBreed v zeroBreed saved
      let rs := storeBreedElems vs r.2
      (r.1 :: rs.1, rs.2)

/-- Decodes the elements of an array into a slice of pets that starts
empty. -/
def storePetElems : List JSON → Option GoError → Except GoError (List Pet × Option GoError)
  | [], saved => .ok ([], saved)
  | v :: vs, saved =>
      match storePet v zeroPet saved with
      | .error e => .error e
      | .ok r =>
          match storePetElems vs r.2 with
          | .error e => .error e
          | .ok rs => .ok (r.1 :: rs.1, rs.2)

/-- The `decodeState.unmarshal` of `encoding/json` into a nil
`[]types.Breed`: `null` gives the nil slice, an array a slice of its elements
(non-nil also when empty), any other value is a type error; a saved error is
returned at the end. -/
def unmarshalBreeds (v : JSON) : Except GoError (Slice Breed) :=
  match v with
  | .null => .ok none
  | .arr es =>
      match storeBreedElems es none with
      | (l, none) => .ok (some l)
      | (_, some e) => .error e
  | _ => .error (.other "json: cannot unmarshal value into Go value of type []types.Breed")

/-- The `decodeState.unmarshal` of `encoding/json` into a nil `[]types.Pet`. -/
def unmarshalPets (v : JSON) : Except GoError (Slice Pet) :=
  match v with
  | .null => .ok none
  | .arr es =>
      match storePetElems es none with
      | .error e => .error e
      | .ok (l, none) => .ok (some l)
      | .ok (_, some e) => .error e
  | _ => .error (.other "json: cannot unmarshal value into Go value of type []types.Pet")

/-- Runs `json.NewDecoder(body).Decode(&breeds)` on a nil `[]types.Breed`, as
the handler tests do with the response body. -/
def decodeBreeds (body : String) : Except GoError (Slice Breed) :=
  match readValue body with
  | .error e => .error e
  | .ok v => unmarshalBreeds v

/-- Runs `json.NewDecoder(body).Decode(&pets)` on a nil `[]types.Pet`. -/
def decodePets (body : String) : Except GoError (Slice Pet) :=
  match readValue body with
  | .error e => .error e
  | .ok v => unmarshalPets v

/-! ## What the decoder accepts, and the statements a store method runs -/

/-- Whether a JSON value can be stored into a Go string without a type error:
a string or `null`. -/
def JSON.isStringOrNull : JSON → Bool
  | .str _ => true
  | .null => true
  | _ => false

/-- Whether a JSON value decodes into a `CreatePetRequest` without error: the
value `null`, or an object in which every member whose key names a field (the
struct tag exactly, or up to letter case) holds a string or `null`.  Members
with other keys may hold anything. -/
def fitsCreatePetRequest : JSON → Bool
  | .null => true
  | .obj ms => ms.all (fun kv => (lookupField kv.1).isNone || kv.2.isStringOrNull)
  | _ => false

/-- What `GetBreedByID` and `CreatePet` ask of `s.db`: the single-row breed
query and the `INSERT ... RETURNING id`, each run against the state of the
backend and returning the state it leaves. -/
structure SqlBackend (σ : Type) where
  queryRowBreed : String → σ → Except GoError Breed × σ
  insertPet : String → Time → String → σ → Except GoError String × σ

/-- The method `PostgresStore.GetBreedByID` over any backend. -/
def GetBreedByIDOn {σ : Type} (db : SqlBackend σ) (id : String) (s : σ) :
    Except GoError Breed × σ :=
  match db.queryRowBreed id s with
  | (.error .ErrNoRows, s1) => (.error .ErrNotFound, s1)
  | (.ok breed, s1) => (.ok breed, s1)
  | (.error err, s1) => (.error (.wrap ("query error for breed ID " ++ id) err), s1)

/-- The method `PostgresStore.CreatePet` over any backend: the breed lookup,
and only when it succeeds the `INSERT`. -/
def CreatePetOn {σ : Type} (db : SqlBackend σ) (name : String) (birth : Time)
    (breedID : String) (s : σ) : Except GoError Pet × σ :=
  match GetBreedByIDOn db breedID s with
  | (.error err, s1) => (.error (.wrap ("failed to get breed with ID " ++ breedID) err), s1)
  | (.ok breed, s1) =>
      match db.insertPet name birth breedID s1 with
      | (.error err, s2) => (.error (.wrap "failed to insert pet and get ID" err), s2)
      | (.ok newPetID, s2) =>
          (.ok { ID := newPetID, Name := name, Birth := birth, Breed := breed }, s2)

/-- The relational database as a backend. -/
def databaseBackend : SqlBackend Database where
  queryRowBreed := fun id db => (db.queryRowBreed id, db)
  insertPet := fun name birth breedID db => db.insertPet name birth breedID

/-- A statement sent to the backend. -/
inductive SqlStatement where
  | SelectBreed (id : String)
  | InsertPet (name : String) (birth : Time) (breedID : String)
  deriving DecidableEq, Repr

/-- Whether a statement is the `INSERT`. -/
def SqlStatement.isInsert : SqlStatement → Bool
  | .InsertPet _ _ _ => true
  | _ => false

/-- A backend that also records each statement it is sent, in order. -/
def tracedBackend {σ : Type} (db : SqlBackend σ) : SqlBackend (σ × List SqlStatement) where
  queryRowBreed := fun id st =>
    ((db.queryRowBreed id st.1).1, ((db.queryRowBreed id st.1).2, st.2 ++ [.SelectBreed id]))
  insertPet := fun name birth breedID st =>
    ((db.insertPet name birth breedID st.1).1,
      ((db.insertPet name birth breedID st.1).2, st.2 ++ [.InsertPet name birth breedID]))

/-! ## Response lemmas -/

theorem httpError_fresh_result (msg : String) (code : Nat) :
    (httpError NewRecorder msg code).result =
      { status := code, contentType := "text/plain; charset=utf-8", body := msg ++ "\n" } := by
  simp [httpError, NewRecorder, ResponseWriter.result, ResponseWriter.Write,
    ResponseWriter.WriteHeader, ResponseWriter.setHeader, ResponseWriter.delHeader,
    headerSet, headerDel, headerGet]

theorem httpError_json_result (msg : String) (code : Nat) :
    (httpError (NewRecorder.setHeader "Content-Type" "application/json") msg code).result =
      { status := code, contentType := "text/plain; charset=utf-8", body := msg ++ "\n" } := by
  simp [httpError, NewRecorder, ResponseWriter.result, ResponseWriter.Write,
    ResponseWriter.WriteHeader, ResponseWriter.setHeader, ResponseWriter.delHeader,
    headerSet, headerDel, headerGet]

theorem encode_ok_result (t : List Char) :
    (encodeTo (NewRecorder.setHeader "Content-Type" "application/json") (.ok t)).1.result =
      { status := StatusOK, contentType := "application/json", body := String.mk (t ++ ['\n']) } := by
  simp [encodeTo, NewRecorder, ResponseWriter.result, ResponseWriter.Write,
    ResponseWriter.WriteHeader, ResponseWriter.setHeader,
    headerSet, headerDel, headerGet]

theorem encode_created_result (m : Except GoError (List Char)) :
    (encodeTo ((NewRecorder.setHeader "Content-Type" "application/json").WriteHeader
        StatusCreated) m).1.result =
      { status := StatusCreated, contentType := "application/json",
        body := match m with
          | .ok t => String.mk (t ++ ['\n'])
          | .error _ => "" } := by
  cases m <;>
  simp [encodeTo, NewRecorder, ResponseWriter.result, ResponseWriter.Write,
    ResponseWriter.WriteHeader, ResponseWriter.setHeader,
    headerSet, headerDel, headerGet]

/-! ## The date layout `2006-01-02` -/

theorem digitChar_toNat (n : Nat) : (digitChar n).toNat = 48 + n % 10 := by
  have h : n % 10 < 10 := Nat.mod_lt _ (by decide)
  unfold digitChar
  generalize n % 10 = k at h
  interval_cases k <;> rfl

theorem isDigit_digitChar (n : Nat) : isDigit (digitChar n) = true := by
  simp [isDigit, digitChar_toNat]
  omega

theorem digitVal_digitChar (n : Nat) : digitVal (digitChar n) = n % 10 := by
  simp [digitVal, digitChar_toNat]

theorem digitChar_congr {a b : Nat} (h : a % 10 = b % 10) : digitChar a = digitChar b := by
  simp [digitChar, h]

theorem digitVal_lt {c : Char} (h : isDigit c = true) : digitVal c < 10 := by
  simp [isDigit] at h
  simp only [digitVal]
  omega

theorem digitChar_digitVal {c : Char} (h : isDigit c = true) : digitChar (digitVal c) = c := by
  simp [isDigit] at h
  have h2 : 48 + (c.toNat - 48) % 10 = c.toNat := by omega
  simp only [digitChar, digitVal, h2, Char.ofNat_toNat]

theorem daysIn_eq_monthLength (year month : Nat) (h1 : 1 ≤ month) (h2 : month ≤ 12) :
    daysIn month year = monthLength year month := by
  have hleap : isLeap year = true ↔ (year % 400 = 0 ∨ (year % 4 = 0 ∧ year % 100 ≠ 0)) := by
    simp [isLeap]
    omega
  by_cases hl : isLeap year = true
  · have hl2 := hleap.mp hl
    interval_cases month <;> simp [daysIn, monthLength, hl, hl2]
  · have hl2 : ¬ (year % 400 = 0 ∨ (year % 4 = 0 ∧ year % 100 ≠ 0)) := fun h => hl (hleap.mpr h)
    interval_cases month <;> simp [daysIn, monthLength, hl, hl2]

theorem monthLength_le (year month : Nat) : monthLength year month ≤ 31 := by
  unfold monthLength
  split_ifs <;> omega

theorem parseLongYear_pad4 (year : Nat) (h : year ≤ 9999) (rest : List Char) :
    parseLongYear (pad4 year ++ rest) = some (year, rest) := by
  simp only [pad4, List.cons_append, List.nil_append, parseLongYear, isDigit_digitChar,
    digitVal_digitChar, Bool.and_self, if_true, Option.some.injEq, Prod.mk.injEq, and_true]
  omega

theorem getnum_pad2 (n : Nat) (h : n ≤ 99) (rest : List Char) :
    getnum (pad2 n ++ rest) = some (n, rest) := by
  simp only [pad2, List.cons_append, List.nil_append, getnum, isDigit_digitChar,
    digitVal_digitChar, Bool.and_self, if_true, Option.some.injEq, Prod.mk.injEq, and_true]
  omega

theorem timeParse_formatDate (year month day : Nat) (hy : year ≤ 9999) (hm1 : 1 ≤ month)
    (hm2 : month ≤ 12) (hd1 : 1 ≤ day) (hd2 : day ≤ monthLength year month) :
    timeParse (formatDate year month day) =
      .ok { year := (year : Int), month := month, day := day } := by
  have hd3 := monthLength_le year month
  have hdays := daysIn_eq_monthLength year month hm1 hm2
  have e1 : (formatDate year month day).data =
      pad4 year ++ ('-' :: (pad2 month ++ ('-' :: (pad2 day ++ [])))) := by
    simp [formatDate]
  unfold timeParse
  rw [e1, parseLongYear_pad4 year hy]
  simp only [skipDash, if_true]
  rw [getnum_pad2 month (by omega)]
  have hm3 : ¬ (month = 0 ∨ 12 < month) := by omega
  simp only [hm3, if_false, skipDash, if_true]
  rw [getnum_pad2 day (by omega)]
  have hd4 : ¬ (day < 1 ∨ daysIn month year < day) := by omega
  simp only [List.append_nil, ne_eq, not_true_eq_false, if_false, hd4]

theorem parseLongYear_inv {cs rest : List Char} {year : Nat}
    (h : parseLongYear cs = some (year, rest)) :
    year ≤ 9999 ∧ cs = pad4 year ++ rest := by
  match cs, h with
  | a :: b :: c :: d :: tl, h =>
    simp only [parseLongYear] at h
    split at h
    · rename_i hdig
      simp only [Bool.and_eq_true] at hdig
      obtain ⟨⟨⟨ha, hb⟩, hc⟩, hd⟩ := hdig
      simp only [Option.some.injEq, Prod.mk.injEq] at h
      obtain ⟨hy, hr⟩ := h
      have la := digitVal_lt ha
      have lb := digitVal_lt hb
      have lc := digitVal_lt hc
      have ld := digitVal_lt hd
      subst hr
      refine ⟨by omega, ?_⟩
      have e1 : digitChar (year / 1000) = a := by
        rw [← digitChar_digitVal ha]; exact digitChar_congr (by omega)
      have e2 : digitChar (year / 100) = b := by
        rw [← digitChar_digitVal hb]; exact digitChar_congr (by omega)
      have e3 : digitChar (year / 10) = c := by
        rw [← digitChar_digitVal hc]; exact digitChar_congr (by omega)
      have e4 : digitChar year = d := by
        rw [← digitChar_digitVal hd]; exact digitChar_congr (by omega)
      simp [pad4, e1, e2, e3, e4]
    · exact absurd h (by simp)
  | [], h => exact absurd h (by simp [parseLongYear])
  | [_], h => exact absurd h (by simp [parseLongYear])
  | [_, _], h => exact absurd h (by simp [parseLongYear])
  | [_, _, _], h => exact absurd h (by simp [parseLongYear])

theorem getnum_inv {cs rest : List Char} {n : Nat} (h : getnum cs = some (n, rest)) :
    n ≤ 99 ∧ cs = pad2 n ++ rest := by
  match cs, h with
  | a :: b :: tl, h =>
    simp only [getnum] at h
    split at h
    · rename_i hdig
      simp only [Bool.and_eq_true] at hdig
      obtain ⟨ha, hb⟩ := hdig
      simp only [Option.some.injEq, Prod.mk.injEq] at h
      obtain ⟨hy, hr⟩ := h
      have la := digitVal_lt ha
      have lb := digitVal_lt hb
      subst hr
      refine ⟨by omega, ?_⟩
      have e1 : digitChar (n / 10) = a := by
        rw [← digitChar_digitVal ha]; exact digitChar_congr (by omega)
      have e2 : digitChar n = b := by
        rw [← digitChar_digitVal hb]; exact digitChar_congr (by omega)
      simp [pad2, e1, e2]
    · exact absurd h (by simp)
  | [], h => exact absurd h (by simp [getnum])
  | [_], h => exact absurd h (by simp [getnum])

theorem skipDash_inv {cs rest : List Char} (h : skipDash cs = some rest) : cs = '-' :: rest := by
  match cs, h with
  | c :: tl, h =>
    simp only [skipDash] at h
    split at h
    · rename_i hc
      simp only [Option.some.injEq] at h
      rw [hc, h]
    · exact absurd h (by simp)
  | [], h => exact absurd h (by simp [skipDash])

theorem timeParse_inv {s : String} {t : Time} (h : timeParse s = .ok t) :
    ∃ year month day : Nat, year ≤ 9999 ∧ 1 ≤ month ∧ month ≤ 12 ∧ 1 ≤ day ∧
      day ≤ monthLength year month ∧ s = formatDate year month day ∧
      t = { year := (year : Int), month := month, day := day } := by
  unfold timeParse at h
  split at h
  · exact absurd h (by simp)
  · rename_i year v1 hyear
    split at h
    · exact absurd h (by simp)
    · rename_i v2 hdash1
      split at h
      · exact absurd h (by simp)
      · rename_i month v3 hmonth
        split at h
        · exact absurd h (by simp)
        · rename_i hmrange
          split at h
          · exact absurd h (by simp)
          · rename_i v4 hdash2
            split at h
            · exact absurd h (by simp)
            · rename_i day v5 hday
              split at h
              · exact absurd h (by simp)
              · rename_i hrest
                split at h
                · exact absurd h (by simp)
                · rename_i hdrange
                  simp only [Except.ok.injEq] at h
                  have hv5 : v5 = [] := by
                    by_contra hne
                    exact hrest hne
                  obtain ⟨hy, e1⟩ := parseLongYear_inv hyear
                  have e2 := skipDash_inv hdash1
                  obtain ⟨_, e3⟩ := getnum_inv hmonth
                  have e4 := skipDash_inv hdash2
                  obtain ⟨_, e5⟩ := getnum_inv hday
                  have hm1 : 1 ≤ month := by omega
                  have hm2 : month ≤ 12 := by omega
                  have hdays := daysIn_eq_monthLength year month hm1 hm2
                  refine ⟨year, month, day, hy, hm1, hm2, by omega, by omega, ?_, h.symm⟩
                  have hdata : s.data =
                      pad4 year ++ ['-'] ++ pad2 month ++ ['-'] ++ pad2 day := by
                    rw [e1, e2, e3, e4, e5, hv5]
                    simp
                  unfold formatDate
                  rw [← hdata]

theorem timeParse_ok_iff (s : String) : (∃ t, timeParse s = .ok t) ↔ IsCalendarDate s := by
  constructor
  · rintro ⟨t, h⟩
    obtain ⟨y, m, d, hy, hm1, hm2, hd1, hd2, hs, _⟩ := timeParse_inv h
    exact ⟨y, m, d, hy, hm1, hm2, hd1, hd2, hs⟩
  · rintro ⟨y, m, d, hy, hm1, hm2, hd1, hd2, hs⟩
    exact ⟨_, by rw [hs]; exact timeParse_formatDate y m d hy hm1 hm2 hd1 hd2⟩

/-! ## The scanner reads back what the encoder writes -/

theorem hexVal_hexDigit (n : Nat) : hexVal (hexDigit n) = some (n % 16) := by
  have h : n % 16 < 16 := Nat.mod_lt _ (by decide)
  unfold hexDigit
  generalize n % 16 = k at h
  interval_cases k <;> rfl

theorem char_eq_of_toNat {c : Char} {n : Nat} (h : c.toNat = n) : c = Char.ofNat n := by
  rw [← h, Char.ofNat_toNat]

theorem stringStep_escapeChar (c : Char) (tail : List Char) :
    ∃ e es, escapeChar c = e :: es ∧ stringStep e (es ++ tail) = .char c tail := by
  unfold escapeChar
  by_cases h1 : c = '\"'
  · subst h1; exact ⟨_, _, rfl, rfl⟩
  by_cases h2 : c = '\\'
  · subst h2; exact ⟨_, _, rfl, rfl⟩
  by_cases h3 : c.toNat = 8
  · have := char_eq_of_toNat h3; subst this; exact ⟨_, _, rfl, rfl⟩
  by_cases h4 : c.toNat = 12
  · have := char_eq_of_toNat h4; subst this; exact ⟨_, _, rfl, rfl⟩
  by_cases h5 : c = '\n'
  · subst h5; exact ⟨_, _, rfl, rfl⟩
  by_cases h6 : c = '\r'
  · subst h6; exact ⟨_, _, rfl, rfl⟩
  by_cases h7 : c = '\t'
  · subst h7; exact ⟨_, _, rfl, rfl⟩
  simp only [h1, h2, h3, h4, h5, h6, h7, if_false]
  by_cases h8 : c.toNat < 0x20 ∨ c = '<' ∨ c = '>' ∨ c = '&'
  · have hlt : c.toNat < 256 := by
      rcases h8 with h | h | h | h
      · omega
      · subst h; decide
      · subst h; decide
      · subst h; decide
    have hval : 0 * 4096 + 0 * 256 + c.toNat / 16 % 16 * 16 + c.toNat % 16 = c.toNat := by
      omega
    have h0 : hexVal '0' = some 0 := rfl
    have hu : getu4 ('0' :: '0' :: hexDigit (c.toNat / 16) :: hexDigit c.toNat :: tail) =
        some (c.toNat, tail) := by
      simp only [getu4, hexVal_hexDigit, h0, hval]
    have hd : decodeU c.toNat tail = (c, tail) := by
      have : ¬ (0xD800 ≤ c.toNat ∧ c.toNat < 0xE000) := by omega
      simp only [decodeU, this, if_false, Char.ofNat_toNat]
    refine ⟨'\\', ['u', '0', '0', hexDigit (c.toNat / 16), hexDigit c.toNat],
      by simp only [h8, if_true], ?_⟩
    have hb1 : ¬ ('\\' = '\"') := by decide
    simp only [stringStep, hb1, if_false, if_true, List.cons_append, List.nil_append, hu, hd]
  simp only [h8, if_false]
  by_cases h9 : c.toNat = 0x2028
  · have := char_eq_of_toNat h9; subst this; exact ⟨_, _, rfl, rfl⟩
  by_cases h10 : c.toNat = 0x2029
  · have := char_eq_of_toNat h10; subst this; exact ⟨_, _, rfl, rfl⟩
  have h11 : ¬ c.toNat < 0x20 := fun h => h8 (Or.inl h)
  refine ⟨c, [], by simp only [h9, h10, if_false], ?_⟩
  simp only [stringStep, h1, h2, h11, if_false, List.nil_append]

/-- The escaped inside of a string literal. -/
theorem scanString_escaped (l : List Char) (rest : List Char) (fuel : Nat)
    (hfuel : l.length < fuel) :
    scanString fuel ((l.map escapeChar).flatten ++ '\"' :: rest) = some (l, rest) := by
  induction l generalizing fuel with
  | nil =>
    obtain ⟨f, rfl⟩ : ∃ f, fuel = f + 1 := ⟨fuel - 1, by simp at hfuel; omega⟩
    simp [scanString, stringStep]
  | cons c l ih =>
    obtain ⟨f, rfl⟩ : ∃ f, fuel = f + 1 := ⟨fuel - 1, by simp at hfuel; omega⟩
    obtain ⟨e, es, he, hstep⟩ := stringStep_escapeChar c ((l.map escapeChar).flatten ++ '\"' :: rest)
    have hl : l.length < f := by simp at hfuel; omega
    simp only [List.map_cons, List.flatten_cons, he, List.cons_append, List.append_assoc,
      scanString, hstep, ih f hl]

theorem length_escaped (l : List Char) : l.length ≤ ((l.map escapeChar).flatten).length := by
  induction l with
  | nil => simp
  | cons c l ih =>
    obtain ⟨e, es, he, _⟩ := stringStep_escapeChar c []
    simp only [List.map_cons, List.flatten_cons, List.length_append, List.length_cons, he]
    omega



theorem scanString_escapeText (s : String) (rest : List Char) (fuel : Nat)
    (hfuel : s.data.length < fuel) :
    scanString fuel (escapeText s ++ '\"' :: rest) = some (s.data, rest) :=
  scanString_escaped s.data rest fuel hfuel

theorem scanString_escapeText_tail (s : String) (rest : List Char) :
    scanString ((escapeText s ++ '\"' :: rest).length + 1) (escapeText s ++ '\"' :: rest) =
      some (s.data, rest) := by
  apply scanString_escapeText
  have := length_escaped s.data
  simp only [escapeText, List.length_append, List.length_cons]
  omega

theorem skipSpace_cons_of_not_space {c : Char} (cs : List Char) (h : isSpace c = false) :
    skipSpace (c :: cs) = c :: cs := by
  simp [skipSpace, h]

/-- A string literal is scanned back to its text. -/
theorem scanValue_string (s : String) (f d : Nat) (rest : List Char) :
    scanValue (f + 1) d ('\"' :: (escapeText s ++ '\"' :: rest)) = some (.str s, rest) := by
  rw [scanValue]
  have h1 : ¬ ('\"' = '\x7b') := by decide
  have h2 : ¬ ('\"' = '[') := by decide
  rw [if_neg h1, if_neg h2, if_pos rfl, scanString_escapeText_tail]

/-- One member of an object: the key, the colon and a value that the scanner
reads, followed by what comes after the value. -/
theorem scanMembers_member (key : String) (f d : Nat) (vtext tail : List Char) (v : JSON)
    (hv : scanValue (f + 1) d (vtext ++ tail) = some (v, tail))
    (hns : skipSpace (vtext ++ tail) = vtext ++ tail) :
    scanMembers (f + 2) d ('\"' :: (escapeText key ++ '\"' :: ':' :: (vtext ++ tail))) =
      match skipSpace tail with
      | [] => none
      | e :: es =>
          if e = ',' then
            match scanMembers (f + 1) d (skipSpace es) with
            | some (ms, r3) => some ((key, v) :: ms, r3)
            | none => none
          else if e = '\x7d' then some ([(key, v)], es)
          else none := by
  rw [scanMembers, if_pos rfl, scanString_escapeText_tail]
  have hc : skipSpace (':' :: (vtext ++ tail)) = ':' :: (vtext ++ tail) :=
    skipSpace_cons_of_not_space _ (by decide)
  simp only [hc, if_true, hns, hv]

/-- A member with a string value, followed by another member. -/
theorem scanMembers_string_more (key val : String) (f d : Nat) (more : List Char) :
    scanMembers (f + 2) d
        ('\"' :: (escapeText key ++ '\"' :: ':' :: '\"' ::
          (escapeText val ++ '\"' :: ',' :: '\"' :: more))) =
      match scanMembers (f + 1) d ('\"' :: more) with
      | some (ms, r) => some ((key, .str val) :: ms, r)
      | none => none := by
  have hv := scanValue_string val f d (',' :: '\"' :: more)
  have h := scanMembers_member key f d ('\"' :: (escapeText val ++ ['\"'])) (',' :: '\"' :: more)
    (.str val) (by simpa using hv) (skipSpace_cons_of_not_space _ (by decide))
  have h1 : skipSpace (',' :: '\"' :: more) = ',' :: '\"' :: more :=
    skipSpace_cons_of_not_space _ (by decide)
  have h2 : skipSpace ('\"' :: more) = '\"' :: more :=
    skipSpace_cons_of_not_space _ (by decide)
  simp only [h1, h2, if_true, List.cons_append, List.append_assoc, List.nil_append] at h
  exact h

/-- A member with a string value that closes the object. -/
theorem scanMembers_string_last (key val : String) (f d : Nat) (r : List Char) :
    scanMembers (f + 2) d
        ('\"' :: (escapeText key ++ '\"' :: ':' :: '\"' ::
          (escapeText val ++ '\"' :: '\x7d' :: r))) =
      some ([(key, .str val)], r) := by
  have hv := scanValue_string val f d ('\x7d' :: r)
  have h := scanMembers_member key f d ('\"' :: (escapeText val ++ ['\"'])) ('\x7d' :: r)
    (.str val) (by simpa using hv) (skipSpace_cons_of_not_space _ (by decide))
  have h1 : skipSpace ('\x7d' :: r) = '\x7d' :: r :=
    skipSpace_cons_of_not_space _ (by decide)
  have h3 : ¬ ('\x7d' = ',') := by decide
  simp only [h1, h3, if_false, if_true, List.cons_append, List.append_assoc,
    List.nil_append] at h
  exact h

theorem skipSpace_quote (cs : List Char) : skipSpace ('\"' :: cs) = '\"' :: cs :=
  skipSpace_cons_of_not_space _ (by decide)

theorem skipSpace_brace (cs : List Char) : skipSpace ('\x7b' :: cs) = '\x7b' :: cs :=
  skipSpace_cons_of_not_space _ (by decide)

theorem marshalBreed_eq (b : Breed) :
    marshalBreed b =
      '\x7b' :: '\"' :: (escapeText "id" ++ '\"' :: ':' :: '\"' ::
        (escapeText b.ID ++ '\"' :: ',' :: '\"' :: (escapeText "name" ++ '\"' :: ':' :: '\"' ::
        (escapeText b.Name ++ '\"' :: ',' :: '\"' ::
        (escapeText "temperament" ++ '\"' :: ':' :: '\"' ::
        (escapeText b.Temperament ++ '\"' :: ',' :: '\"' ::
        (escapeText "origin" ++ '\"' :: ':' :: '\"' ::
        (escapeText b.Origin ++ ['\"', '\x7d'])))))))) := by
  have k1 : escapeText "id" = ['i', 'd'] := rfl
  have k2 : escapeText "name" = ['n', 'a', 'm', 'e'] := rfl
  have k3 : escapeText "temperament" =
      ['t', 'e', 'm', 'p', 'e', 'r', 'a', 'm', 'e', 'n', 't'] := rfl
  have k4 : escapeText "origin" = ['o', 'r', 'i', 'g', 'i', 'n'] := rfl
  have d1 : "\x7b\"id\":".data = ['\x7b', '\"', 'i', 'd', '\"', ':'] := rfl
  have d2 : ",\"name\":".data = [',', '\"', 'n', 'a', 'm', 'e', '\"', ':'] := rfl
  have d3 : ",\"temperament\":".data =
      [',', '\"', 't', 'e', 'm', 'p', 'e', 'r', 'a', 'm', 'e', 'n', 't', '\"', ':'] := rfl
  have d4 : ",\"origin\":".data = [',', '\"', 'o', 'r', 'i', 'g', 'i', 'n', '\"', ':'] := rfl
  simp only [marshalBreed, encodeString, k1, k2, k3, k4, d1, d2, d3, d4, List.cons_append,
    List.nil_append, List.append_assoc]

/-- The scanner reads the encoding of a breed back as its JSON value. -/
theorem scanValue_marshalBreed (b : Breed) (f d : Nat) (rest : List Char)
    (hd : d < maxNestingDepth) :
    scanValue (f + 6) d (marshalBreed b ++ rest) = some (breedJSON b, rest) := by
  have hd2 : ¬ (maxNestingDepth ≤ d) := by omega
  have hne : ¬ ('\"' = '\x7d') := by decide
  rw [marshalBreed_eq]
  simp only [List.cons_append, List.nil_append, List.append_assoc]
  rw [scanValue, if_pos rfl, if_neg hd2, skipSpace_quote]
  simp only [hne, if_false]
  rw [scanMembers_string_more "id" b.ID (f + 3) (d + 1),
    scanMembers_string_more "name" b.Name (f + 2) (d + 1),
    scanMembers_string_more "temperament" b.Temperament (f + 1) (d + 1),
    scanMembers_string_last "origin" b.Origin f (d + 1)]
  rfl

theorem escapeChar_digitChar (n : Nat) : escapeChar (digitChar n) = [digitChar n] := by
  have ht := digitChar_toNat n
  have hm : n % 10 < 10 := Nat.mod_lt _ (by decide)
  have c1 : digitChar n ≠ '\"' := fun h => by rw [h] at ht; revert ht; simp; omega
  have c2 : digitChar n ≠ '\\' := fun h => by rw [h] at ht; revert ht; simp; omega
  have c3 : digitChar n ≠ '\n' := fun h => by rw [h] at ht; revert ht; simp; omega
  have c4 : digitChar n ≠ '\r' := fun h => by rw [h] at ht; revert ht; simp; omega
  have c5 : digitChar n ≠ '\t' := fun h => by rw [h] at ht; revert ht; simp; omega
  have c6 : digitChar n ≠ '<' := fun h => by rw [h] at ht; revert ht; simp; omega
  have c7 : digitChar n ≠ '>' := fun h => by rw [h] at ht; revert ht; simp; omega
  have c8 : digitChar n ≠ '&' := fun h => by rw [h] at ht; revert ht; simp; omega
  have t1 : ¬ (digitChar n).toNat = 8 := by omega
  have t2 : ¬ (digitChar n).toNat = 12 := by omega
  have t3 : ¬ (digitChar n).toNat < 0x20 := by omega
  have t4 : ¬ (digitChar n).toNat = 0x2028 := by omega
  have t5 : ¬ (digitChar n).toNat = 0x2029 := by omega
  simp only [escapeChar, c1, c2, c3, c4, c5, c6, c7, c8, t1, t2, t3, t4, t5, if_false,
    or_self]

/-- The text of a birth date in RFC 3339 form needs no escaping. -/
theorem escapeText_birth (year month day : Nat) :
    escapeText (formatDate year month day ++ "T00:00:00Z") =
      (formatDate year month day ++ "T00:00:00Z").data := by
  have e1 : escapeChar '-' = ['-'] := by decide
  have e2 : escapeChar 'T' = ['T'] := by decide
  have e3 : escapeChar '0' = ['0'] := by decide
  have e4 : escapeChar ':' = [':'] := by decide
  have e5 : escapeChar 'Z' = ['Z'] := by decide
  have dz : "T00:00:00Z".data = ['T', '0', '0', ':', '0', '0', ':', '0', '0', 'Z'] := rfl
  simp only [escapeText, formatDate, String.data_append, dz, pad4, pad2, List.cons_append,
    List.nil_append, List.map_cons, List.map_nil, List.flatten_cons, List.flatten_nil,
    escapeChar_digitChar, e1, e2, e3, e4, e5, List.append_assoc, List.append_nil]

theorem marshalPet_eq (p : Pet) (h1 : 0 ≤ p.Birth.year) (h2 : p.Birth.year < 10000) :
    marshalPet p = .ok
      ('\x7b' :: '\"' :: (escapeText "id" ++ '\"' :: ':' :: '\"' ::
        (escapeText p.ID ++ '\"' :: ',' :: '\"' :: (escapeText "name" ++ '\"' :: ':' :: '\"' ::
        (escapeText p.Name ++ '\"' :: ',' :: '\"' :: (escapeText "birth" ++ '\"' :: ':' :: '\"' ::
        (escapeText (formatDate p.Birth.year.toNat p.Birth.month p.Birth.day ++ "T00:00:00Z")
          ++ '\"' :: ',' :: '\"' :: (escapeText "breed" ++ '\"' :: ':' ::
        (marshalBreed p.Breed ++ ['\x7d']))))))))) := by
  have k1 : escapeText "id" = ['i', 'd'] := rfl
  have k2 : escapeText "name" = ['n', 'a', 'm', 'e'] := rfl
  have k3 : escapeText "birth" = ['b', 'i', 'r', 't', 'h'] := rfl
  have k4 : escapeText "breed" = ['b', 'r', 'e', 'e', 'd'] := rfl
  have d1 : "\x7b\"id\":".data = ['\x7b', '\"', 'i', 'd', '\"', ':'] := rfl
  have d2 : ",\"name\":".data = [',', '\"', 'n', 'a', 'm', 'e', '\"', ':'] := rfl
  have d3 : ",\"birth\":".data = [',', '\"', 'b', 'i', 'r', 't', 'h', '\"', ':'] := rfl
  have d4 : ",\"breed\":".data = [',', '\"', 'b', 'r', 'e', 'e', 'd', '\"', ':'] := rfl
  have d5 : "\"".data = ['\"'] := rfl
  have d6 : "T00:00:00Z\"".data = "T00:00:00Z".data ++ ['\"'] := rfl
  have hr : ¬ (p.Birth.year < 0 ∨ 10000 ≤ p.Birth.year) := by omega
  simp only [marshalPet, Time.MarshalJSON, hr, if_false, encodeString, k1, k2, k3, k4, d1, d2,
    d3, d4, d5, d6, escapeText_birth, String.data_append, List.cons_append, List.nil_append,
    List.append_assoc]

/-- The scanner reads the encoding of a pet back as its JSON value. -/
theorem scanValue_marshalPet (p : Pet) (t : List Char) (f : Nat) (rest : List Char)
    (h1 : 0 ≤ p.Birth.year) (h2 : p.Birth.year < 10000) (ht : marshalPet p = .ok t) :
    scanValue (f + 11) 0 (t ++ rest) = some (petJSON p, rest) := by
  rw [marshalPet_eq p h1 h2] at ht
  simp only [Except.ok.injEq] at ht
  subst ht
  have hd2 : ¬ (maxNestingDepth ≤ 0) := by decide
  have hne : ¬ ('\"' = '\x7d') := by decide
  simp only [List.cons_append, List.nil_append, List.append_assoc]
  rw [scanValue, if_pos rfl, if_neg hd2, skipSpace_quote]
  simp only [hne, if_false]
  rw [scanMembers_string_more "id" p.ID (f + 8) 1,
    scanMembers_string_more "name" p.Name (f + 7) 1,
    scanMembers_string_more "birth" _ (f + 6) 1]
  have hb := scanValue_marshalBreed p.Breed f 1 ('\x7d' :: rest) (by decide)
  have hm := scanMembers_member "breed" (f + 5) 1 (marshalBreed p.Breed) ('\x7d' :: rest)
    (breedJSON p.Breed) hb (by rw [marshalBreed_eq]; exact skipSpace_brace _)
  have h3 : skipSpace ('\x7d' :: rest) = '\x7d' :: rest :=
    skipSpace_cons_of_not_space _ (by decide)
  have h4 : ¬ ('\x7d' = ',') := by decide
  simp only [h3, h4, if_false, if_true] at hm
  rw [hm]
  rfl

/-- A text that starts with a character that is not white space and that the
scanner reads as one value is what `readValue` returns. -/
theorem readValue_of_scan (c : Char) (cs : List Char) (v : JSON) (rest : List Char)
    (hsp : isSpace c = false) (k : Nat) (hlen : k ≤ (c :: cs).length + 1)
    (hscan : ∀ f, scanValue (f + k) 0 (c :: cs) = some (v, rest)) :
    readValue (String.mk (c :: cs)) = .ok v := by
  obtain ⟨f, hf⟩ := Nat.exists_eq_add_of_le hlen
  have h := hscan f
  rw [Nat.add_comm f k, ← hf] at h
  simp only [readValue, skipSpace_cons_of_not_space cs hsp, h]

/-- The body written for a pet that can be encoded reads back as the JSON
value of the pet. -/
theorem readValue_pet_body (p : Pet) (t : List Char) (h1 : 0 ≤ p.Birth.year)
    (h2 : p.Birth.year < 10000) (ht : marshalPet p = .ok t) :
    readValue (String.mk (t ++ ['\n'])) = .ok (petJSON p) := by
  have hscan : ∀ f, scanValue (f + 11) 0 (t ++ ['\n']) = some (petJSON p, ['\n']) :=
    fun f => scanValue_marshalPet p t f ['\n'] h1 h2 ht
  rw [marshalPet_eq p h1 h2] at ht
  simp only [Except.ok.injEq] at ht
  subst ht
  simp only [List.cons_append] at hscan ⊢
  refine readValue_of_scan _ _ _ ['\n'] (by decide) 11 ?_ hscan
  simp only [List.length_cons, List.length_append]
  omega

theorem member_name_petJSON (p : Pet) : JSON.member "name" (petJSON p) = some (.str p.Name) :=
  rfl

theorem member_breed_id_petJSON (p : Pet) :
    (JSON.member "breed" (petJSON p)).bind (JSON.member "id") = some (.str p.Breed.ID) :=
  rfl

/-- C1 (as amended): when the body decodes, the breed exists, the birth parses
to `birth` and `CreatePet` returns the pet `p`, `createPetHandler` answers 201
with content type `application/json`.  When the birth year of `p` lies in
`0..9999` (as it does whenever `p` carries the submitted date) the body is the
JSON encoding of `p` and a newline, it reads back as the JSON value of `p`, and
its `name` and `breed.id` are the submitted name and breed identifier whenever
`p` carries them; otherwise `p` cannot be encoded and the body is empty. -/
theorem createPetHandler_created {σ : Type} (ph : PetHandler σ) (r : Request) (s : σ)
    (req : CreatePetRequest) (breed : Breed) (birth : Time) (p : Pet)
    (hdec : decodeCreatePetRequest r.Body = .ok req)
    (hbreed : (ph.breedStore.GetBreedByID req.BreedID s).1 = .ok breed)
    (hdate : timeParse req.Birth = .ok birth)
    (hcreate : (ph.petStore.CreatePet req.Name birth req.BreedID
        (ph.breedStore.GetBreedByID req.BreedID s).2).1 = .ok p) :
    (createPetHandler ph NewRecorder r s).1.result.status = 201 ∧
    (createPetHandler ph NewRecorder r s).1.result.contentType = "application/json" ∧
    (0 ≤ p.Birth.year ∧ p.Birth.year < 10000 →
      ∃ t, marshalPet p = .ok t ∧
        (createPetHandler ph NewRecorder r s).1.result.body = String.mk (t ++ ['\n']) ∧
        readValue (createPetHandler ph NewRecorder r s).1.result.body = .ok (petJSON p) ∧
        (p.Name = req.Name → JSON.member "name" (petJSON p) = some (.str req.Name)) ∧
        (p.Breed.ID = req.BreedID →
          (JSON.member "breed" (petJSON p)).bind (JSON.member "id") =
            some (.str req.BreedID))) ∧
    (¬ (0 ≤ p.Birth.year ∧ p.Birth.year < 10000) →
      (createPetHandler ph NewRecorder r s).1.result.body = "") ∧
    (p.Birth = birth → 0 ≤ p.Birth.year ∧ p.Birth.year < 10000) := by
  have hresp : (createPetHandler ph NewRecorder r s).1.result =
      { status := StatusCreated, contentType := "application/json",
        body := match marshalPet p with
          | .ok t => String.mk (t ++ ['\n'])
          | .error _ => "" } := by
    simp only [createPetHandler, hdec]
    generalize ph.breedStore.GetBreedByID req.BreedID s = x at hbreed hcreate ⊢
    obtain ⟨res, s1⟩ := x
    simp only at hbreed hcreate
    subst hbreed
    simp only [hdate]
    generalize ph.petStore.CreatePet req.Name birth req.BreedID s1 = y at hcreate ⊢
    obtain ⟨res2, s2⟩ := y
    simp only at hcreate
    subst hcreate
    exact encode_created_result (marshalPet p)
  rw [hresp]
  refine ⟨rfl, rfl, ?_, ?_, ?_⟩
  · rintro ⟨h1, h2⟩
    have hm := marshalPet_eq p h1 h2
    refine ⟨_, hm, ?_, ?_, ?_, ?_⟩
    · simp only [hm]
    · simp only [hm]
      exact readValue_pet_body p _ h1 h2 hm
    · intro hn
      rw [← hn]
      exact member_name_petJSON p
    · intro hb
      rw [← hb]
      exact member_breed_id_petJSON p
  · intro hr
    have hm : ∃ e, marshalPet p = .error e := by
      have : p.Birth.year < 0 ∨ 10000 ≤ p.Birth.year := by omega
      refine ⟨.wrap "json: error calling MarshalJSON for type time.Time"
        (.other "Time.MarshalJSON: year outside of range [0,9999]"), ?_⟩
      simp only [marshalPet, Time.MarshalJSON, this, if_true]
    obtain ⟨e, he⟩ := hm
    simp only [he]
  · intro hb
    obtain ⟨y, m, d, hy, _, _, _, _, _, ht⟩ := timeParse_inv hdate
    rw [hb, ht]
    simp only
    omega

/-- The success request of the creation tests. -/
theorem createPetHandler_created_witness :
    decodeCreatePetRequest
        "\x7b\"name\":\"Fido\",\"birth\":\"2020-01-01\",\"breedId\":\"b1\"\x7d" =
      .ok { Name := "Fido", Birth := "2020-01-01", BreedID := "b1" } ∧
    (mockPetHandler.petStore.CreatePet "Fido" { year := 2020, month := 1, day := 1 } "b1"
        testWorld).1 =
      .ok { ID := "new-pet-id", Name := "Fido", Birth := { year := 2020, month := 1, day := 1 },
            Breed := { ID := "b1", Name := "Breed1", Temperament := "T1", Origin := "O1" } } ∧
    (createPetHandler mockPetHandler NewRecorder
        { Method := "POST", Path := "/api/v1/pets",
          Body := "\x7b\"name\":\"Fido\",\"birth\":\"2020-01-01\",\"breedId\":\"b1\"\x7d" }
        testWorld).1.result.status = 201 :=
  ⟨by rfl, by rfl,
    (createPetHandler_created mockPetHandler
      { Method := "POST", Path := "/api/v1/pets",
        Body := "\x7b\"name\":\"Fido\",\"birth\":\"2020-01-01\",\"breedId\":\"b1\"\x7d" }
      testWorld { Name := "Fido", Birth := "2020-01-01", BreedID := "b1" }
      { ID := "b1", Name := "Breed1", Temperament := "T1", Origin := "O1" }
      { year := 2020, month := 1, day := 1 }
      { ID := "new-pet-id", Name := "Fido", Birth := { year := 2020, month := 1, day := 1 },
        Breed := { ID := "b1", Name := "Breed1", Temperament := "T1", Origin := "O1" } }
      (by rfl) (by rfl) (by rfl) (by rfl)).1⟩

/-- C1 as stated fails: a pet store whose `CreatePet` returns a pet named
`Fido` of breed `b1` born in the year 10000 gets the answer 201 with an empty
body, which is not the JSON encoding of that pet (there is none). -/
theorem createPetHandler_created_counterexample :
    decodeCreatePetRequest
        "\x7b\"name\":\"Fido\",\"birth\":\"2020-01-01\",\"breedId\":\"b1\"\x7d" =
      .ok { Name := "Fido", Birth := "2020-01-01", BreedID := "b1" } ∧
    ((singleBreedStore { ID := "b1", Name := "Breed1", Temperament := "T1", Origin := "O1" }
        ).GetBreedByID "b1" ()).1 =
      .ok { ID := "b1", Name := "Breed1", Temperament := "T1", Origin := "O1" } ∧
    timeParse "2020-01-01" = .ok { year := 2020, month := 1, day := 1 } ∧
    ((singlePetStore
        { ID := "p1", Name := "Fido", Birth := { year := 10000, month := 1, day := 1 },
          Breed := { ID := "b1", Name := "Breed1", Temperament := "T1", Origin := "O1" } }
        ).CreatePet "Fido" { year := 2020, month := 1, day := 1 } "b1" ()).1 =
      .ok { ID := "p1", Name := "Fido", Birth := { year := 10000, month := 1, day := 1 },
            Breed := { ID := "b1", Name := "Breed1", Temperament := "T1", Origin := "O1" } } ∧
    (createPetHandler
        (NewPetHandler
          (singlePetStore
            { ID := "p1", Name := "Fido", Birth := { year := 10000, month := 1, day := 1 },
              Breed := { ID := "b1", Name := "Breed1", Temperament := "T1", Origin := "O1" } })
          (singleBreedStore
            { ID := "b1", Name := "Breed1", Temperament := "T1", Origin := "O1" }))
        NewRecorder
        { Method := "POST", Path := "/api/v1/pets",
          Body := "\x7b\"name\":\"Fido\",\"birth\":\"2020-01-01\",\"breedId\":\"b1\"\x7d" }
        ()).1.result =
      { status := 201, contentType := "application/json", body := "" } ∧
    marshalPet
        { ID := "p1", Name := "Fido", Birth := { year := 10000, month := 1, day := 1 },
          Breed := { ID := "b1", Name := "Breed1", Temperament := "T1", Origin := "O1" } } =
      .error (.wrap "json: error calling MarshalJSON for type time.Time"
        (.other "Time.MarshalJSON: year outside of range [0,9999]")) ∧
    jsonValid "" = false := by
  refine ⟨by rfl, by rfl, by rfl, by rfl, by rfl, by rfl, by rfl⟩

/-- C2: when the body decodes and the breed lookup returns any error,
`createPetHandler` answers 400 with the body `Error at checking the breed`
followed by a newline, whatever the name and birth fields are. -/
theorem createPetHandler_breed_gate {σ : Type} (ph : PetHandler σ) (r : Request) (s : σ)
    (req : CreatePetRequest) (e : GoError)
    (hdec : decodeCreatePetRequest r.Body = .ok req)
    (hbreed : (ph.breedStore.GetBreedByID req.BreedID s).1 = .error e) :
    (createPetHandler ph NewRecorder r s).1.result =
      { status := 400, contentType := "text/plain; charset=utf-8",
        body := "Error at checking the breed\n" } := by
  simp only [createPetHandler, hdec]
  generalize ph.breedStore.GetBreedByID req.BreedID s = x at hbreed ⊢
  obtain ⟨res, s1⟩ := x
  simp only at hbreed
  subst hbreed
  simp only [httpError_fresh_result, StatusBadRequest]
  rfl

theorem createPetHandler_breed_gate_witness :
    decodeCreatePetRequest
        "\x7b\"name\":\"Fido\",\"birth\":\"2020-01-01\",\"breedId\":\"doesnotexist\"\x7d" =
      .ok { Name := "Fido", Birth := "2020-01-01", BreedID := "doesnotexist" } ∧
    (mockPetHandler.breedStore.GetBreedByID "doesnotexist" testWorld).1 = .error .ErrNotFound ∧
    (createPetHandler mockPetHandler NewRecorder
        { Method := "POST", Path := "/api/v1/pets",
          Body := "\x7b\"name\":\"Fido\",\"birth\":\"2020-01-01\",\"breedId\":\"doesnotexist\"\x7d" }
        testWorld).1.result =
      { status := 400, contentType := "text/plain; charset=utf-8",
        body := "Error at checking the breed\n" } :=
  ⟨by rfl, by rfl,
    createPetHandler_breed_gate mockPetHandler
      { Method := "POST", Path := "/api/v1/pets",
        Body := "\x7b\"name\":\"Fido\",\"birth\":\"2020-01-01\",\"breedId\":\"doesnotexist\"\x7d" }
      testWorld { Name := "Fido", Birth := "2020-01-01", BreedID := "doesnotexist" }
      .ErrNotFound (by rfl) (by rfl)⟩

theorem createPetHandler_persist_stage {σ : Type} (ph : PetHandler σ) (r : Request) (s : σ)
    (req : CreatePetRequest) (breed : Breed) (birth : Time) (e : GoError)
    (hdec : decodeCreatePetRequest r.Body = .ok req)
    (hbreed : (ph.breedStore.GetBreedByID req.BreedID s).1 = .ok breed)
    (hdate : timeParse req.Birth = .ok birth)
    (hcreate : (ph.petStore.CreatePet req.Name birth req.BreedID
        (ph.breedStore.GetBreedByID req.BreedID s).2).1 = .error e) :
    (createPetHandler ph NewRecorder r s).1.result =
      { status := 500, contentType := "text/plain; charset=utf-8",
        body := "Error creating pet\n" } := by
  simp only [createPetHandler, hdec]
  generalize ph.breedStore.GetBreedByID req.BreedID s = x at hbreed hcreate ⊢
  obtain ⟨res, s1⟩ := x
  simp only at hbreed hcreate
  subst hbreed
  simp only [hdate]
  generalize ph.petStore.CreatePet req.Name birth req.BreedID s1 = y at hcreate ⊢
  obtain ⟨res2, s2⟩ := y
  simp only at hcreate
  subst hcreate
  simp only [httpError_fresh_result, StatusInternalServerError]
  rfl

/-- C6: when the body decodes, the breed exists and the birth parses, any
error of `petStore.CreatePet` (a `NotFound` included) makes `createPetHandler`
answer 500 with the body `Error creating pet` followed by a newline. -/
theorem createPetHandler_persist_gate {σ : Type} (ph : PetHandler σ) (r : Request) (s : σ)
    (req : CreatePetRequest) (breed : Breed) (birth : Time) (e : GoError)
    (hdec : decodeCreatePetRequest r.Body = .ok req)
    (hbreed : (ph.breedStore.GetBreedByID req.BreedID s).1 = .ok breed)
    (hdate : timeParse req.Birth = .ok birth)
    (hcreate : (ph.petStore.CreatePet req.Name birth req.BreedID
        (ph.breedStore.GetBreedByID req.BreedID s).2).1 = .error e) :
    (createPetHandler ph NewRecorder r s).1.result =
      { status := 500, contentType := "text/plain; charset=utf-8",
        body := "Error creating pet\n" } := by
  exact createPetHandler_persist_stage ph r s req breed birth e hdec hbreed hdate hcreate

/-- The stores of the creation tests, except that the pet store knows no
breed: its `CreatePet` fails with `ErrNotFound`. -/
theorem createPetHandler_persist_gate_witness :
    decodeCreatePetRequest
        "\x7b\"name\":\"Fido\",\"birth\":\"2020-01-01\",\"breedId\":\"b1\"\x7d" =
      .ok { Name := "Fido", Birth := "2020-01-01", BreedID := "b1" } ∧
    (createPetHandler mockPetHandler NewRecorder
        { Method := "POST", Path := "/api/v1/pets",
          Body := "\x7b\"name\":\"Fido\",\"birth\":\"2020-01-01\",\"breedId\":\"b1\"\x7d" }
        { testWorld with petStore := { pets := none, breeds := none, fail := false } }).1.result =
      { status := 500, contentType := "text/plain; charset=utf-8",
        body := "Error creating pet\n" } :=
  ⟨by rfl,
    createPetHandler_persist_gate mockPetHandler
      { Method := "POST", Path := "/api/v1/pets",
        Body := "\x7b\"name\":\"Fido\",\"birth\":\"2020-01-01\",\"breedId\":\"b1\"\x7d" }
      { testWorld with petStore := { pets := none, breeds := none, fail := false } }
      { Name := "Fido", Birth := "2020-01-01", BreedID := "b1" }
      { ID := "b1", Name := "Breed1", Temperament := "T1", Origin := "O1" }
      { year := 2020, month := 1, day := 1 } .ErrNotFound (by rfl) (by rfl) (by rfl) (by rfl)⟩

/-- C8: `PetsHandler` hands a GET to the list handler and a POST to the
creation handler; for every other method it answers 405 with the body
`Method Not Allowed` followed by a newline, leaves the state behind the stores
as it was, and the recording stores see no call. -/
theorem PetsHandler_dispatch {σ : Type} (ph : PetHandler σ) (w : ResponseWriter)
    (path body : String) (s : σ) :
    PetsHandler ph w { Method := "GET", Path := path, Body := body } s =
        getPetsHandler ph w { Method := "GET", Path := path, Body := body } s ∧
    PetsHandler ph w { Method := "POST", Path := path, Body := body } s =
        createPetHandler ph w { Method := "POST", Path := path, Body := body } s ∧
    ∀ method : String, method ≠ "GET" → method ≠ "POST" →
      (PetsHandler ph NewRecorder { Method := method, Path := path, Body := body } s).1.result =
          { status := 405, contentType := "text/plain; charset=utf-8",
            body := "Method Not Allowed\n" } ∧
      (PetsHandler ph NewRecorder { Method := method, Path := path, Body := body } s).2 = s ∧
      (PetsHandler (tracedPetHandler ph) NewRecorder
          { Method := method, Path := path, Body := body } (s, [])).2.2 = [] := by
  refine ⟨by simp [PetsHandler], by simp [PetsHandler], ?_⟩
  intro method hget hpost
  simp only [PetsHandler, hget, hpost, if_false, httpError_fresh_result,
    StatusMethodNotAllowed, and_true]
  rfl

theorem PetsHandler_dispatch_witness :
    (PetsHandler mockPetHandler NewRecorder
        { Method := "DELETE", Path := "/api/v1/pets", Body := "" } testWorld).1.result =
      { status := 405, contentType := "text/plain; charset=utf-8",
        body := "Method Not Allowed\n" } :=
  ((PetsHandler_dispatch mockPetHandler NewRecorder "/api/v1/pets" "" testWorld).2.2
    "DELETE" (by decide) (by decide)).1

/-- C3: when the body decodes and the breed exists, a birth string that is not
a valid calendar date written exactly as `YYYY-MM-DD` makes `createPetHandler`
answer 400 with the body `Bad date of birth format. Use YYYY-MM-DD` followed by
a newline; a birth string that is such a date passes the gate: it parses to
that date and `CreatePet` is called with it. -/
theorem createPetHandler_date_gate {σ : Type} (ph : PetHandler σ) (r : Request) (s : σ)
    (req : CreatePetRequest) (breed : Breed)
    (hdec : decodeCreatePetRequest r.Body = .ok req)
    (hbreed : (ph.breedStore.GetBreedByID req.BreedID s).1 = .ok breed) :
    (¬ IsCalendarDate req.Birth →
      (createPetHandler ph NewRecorder r s).1.result =
        { status := 400, contentType := "text/plain; charset=utf-8",
          body := "Bad date of birth format. Use YYYY-MM-DD\n" }) ∧
    (∀ year month day : Nat, year ≤ 9999 → 1 ≤ month → month ≤ 12 → 1 ≤ day →
      day ≤ monthLength year month → req.Birth = formatDate year month day →
      timeParse req.Birth = .ok { year := (year : Int), month := month, day := day } ∧
      (createPetHandler ph NewRecorder r s).1.result.status ≠ 400 ∧
      (createPetHandler (tracedPetHandler ph) NewRecorder r (s, [])).2.2 =
        [.GetBreedByID req.BreedID,
          .CreatePet req.Name { year := (year : Int), month := month, day := day }
            req.BreedID]) := by
  constructor
  · intro hnot
    have hparse : ∃ e, timeParse req.Birth = .error e := by
      cases hp : timeParse req.Birth with
      | error e => exact ⟨e, rfl⟩
      | ok t => exact absurd ((timeParse_ok_iff req.Birth).mp ⟨t, hp⟩) hnot
    obtain ⟨e, hp⟩ := hparse
    simp only [createPetHandler, hdec]
    generalize ph.breedStore.GetBreedByID req.BreedID s = x at hbreed ⊢
    obtain ⟨res, s1⟩ := x
    simp only at hbreed
    subst hbreed
    simp only [hp, httpError_fresh_result, StatusBadRequest]
    rfl
  · intro year month day hy hm1 hm2 hd1 hd2 hs
    have hp : timeParse req.Birth =
        .ok { year := (year : Int), month := month, day := day } := by
      rw [hs]; exact timeParse_formatDate year month day hy hm1 hm2 hd1 hd2
    refine ⟨hp, ?_, ?_⟩
    · simp only [createPetHandler, hdec]
      generalize ph.breedStore.GetBreedByID req.BreedID s = x at hbreed ⊢
      obtain ⟨res, s1⟩ := x
      simp only at hbreed
      subst hbreed
      simp only [hp]
      generalize ph.petStore.CreatePet req.Name _ req.BreedID s1 = y
      obtain ⟨res2, s2⟩ := y
      cases res2 with
      | error e =>
        simp only [httpError_fresh_result]
        decide
      | ok newPet =>
        rw [encode_created_result]
        simp [StatusCreated]
    · simp only [createPetHandler, tracedPetHandler, NewPetHandler, tracedBreedStore,
        tracedPetStore, hdec]
      generalize ph.breedStore.GetBreedByID req.BreedID s = x at hbreed ⊢
      obtain ⟨res, s1⟩ := x
      simp only at hbreed
      subst hbreed
      simp only [hp, List.nil_append]
      generalize ph.petStore.CreatePet req.Name _ req.BreedID s1 = y
      obtain ⟨res2, s2⟩ := y
      cases res2 <;> rfl

/-- The bad-date and the success request of the creation tests. -/
theorem createPetHandler_date_gate_witness :
    ¬ IsCalendarDate "not-a-date" ∧
    (createPetHandler mockPetHandler NewRecorder
        { Method := "POST", Path := "/api/v1/pets",
          Body := "\x7b\"name\":\"Fido\",\"birth\":\"not-a-date\",\"breedId\":\"b1\"\x7d" }
        testWorld).1.result =
      { status := 400, contentType := "text/plain; charset=utf-8",
        body := "Bad date of birth format. Use YYYY-MM-DD\n" } ∧
    (createPetHandler (tracedPetHandler mockPetHandler) NewRecorder
        { Method := "POST", Path := "/api/v1/pets",
          Body := "\x7b\"name\":\"Fido\",\"birth\":\"2020-02-29\",\"breedId\":\"b1\"\x7d" }
        (testWorld, [])).2.2 =
      [.GetBreedByID "b1", .CreatePet "Fido" { year := 2020, month := 2, day := 29 } "b1"] :=
  have hnot : ¬ IsCalendarDate "not-a-date" := fun h => by
    obtain ⟨t, ht⟩ := (timeParse_ok_iff "not-a-date").mpr h
    have herr : ∃ e, timeParse "not-a-date" = .error e := ⟨_, rfl⟩
    obtain ⟨e, he⟩ := herr
    rw [he] at ht
    exact Except.noConfusion ht
  ⟨hnot,
    (createPetHandler_date_gate mockPetHandler
      { Method := "POST", Path := "/api/v1/pets",
        Body := "\x7b\"name\":\"Fido\",\"birth\":\"not-a-date\",\"breedId\":\"b1\"\x7d" }
      testWorld { Name := "Fido", Birth := "not-a-date", BreedID := "b1" }
      { ID := "b1", Name := "Breed1", Temperament := "T1", Origin := "O1" }
      (by rfl) (by rfl)).1 hnot,
    ((createPetHandler_date_gate mockPetHandler
      { Method := "POST", Path := "/api/v1/pets",
        Body := "\x7b\"name\":\"Fido\",\"birth\":\"2020-02-29\",\"breedId\":\"b1\"\x7d" }
      testWorld { Name := "Fido", Birth := "2020-02-29", BreedID := "b1" }
      { ID := "b1", Name := "Breed1", Temperament := "T1", Origin := "O1" }
      (by rfl) (by rfl)).2 2020 2 29 (by decide) (by decide) (by decide) (by decide)
        (by decide) (by rfl)).2.2⟩

/-! ## What the parse gate lets through -/

theorem storeString_error_none (v : JSON) (old : String) :
    (storeString v old).2 = none ↔ v.isStringOrNull = true := by
  cases v <;> simp [storeString, JSON.isStringOrNull]

theorem unmarshalMembers_saved (ms : List (String × JSON)) (req : CreatePetRequest)
    (e : GoError) : (unmarshalMembers ms req (some e)).2 = some e := by
  induction ms generalizing req with
  | nil => rfl
  | cons m ms ih =>
    obtain ⟨key, v⟩ := m
    unfold unmarshalMembers
    cases lookupField key with
    | none => exact ih req
    | some f => cases f <;> exact ih _

theorem unmarshalMembers_error_none (ms : List (String × JSON)) (req : CreatePetRequest) :
    (unmarshalMembers ms req none).2 = none ↔
      ms.all (fun kv => (lookupField kv.1).isNone || kv.2.isStringOrNull) = true := by
  induction ms generalizing req with
  | nil => simp [unmarshalMembers]
  | cons m ms ih =>
    obtain ⟨key, v⟩ := m
    have hstep : ∀ (old : String) (req2 : CreatePetRequest),
        ((unmarshalMembers ms req2 (saveError none (storeString v old).2)).2 = none ↔
          (v.isStringOrNull = true ∧
            ms.all (fun kv => (lookupField kv.1).isNone || kv.2.isStringOrNull) = true)) := by
      intro old req2
      cases hs : (storeString v old).2 with
      | none =>
        have hv := (storeString_error_none v old).mp hs
        simp only [saveError, hv, true_and]
        exact ih req2
      | some e =>
        have hv : ¬ v.isStringOrNull = true := fun h =>
          absurd ((storeString_error_none v old).mpr h) (by simp [hs])
        simp only [saveError, unmarshalMembers_saved]
        simp [hv]
    unfold unmarshalMembers
    cases hl : lookupField key with
    | none => simpa [hl] using ih req
    | some f =>
      cases f <;> simpa [hl] using hstep _ _

theorem unmarshalCreatePetRequest_ok_iff (v : JSON) :
    (∃ req, unmarshalCreatePetRequest v = .ok req) ↔ fitsCreatePetRequest v = true := by
  cases v with
  | obj ms =>
    have h := unmarshalMembers_error_none ms { Name := "", Birth := "", BreedID := "" }
    simp only [unmarshalCreatePetRequest, fitsCreatePetRequest]
    rw [← h]
    generalize unmarshalMembers ms { Name := "", Birth := "", BreedID := "" } none = x
    obtain ⟨req, err⟩ := x
    cases err <;> simp
  | _ => simp [unmarshalCreatePetRequest, fitsCreatePetRequest]

theorem decodeCreatePetRequest_ok_iff (body : String) :
    (∃ req, decodeCreatePetRequest body = .ok req) ↔
      ∃ v, readValue body = .ok v ∧ fitsCreatePetRequest v = true := by
  unfold decodeCreatePetRequest
  cases h : readValue body with
  | error e => simp
  | ok v =>
    simp only [Except.ok.injEq, exists_eq_left']
    exact unmarshalCreatePetRequest_ok_iff v

theorem readValue_ok_of_invalid (body : String) (v : JSON) (hinv : jsonValid body = false)
    (hread : readValue body = .ok v) :
    ∃ rest, scanValue ((skipSpace body.data).length + 1) 0 (skipSpace body.data) =
        some (v, rest) ∧ skipSpace rest ≠ [] := by
  unfold readValue at hread
  unfold jsonValid at hinv
  cases h0 : skipSpace body.data with
  | nil =>
    rw [h0] at hread
    exact absurd hread (by simp)
  | cons c cs =>
    rw [h0] at hread hinv
    simp only at hread hinv
    cases h1 : scanValue ((c :: cs).length + 1) 0 (c :: cs) with
    | none =>
      rw [h1] at hread
      exact absurd hread (by simp)
    | some x =>
      obtain ⟨v2, rest⟩ := x
      rw [h1] at hread hinv
      simp only [Except.ok.injEq] at hread
      subst hread
      simp only [decide_eq_false_iff_not] at hinv
      exact ⟨rest, rfl, hinv⟩

theorem marshalPet_head (p : Pet) (t : List Char) (h : marshalPet p = .ok t) :
    ∃ tl, t = '\x7b' :: tl := by
  unfold marshalPet at h
  cases hm : p.Birth.MarshalJSON with
  | error e =>
    rw [hm] at h
    exact absurd h (by simp)
  | ok b =>
    rw [hm] at h
    simp only [Except.ok.injEq] at h
    refine ⟨t.tail, ?_⟩
    rw [← h]
    simp

theorem createPetHandler_past_decode {σ : Type} (ph : PetHandler σ) (r : Request) (s : σ)
    (req : CreatePetRequest) (hdec : decodeCreatePetRequest r.Body = .ok req) :
    (createPetHandler ph NewRecorder r s).1.result.body ≠
      "Error decoding the body of the request\n" := by
  simp only [createPetHandler, hdec]
  generalize ph.breedStore.GetBreedByID req.BreedID s = x
  obtain ⟨res, s1⟩ := x
  cases res with
  | error e =>
    simp only [httpError_fresh_result]
    decide
  | ok breed =>
    simp only
    cases hd : timeParse req.Birth with
    | error e =>
      simp only [httpError_fresh_result]
      decide
    | ok birth =>
      simp only
      generalize ph.petStore.CreatePet req.Name birth req.BreedID s1 = y
      obtain ⟨res2, s2⟩ := y
      cases res2 with
      | error e =>
        simp only [httpError_fresh_result]
        decide
      | ok newPet =>
        simp only
        rw [encode_created_result]
        cases hm : marshalPet newPet with
        | error e =>
          simp only
          decide
        | ok t =>
          obtain ⟨tl, htl⟩ := marshalPet_head newPet t hm
          subst htl
          simp only
          intro h
          have h2 := congrArg String.data h
          have h3 : ('\x7b' :: tl ++ ['\n']).head? =
              ("Error decoding the body of the request\n".data).head? := by
            rw [← h2]
          simp at h3

theorem createPetHandler_past_decode_calls {σ : Type} (ph : PetHandler σ) (r : Request) (s : σ)
    (req : CreatePetRequest) (hdec : decodeCreatePetRequest r.Body = .ok req) :
    ∃ calls, (createPetHandler (tracedPetHandler ph) NewRecorder r (s, [])).2.2 =
      .GetBreedByID req.BreedID :: calls := by
  simp only [createPetHandler, hdec, tracedPetHandler, NewPetHandler, tracedBreedStore,
    tracedPetStore]
  generalize ph.breedStore.GetBreedByID req.BreedID s = x
  obtain ⟨res, s1⟩ := x
  cases res with
  | error e => exact ⟨[], rfl⟩
  | ok breed =>
    simp only
    cases hd : timeParse req.Birth with
    | error e => exact ⟨[], rfl⟩
    | ok birth =>
      simp only
      generalize ph.petStore.CreatePet req.Name birth req.BreedID s1 = y
      obtain ⟨res2, s2⟩ := y
      cases res2 with
      | error e => exact ⟨_, rfl⟩
      | ok newPet => exact ⟨_, rfl⟩

/-- C4 (as amended): for every request body that is not valid JSON,
`createPetHandler` answers 400 with the body `Error decoding the body of the
request` followed by a newline, leaves the state behind the stores as it was
and calls no store, unless the decoder accepts the body.  The decoder accepts
a body exactly when a first JSON value can be read from it and that value is
`null` or an object whose members keyed `name`, `birth` or `breedId` (up to
letter case) hold strings or `null`; in a body that is not valid JSON a first
value that can be read is followed by text other than white space, which the
decoder never examines.  A body that the decoder accepts passes the gate: the
response body is not the decode error and the breed store is called with the
decoded `BreedID`. -/
theorem createPetHandler_parse_gate {σ : Type} (ph : PetHandler σ) (r : Request) (s : σ)
    (hinv : jsonValid r.Body = false) :
    ((¬ ∃ req, decodeCreatePetRequest r.Body = .ok req) →
      (createPetHandler ph NewRecorder r s).1.result =
          { status := 400, contentType := "text/plain; charset=utf-8",
            body := "Error decoding the body of the request\n" } ∧
        (createPetHandler ph NewRecorder r s).2 = s ∧
        (createPetHandler (tracedPetHandler ph) NewRecorder r (s, [])).2.2 = []) ∧
    ((∃ req, decodeCreatePetRequest r.Body = .ok req) ↔
      ∃ v, readValue r.Body = .ok v ∧ fitsCreatePetRequest v = true) ∧
    (∀ v, fitsCreatePetRequest v = true ↔ ∃ req, unmarshalCreatePetRequest v = .ok req) ∧
    (∀ v, readValue r.Body = .ok v →
      ∃ rest, scanValue ((skipSpace r.Body.data).length + 1) 0 (skipSpace r.Body.data) =
          some (v, rest) ∧ skipSpace rest ≠ []) ∧
    (∀ req, decodeCreatePetRequest r.Body = .ok req →
      (createPetHandler ph NewRecorder r s).1.result.body ≠
          "Error decoding the body of the request\n" ∧
        ∃ calls, (createPetHandler (tracedPetHandler ph) NewRecorder r (s, [])).2.2 =
          .GetBreedByID req.BreedID :: calls) := by
  refine ⟨?_, decodeCreatePetRequest_ok_iff r.Body,
    fun v => (unmarshalCreatePetRequest_ok_iff v).symm,
    fun v hv => readValue_ok_of_invalid r.Body v hinv hv,
    fun req hdec => ⟨createPetHandler_past_decode ph r s req hdec,
      createPetHandler_past_decode_calls ph r s req hdec⟩⟩
  intro hno
  cases hdec : decodeCreatePetRequest r.Body with
  | ok req => exact absurd ⟨req, hdec⟩ hno
  | error e =>
    refine ⟨?_, ?_, ?_⟩
    · simp only [createPetHandler, hdec, httpError_fresh_result, StatusBadRequest]
      rfl
    · simp only [createPetHandler, hdec]
    · simp only [createPetHandler, hdec]

/-- The malformed request of the creation tests, from which no value can be
read, and the body `[]x`, whose first value is an array: both are answered
with the decode error.  An object that holds the three fields followed by the
text `not-json` passes the gate. -/
theorem createPetHandler_parse_gate_witness :
    jsonValid "not-json" = false ∧ jsonValid "[]x" = false ∧
    (createPetHandler mockPetHandler NewRecorder
        { Method := "POST", Path := "/api/v1/pets", Body := "not-json" } testWorld).1.result =
      { status := 400, contentType := "text/plain; charset=utf-8",
        body := "Error decoding the body of the request\n" } ∧
    (createPetHandler mockPetHandler NewRecorder
        { Method := "POST", Path := "/api/v1/pets", Body := "[]x" } testWorld).1.result =
      { status := 400, contentType := "text/plain; charset=utf-8",
        body := "Error decoding the body of the request\n" } ∧
    (createPetHandler mockPetHandler NewRecorder
        { Method := "POST", Path := "/api/v1/pets",
          Body :=
            "\x7b\"name\":\"Fido\",\"birth\":\"2020-01-01\",\"breedId\":\"b1\"\x7dnot-json" }
        testWorld).1.result.body ≠ "Error decoding the body of the request\n" :=
  ⟨by rfl, by rfl,
    ((createPetHandler_parse_gate mockPetHandler
      { Method := "POST", Path := "/api/v1/pets", Body := "not-json" } testWorld (by rfl)).1
      (fun h => by
        obtain ⟨req, hreq⟩ := h
        have hd : decodeCreatePetRequest "not-json" =
            .error (.other "invalid character or unexpected end of JSON input") := by rfl
        rw [hd] at hreq
        cases hreq)).1,
    ((createPetHandler_parse_gate mockPetHandler
      { Method := "POST", Path := "/api/v1/pets", Body := "[]x" } testWorld (by rfl)).1
      (fun h => by
        obtain ⟨req, hreq⟩ := h
        have hd : decodeCreatePetRequest "[]x" =
            .error (.other
              "json: cannot unmarshal value into Go value of type types.CreatePetRequest") := by
          rfl
        rw [hd] at hreq
        cases hreq)).1,
    ((createPetHandler_parse_gate mockPetHandler
      { Method := "POST", Path := "/api/v1/pets",
        Body :=
          "\x7b\"name\":\"Fido\",\"birth\":\"2020-01-01\",\"breedId\":\"b1\"\x7dnot-json" }
      testWorld (by rfl)).2.2.2.2
      { Name := "Fido", Birth := "2020-01-01", BreedID := "b1" } (by rfl)).1⟩

/-- C4 as stated fails: a body made of a JSON object followed by the text
`not-json` is not valid JSON, yet the decoder reads the object, leaves the rest
unread, and the pet is created. -/
theorem createPetHandler_parse_gate_counterexample :
    jsonValid
        "\x7b\"name\":\"Fido\",\"birth\":\"2020-01-01\",\"breedId\":\"b1\"\x7dnot-json" =
      false ∧
    (createPetHandler mockPetHandler NewRecorder
        { Method := "POST", Path := "/api/v1/pets",
          Body :=
            "\x7b\"name\":\"Fido\",\"birth\":\"2020-01-01\",\"breedId\":\"b1\"\x7dnot-json" }
        testWorld).1.result =
      { status := 201, contentType := "application/json",
        body := "\x7b\"id\":\"new-pet-id\",\"name\":\"Fido\",\"birth\":\"2020-01-01T00:00:00Z\",\"breed\":\x7b\"id\":\"b1\",\"name\":\"Breed1\",\"temperament\":\"T1\",\"origin\":\"O1\"\x7d\x7d\n" } := by
  exact ⟨by rfl, by rfl⟩

/-- C5: the gates of `createPetHandler` run in the order parse, breed check,
date parse, persist, and the first failing gate fixes the response (a failing
breed check wins over an unparseable birth); whenever the status is 400 the
recording stores have seen no `CreatePet`, recording does not change the
response, and over the relational store the database is left as it was. -/
theorem createPetHandler_gate_order {σ : Type} (ph : PetHandler σ) (r : Request) (s : σ) :
    (∀ e, decodeCreatePetRequest r.Body = .error e →
      (createPetHandler ph NewRecorder r s).1.result =
          { status := 400, contentType := "text/plain; charset=utf-8",
            body := "Error decoding the body of the request\n" } ∧
        (createPetHandler ph NewRecorder r s).2 = s) ∧
    (∀ req e, decodeCreatePetRequest r.Body = .ok req →
      (ph.breedStore.GetBreedByID req.BreedID s).1 = .error e →
      (createPetHandler ph NewRecorder r s).1.result =
          { status := 400, contentType := "text/plain; charset=utf-8",
            body := "Error at checking the breed\n" } ∧
        (createPetHandler ph NewRecorder r s).2 = (ph.breedStore.GetBreedByID req.BreedID s).2) ∧
    (∀ req breed e, decodeCreatePetRequest r.Body = .ok req →
      (ph.breedStore.GetBreedByID req.BreedID s).1 = .ok breed →
      timeParse req.Birth = .error e →
      (createPetHandler ph NewRecorder r s).1.result =
          { status := 400, contentType := "text/plain; charset=utf-8",
            body := "Bad date of birth format. Use YYYY-MM-DD\n" } ∧
        (createPetHandler ph NewRecorder r s).2 = (ph.breedStore.GetBreedByID req.BreedID s).2) ∧
    (∀ req breed birth e, decodeCreatePetRequest r.Body = .ok req →
      (ph.breedStore.GetBreedByID req.BreedID s).1 = .ok breed →
      timeParse req.Birth = .ok birth →
      (ph.petStore.CreatePet req.Name birth req.BreedID
        (ph.breedStore.GetBreedByID req.BreedID s).2).1 = .error e →
      (createPetHandler ph NewRecorder r s).1.result =
          { status := 500, contentType := "text/plain; charset=utf-8",
            body := "Error creating pet\n" }) ∧
    (createPetHandler (tracedPetHandler ph) NewRecorder r (s, [])).1 =
        (createPetHandler ph NewRecorder r s).1 ∧
    ((createPetHandler ph NewRecorder r s).1.result.status = 400 →
      ∀ c ∈ (createPetHandler (tracedPetHandler ph) NewRecorder r (s, [])).2.2,
        c.isCreatePet = false) ∧
    (∀ pg : PostgresStore,
      (createPetHandler (NewPetHandler postgresPetStore postgresBreedStore)
          NewRecorder r pg).1.result.status = 400 →
      (createPetHandler (NewPetHandler postgresPetStore postgresBreedStore)
          NewRecorder r pg).2 = pg) := by
  refine ⟨?_, ?_, ?_, ?_, ?_, ?_, ?_⟩
  · intro e hdec
    simp only [createPetHandler, hdec, httpError_fresh_result, StatusBadRequest, and_true]
    rfl
  · intro req e hdec hbreed
    simp only [createPetHandler, hdec]
    generalize ph.breedStore.GetBreedByID req.BreedID s = x at hbreed ⊢
    obtain ⟨res, s1⟩ := x
    simp only at hbreed
    subst hbreed
    simp only [httpError_fresh_result, StatusBadRequest, and_true]
    rfl
  · intro req breed e hdec hbreed hdate
    simp only [createPetHandler, hdec]
    generalize ph.breedStore.GetBreedByID req.BreedID s = x at hbreed ⊢
    obtain ⟨res, s1⟩ := x
    simp only at hbreed
    subst hbreed
    simp only [hdate, httpError_fresh_result, StatusBadRequest, and_true]
    rfl
  · intro req breed birth e hdec hbreed hdate hcreate
    exact createPetHandler_persist_stage ph r s req breed birth e hdec hbreed hdate hcreate
  · simp only [createPetHandler, tracedPetHandler, NewPetHandler, tracedBreedStore,
      tracedPetStore]
    cases decodeCreatePetRequest r.Body with
    | error e => rfl
    | ok req =>
      simp only
      generalize ph.breedStore.GetBreedByID req.BreedID s = x
      obtain ⟨res, s1⟩ := x
      cases res with
      | error e => rfl
      | ok breed =>
        simp only
        cases timeParse req.Birth with
        | error e => rfl
        | ok birth =>
          simp only
          generalize ph.petStore.CreatePet req.Name birth req.BreedID s1 = y
          obtain ⟨res2, s2⟩ := y
          cases res2 <;> rfl
  · simp only [createPetHandler, tracedPetHandler, NewPetHandler, tracedBreedStore,
      tracedPetStore]
    cases decodeCreatePetRequest r.Body with
    | error e => simp
    | ok req =>
      simp only
      generalize ph.breedStore.GetBreedByID req.BreedID s = x
      obtain ⟨res, s1⟩ := x
      cases res with
      | error e => simp [StoreCall.isCreatePet]
      | ok breed =>
        simp only
        cases timeParse req.Birth with
        | error e => simp [StoreCall.isCreatePet]
        | ok birth =>
          simp only
          generalize ph.petStore.CreatePet req.Name birth req.BreedID s1 = y
          obtain ⟨res2, s2⟩ := y
          cases res2 with
          | error e =>
            simp only [httpError_fresh_result, StatusInternalServerError]
            intro h
            exact absurd h (by decide)
          | ok newPet =>
            rw [encode_created_result]
            simp [StatusCreated]
  · intro pg
    simp only [createPetHandler, NewPetHandler, postgresPetStore, postgresBreedStore]
    cases decodeCreatePetRequest r.Body with
    | error e => simp
    | ok req =>
      simp only
      have hst : (pg.GetBreedByID req.BreedID).2 = pg := by
        unfold PostgresStore.GetBreedByID
        split <;> rfl
      generalize pg.GetBreedByID req.BreedID = x at hst ⊢
      obtain ⟨res, s1⟩ := x
      simp only at hst
      subst hst
      cases res with
      | error e => simp
      | ok breed =>
        simp only
        cases timeParse req.Birth with
        | error e => simp
        | ok birth =>
          simp only
          generalize s1.CreatePet req.Name birth req.BreedID = y
          obtain ⟨res2, s2⟩ := y
          cases res2 with
          | error e =>
            simp only [httpError_fresh_result, StatusInternalServerError]
            intro h
            exact absurd h (by decide)
          | ok newPet =>
            rw [encode_created_result]
            simp [StatusCreated]

/-- A decodable body with both an unknown breed and an unparseable birth gets
the breed error. -/
theorem createPetHandler_gate_order_witness :
    (createPetHandler mockPetHandler NewRecorder
        { Method := "POST", Path := "/api/v1/pets",
          Body := "\x7b\"name\":\"Fido\",\"birth\":\"not-a-date\",\"breedId\":\"doesnotexist\"\x7d" }
        testWorld).1.result =
      { status := 400, contentType := "text/plain; charset=utf-8",
        body := "Error at checking the breed\n" } :=
  ((createPetHandler_gate_order mockPetHandler
      { Method := "POST", Path := "/api/v1/pets",
        Body := "\x7b\"name\":\"Fido\",\"birth\":\"not-a-date\",\"breedId\":\"doesnotexist\"\x7d" }
      testWorld).2.1
    { Name := "Fido", Birth := "not-a-date", BreedID := "doesnotexist" } .ErrNotFound
    (by rfl) (by rfl)).1

/-- C7 (as amended): both read-by-ID handlers look up `path.Base` of the URL
path.  A store error that is or wraps `ErrNotFound` gives 404 with content type
`text/plain; charset=utf-8` and the body `Breed not found` (resp. `Pet not
found`) followed by a newline; any other store error gives 500; a breed that is
found gives 200 with content type `application/json` and its JSON encoding; a
pet that is found gives the same when its birth year lies in `0..9999`, and 500
`Internal Server Error` when it cannot be encoded. -/
theorem readByID_responses {σ : Type} (h : BreedHandler σ) (ph : PetHandler σ) (r : Request)
    (s : σ) :
    (∀ e, (h.breedStore.GetBreedByID (pathBase r.Path) s).1 = .error e →
      (errorsIs e .ErrNotFound = true →
        (GetBreedByIDHandler h NewRecorder r s).1.result =
          { status := 404, contentType := "text/plain; charset=utf-8",
            body := "Breed not found\n" }) ∧
      (errorsIs e .ErrNotFound = false →
        (GetBreedByIDHandler h NewRecorder r s).1.result =
          { status := 500, contentType := "text/plain; charset=utf-8",
            body := "Internal Server Error\n" })) ∧
    (∀ b, (h.breedStore.GetBreedByID (pathBase r.Path) s).1 = .ok b →
      (GetBreedByIDHandler h NewRecorder r s).1.result =
        { status := 200, contentType := "application/json",
          body := String.mk (marshalBreed b ++ ['\n']) }) ∧
    (∀ e, (ph.petStore.GetPetByID (pathBase r.Path) s).1 = .error e →
      (errorsIs e .ErrNotFound = true →
        (GetPetByIDHandler ph NewRecorder r s).1.result =
          { status := 404, contentType := "text/plain; charset=utf-8",
            body := "Pet not found\n" }) ∧
      (errorsIs e .ErrNotFound = false →
        (GetPetByIDHandler ph NewRecorder r s).1.result =
          { status := 500, contentType := "text/plain; charset=utf-8",
            body := "Internal Server Error\n" })) ∧
    (∀ p, (ph.petStore.GetPetByID (pathBase r.Path) s).1 = .ok p →
      (0 ≤ p.Birth.year ∧ p.Birth.year < 10000 →
        ∃ t, marshalPet p = .ok t ∧
          (GetPetByIDHandler ph NewRecorder r s).1.result =
            { status := 200, contentType := "application/json",
              body := String.mk (t ++ ['\n']) }) ∧
      (¬ (0 ≤ p.Birth.year ∧ p.Birth.year < 10000) →
        (GetPetByIDHandler ph NewRecorder r s).1.result =
          { status := 500, contentType := "text/plain; charset=utf-8",
            body := "Internal Server Error\n" })) := by
  refine ⟨?_, ?_, ?_, ?_⟩
  · intro e he
    simp only [GetBreedByIDHandler]
    generalize h.breedStore.GetBreedByID (pathBase r.Path) s = x at he ⊢
    obtain ⟨res, s1⟩ := x
    simp only at he
    subst he
    constructor
    · intro hnf
      simp only [hnf, if_true, httpError_fresh_result, StatusNotFound]
      rfl
    · intro hnf
      simp only [hnf, httpError_fresh_result, StatusInternalServerError]
      rfl
  · intro b hb
    simp only [GetBreedByIDHandler]
    generalize h.breedStore.GetBreedByID (pathBase r.Path) s = x at hb ⊢
    obtain ⟨res, s1⟩ := x
    simp only at hb
    subst hb
    simp only [encodeTo]
    exact encode_ok_result (marshalBreed b)
  · intro e he
    simp only [GetPetByIDHandler]
    generalize ph.petStore.GetPetByID (pathBase r.Path) s = x at he ⊢
    obtain ⟨res, s1⟩ := x
    simp only at he
    subst he
    constructor
    · intro hnf
      simp only [hnf, if_true, httpError_fresh_result, StatusNotFound]
      rfl
    · intro hnf
      simp only [hnf, httpError_fresh_result, StatusInternalServerError]
      rfl
  · intro p hp
    simp only [GetPetByIDHandler]
    generalize ph.petStore.GetPetByID (pathBase r.Path) s = x at hp ⊢
    obtain ⟨res, s1⟩ := x
    simp only at hp
    subst hp
    constructor
    · rintro ⟨h1, h2⟩
      have hm := marshalPet_eq p h1 h2
      refine ⟨_, hm, ?_⟩
      simp only [hm, encodeTo]
      exact encode_ok_result _
    · intro hr
      have hy : p.Birth.year < 0 ∨ 10000 ≤ p.Birth.year := by omega
      have hm : marshalPet p = .error (.wrap "json: error calling MarshalJSON for type time.Time"
          (.other "Time.MarshalJSON: year outside of range [0,9999]")) := by
        simp only [marshalPet, Time.MarshalJSON, hy, if_true]
      simp only [hm, encodeTo, httpError_json_result, StatusInternalServerError]
      rfl

/-- The not-found request of the handler tests. -/
theorem readByID_responses_witness :
    (mockPetHandler.petStore.GetPetByID (pathBase "/api/v1/pets/doesnotexist") testWorld).1 =
      .error .ErrNotFound ∧
    (GetPetByIDHandler mockPetHandler NewRecorder
        { Method := "GET", Path := "/api/v1/pets/doesnotexist", Body := "" }
        testWorld).1.result =
      { status := 404, contentType := "text/plain; charset=utf-8", body := "Pet not found\n" } :=
  ⟨by rfl,
    ((readByID_responses (NewBreedHandler mockBreedStore) mockPetHandler
      { Method := "GET", Path := "/api/v1/pets/doesnotexist", Body := "" } testWorld).2.2.1
      .ErrNotFound (by rfl)).1 (by rfl)⟩

/-- C7 as stated fails: the test double holding a pet born in the year 10000
returns it without error, and `GetPetByIDHandler` answers 500, not 200. -/
theorem readByID_responses_counterexample :
    (mockPetStore.GetPetByID (pathBase "/api/v1/pets/p1")
        { testWorld with petStore :=
            { pets := some [{ ID := "p1", Name := "Fido",
                              Birth := { year := 10000, month := 1, day := 1 },
                              Breed := { ID := "b1", Name := "Breed1", Temperament := "T1",
                                         Origin := "O1" } }],
              breeds := none, fail := false } }).1 =
      .ok { ID := "p1", Name := "Fido", Birth := { year := 10000, month := 1, day := 1 },
            Breed := { ID := "b1", Name := "Breed1", Temperament := "T1", Origin := "O1" } } ∧
    (GetPetByIDHandler mockPetHandler NewRecorder
        { Method := "GET", Path := "/api/v1/pets/p1", Body := "" }
        { testWorld with petStore :=
            { pets := some [{ ID := "p1", Name := "Fido",
                              Birth := { year := 10000, month := 1, day := 1 },
                              Breed := { ID := "b1", Name := "Breed1", Temperament := "T1",
                                         Origin := "O1" } }],
              breeds := none, fail := false } }).1.result =
      { status := 500, contentType := "text/plain; charset=utf-8",
        body := "Internal Server Error\n" } := by
  exact ⟨by rfl, by rfl⟩

/-- C9: on a database whose `breeds` (resp. `pets`) table has no rows,
`GetBreeds` (resp. `GetPets`) returns the nil slice and no error, the list
handler answers 200 with content type `application/json`, and the body is the
text `null` and a newline: the JSON value `null`, not an array. -/
theorem empty_table_list_response (breeds : List Breed) (pets : List PetRow) (seq : Nat) :
    (PostgresStore.GetBreeds
        { db := { breeds := [], pets := pets, seq := seq, fault := none } }).1 = .ok none ∧
    (GetBreedsHandler (NewBreedHandler postgresBreedStore) NewRecorder
        { Method := "GET", Path := "/api/v1/breeds", Body := "" }
        { db := { breeds := [], pets := pets, seq := seq, fault := none } }).1.result =
      { status := 200, contentType := "application/json", body := "null\n" } ∧
    (PostgresStore.GetPets
        { db := { breeds := breeds, pets := [], seq := seq, fault := none } }).1 = .ok none ∧
    (PetsHandler (NewPetHandler postgresPetStore postgresBreedStore) NewRecorder
        { Method := "GET", Path := "/api/v1/pets", Body := "" }
        { db := { breeds := breeds, pets := [], seq := seq, fault := none } }).1.result =
      { status := 200, contentType := "application/json", body := "null\n" } ∧
    readValue "null\n" = .ok .null ∧ readValue "[]\n" = .ok (.arr []) := by
  refine ⟨rfl, rfl, rfl, rfl, rfl, rfl⟩

/-- C10: `PostgresStore.DeletePet` of an identifier that matches no row (on
an empty `pets` table, and on a table holding only the pet `p1`) returns no
error and leaves the store as it was, where the test double of the handler
tests returns `ErrNotFound` for such an identifier. -/
theorem DeletePet_missing_row (id : String) (breeds : List Breed) (seq : Nat) :
    PostgresStore.DeletePet
        { db := { breeds := breeds, pets := [], seq := seq, fault := none } } id =
      (none, { db := { breeds := breeds, pets := [], seq := seq, fault := none } }) ∧
    PostgresStore.DeletePet
        { db := { breeds := breeds,
                  pets := [{ id := "p1", name := "Fido",
                             birth := { year := 2020, month := 1, day := 1 },
                             breed_id := "b1" }],
                  seq := seq, fault := none } } "p2" =
      (none,
        { db := { breeds := breeds,
                  pets := [{ id := "p1", name := "Fido",
                             birth := { year := 2020, month := 1, day := 1 },
                             breed_id := "b1" }],
                  seq := seq, fault := none } }) ∧
    (PetStoreMock.DeletePet { pets := none, breeds := none, fail := false } id).1 =
      some .ErrNotFound :=
  ⟨rfl, rfl, rfl⟩

/-! ## The relational store -/

theorem GetBreedByID_state (s : PostgresStore) (id : String) : (s.GetBreedByID id).2 = s := by
  unfold PostgresStore.GetBreedByID
  split <;> rfl

theorem errorsIs_wrap_sentinel (msg : String) (e : GoError) :
    errorsIs (.wrap msg e) .ErrNotFound = errorsIs e .ErrNotFound := by
  simp [errorsIs]

/-- C11: `PostgresStore.GetBreedByID` leaves the store as it is.  On a healthy
backend whose `breeds` rows are keyed by id, looking up the id of a stored row
returns that row (so the returned `ID` is the requested id) and no error;
looking up an id that no row has returns the error `ErrNotFound`, as does a
backend that reports `sql.ErrNoRows`; any other backend error `e` is returned
wrapped, and the wrapped error is not `ErrNotFound` (nor wraps it, unless `e`
does). -/
theorem GetBreedByID_lookup (s : PostgresStore) (id : String) :
    (s.GetBreedByID id).2 = s ∧
    (s.db.fault = none →
      (∀ b1 ∈ s.db.breeds, ∀ b2 ∈ s.db.breeds, b1.ID = b2.ID → b1 = b2) →
      ∀ b ∈ s.db.breeds, b.ID = id → (s.GetBreedByID id).1 = .ok b) ∧
    (s.db.fault = none → ∀ b, (s.GetBreedByID id).1 = .ok b → b ∈ s.db.breeds ∧ b.ID = id) ∧
    (s.db.fault = none → (∀ b ∈ s.db.breeds, b.ID ≠ id) →
      (s.GetBreedByID id).1 = .error .ErrNotFound) ∧
    (s.db.fault = some .ErrNoRows → (s.GetBreedByID id).1 = .error .ErrNotFound) ∧
    (∀ e, s.db.fault = some e → e ≠ .ErrNoRows →
      (s.GetBreedByID id).1 = .error (.wrap ("query error for breed ID " ++ id) e) ∧
      GoError.wrap ("query error for breed ID " ++ id) e ≠ .ErrNotFound ∧
      errorsIs (.wrap ("query error for breed ID " ++ id) e) .ErrNotFound =
        errorsIs e .ErrNotFound) := by
  refine ⟨GetBreedByID_state s id, ?_, ?_, ?_, ?_, ?_⟩
  · intro hf hkey b hb hid
    cases hfind : s.db.breeds.find? (fun b => b.ID == id) with
    | none =>
      have := List.find?_eq_none.mp hfind b hb
      simp [hid] at this
    | some b2 =>
      have hmem := List.mem_of_find?_eq_some hfind
      have hp := List.find?_some hfind
      simp only [beq_iff_eq] at hp
      have : b2 = b := hkey b2 hmem b hb (by rw [hp, hid])
      subst this
      simp only [PostgresStore.GetBreedByID, Database.queryRowBreed, hf, hfind]
  · intro hf b hb
    simp only [PostgresStore.GetBreedByID, Database.queryRowBreed, hf] at hb
    cases hfind : s.db.breeds.find? (fun b => b.ID == id) with
    | none => simp [hfind] at hb
    | some b2 =>
      simp only [hfind, Except.ok.injEq] at hb
      subst hb
      have hp := List.find?_some hfind
      simp only [beq_iff_eq] at hp
      exact ⟨List.mem_of_find?_eq_some hfind, hp⟩
  · intro hf hnone
    have hfind : s.db.breeds.find? (fun b => b.ID == id) = none := by
      rw [List.find?_eq_none]
      intro b hb
      simp [hnone b hb]
    simp only [PostgresStore.GetBreedByID, Database.queryRowBreed, hf, hfind]
  · intro hf
    simp only [PostgresStore.GetBreedByID, Database.queryRowBreed, hf]
  · intro e hf hne
    refine ⟨?_, by simp, errorsIs_wrap_sentinel _ e⟩
    cases e with
    | ErrNoRows => exact absurd rfl hne
    | _ => simp only [PostgresStore.GetBreedByID, Database.queryRowBreed, hf]

/-- A store with the breed `b1`, looked up by `b1`, by an unknown id, and
through a backend that refuses connections. -/
theorem GetBreedByID_lookup_witness :
    (PostgresStore.GetBreedByID
        { db := { breeds := [{ ID := "b1", Name := "Breed1", Temperament := "T1",
                               Origin := "O1" }],
                  pets := [], seq := 1, fault := none } } "b1").1 =
      .ok { ID := "b1", Name := "Breed1", Temperament := "T1", Origin := "O1" } ∧
    (PostgresStore.GetBreedByID
        { db := { breeds := [{ ID := "b1", Name := "Breed1", Temperament := "T1",
                               Origin := "O1" }],
                  pets := [], seq := 1, fault := none } } "b2").1 =
      .error .ErrNotFound ∧
    (PostgresStore.GetBreedByID
        { db := { breeds := [], pets := [], seq := 1,
                  fault := some (.other "connection refused") } } "b1").1 =
      .error (.wrap "query error for breed ID b1" (.other "connection refused")) :=
  ⟨(GetBreedByID_lookup
      { db := { breeds := [{ ID := "b1", Name := "Breed1", Temperament := "T1",
                             Origin := "O1" }],
                pets := [], seq := 1, fault := none } } "b1").2.1 rfl
      (by intro b1 h1 b2 h2 _; simp at h1 h2; rw [h1, h2])
      { ID := "b1", Name := "Breed1", Temperament := "T1", Origin := "O1" } (by simp) rfl,
    (GetBreedByID_lookup
      { db := { breeds := [{ ID := "b1", Name := "Breed1", Temperament := "T1",
                             Origin := "O1" }],
                pets := [], seq := 1, fault := none } } "b2").2.2.2.1 rfl
      (by intro b hb; simp at hb; rw [hb]; decide),
    ((GetBreedByID_lookup
      { db := { breeds := [], pets := [], seq := 1,
                fault := some (.other "connection refused") } } "b1").2.2.2.2.2
      (.other "connection refused") rfl (by decide)).1⟩

/-! ## Statements sent by `CreatePet` -/

theorem GetBreedByIDOn_databaseBackend (s : PostgresStore) (id : String) :
    GetBreedByIDOn databaseBackend id s.db =
      ((s.GetBreedByID id).1, (s.GetBreedByID id).2.db) := by
  unfold GetBreedByIDOn PostgresStore.GetBreedByID databaseBackend
  simp only
  cases h : s.db.queryRowBreed id with
  | error err => cases err <;> rfl
  | ok b => rfl

theorem CreatePetOn_databaseBackend (s : PostgresStore) (name : String) (birth : Time)
    (breedID : String) :
    CreatePetOn databaseBackend name birth breedID s.db =
      ((s.CreatePet name birth breedID).1, (s.CreatePet name birth breedID).2.db) := by
  have hg := GetBreedByIDOn_databaseBackend s breedID
  have hst := GetBreedByID_state s breedID
  unfold CreatePetOn PostgresStore.CreatePet
  rw [hg]
  generalize s.GetBreedByID breedID = x at hst
  obtain ⟨res, s1⟩ := x
  simp only at hst
  subst hst
  cases res with
  | error err => rfl
  | ok breed =>
    simp only [databaseBackend]
    generalize s1.db.insertPet name birth breedID = y
    obtain ⟨res2, db2⟩ := y
    cases res2 <;> rfl

theorem GetBreedByIDOn_traced {σ : Type} (db : SqlBackend σ) (id : String) (t : σ)
    (log : List SqlStatement) :
    GetBreedByIDOn (tracedBackend db) id (t, log) =
      ((GetBreedByIDOn db id t).1, ((GetBreedByIDOn db id t).2, log ++ [.SelectBreed id])) := by
  unfold GetBreedByIDOn tracedBackend
  simp only
  generalize db.queryRowBreed id t = x
  obtain ⟨res, t1⟩ := x
  cases res with
  | error err => cases err <;> rfl
  | ok b => rfl

theorem CreatePetOn_traced_result {σ : Type} (db : SqlBackend σ) (name : String) (birth : Time)
    (breedID : String) (t : σ) (log : List SqlStatement) :
    (CreatePetOn (tracedBackend db) name birth breedID (t, log)).1 =
        (CreatePetOn db name birth breedID t).1 ∧
    (CreatePetOn (tracedBackend db) name birth breedID (t, log)).2.1 =
        (CreatePetOn db name birth breedID t).2 := by
  unfold CreatePetOn
  rw [GetBreedByIDOn_traced]
  generalize GetBreedByIDOn db breedID t = x
  obtain ⟨res, t1⟩ := x
  cases res with
  | error err => exact ⟨rfl, rfl⟩
  | ok breed =>
    simp only [tracedBackend]
    generalize db.insertPet name birth breedID t1 = y
    obtain ⟨res2, t2⟩ := y
    cases res2 <;> exact ⟨rfl, rfl⟩

theorem CreatePetOn_traced_breed_error {σ : Type} (db : SqlBackend σ) (name : String)
    (birth : Time) (breedID : String) (t : σ) (log : List SqlStatement) (e : GoError)
    (hbreed : (GetBreedByIDOn db breedID t).1 = .error e) :
    CreatePetOn (tracedBackend db) name birth breedID (t, log) =
      (.error (.wrap ("failed to get breed with ID " ++ breedID) e),
        ((GetBreedByIDOn db breedID t).2, log ++ [.SelectBreed breedID])) := by
  unfold CreatePetOn
  rw [GetBreedByIDOn_traced]
  generalize GetBreedByIDOn db breedID t = x at hbreed
  obtain ⟨res, t1⟩ := x
  simp only at hbreed
  subst hbreed
  rfl

theorem CreatePetOn_traced_breed_ok {σ : Type} (db : SqlBackend σ) (name : String)
    (birth : Time) (breedID : String) (t : σ) (log : List SqlStatement) (b : Breed)
    (hbreed : (GetBreedByIDOn db breedID t).1 = .ok b) :
    (CreatePetOn (tracedBackend db) name birth breedID (t, log)).2.2 =
      log ++ [.SelectBreed breedID, .InsertPet name birth breedID] := by
  unfold CreatePetOn
  rw [GetBreedByIDOn_traced]
  generalize GetBreedByIDOn db breedID t = x at hbreed
  obtain ⟨res, t1⟩ := x
  simp only at hbreed
  subst hbreed
  simp only [tracedBackend]
  generalize db.insertPet name birth breedID t1 = y
  obtain ⟨res2, t2⟩ := y
  cases res2 <;> simp

/-- C12: when the breed lookup of `PostgresStore.CreatePet` fails with `e`,
`CreatePet` returns no pet and the error `e` wrapped, which is or wraps a
sentinel exactly when `e` does (so it wraps `ErrNotFound` when the breed does
not exist), and the store, its `pets` table included, is left as it was.  The
`INSERT` is never attempted: run against the backend that records every
statement it is sent, the method sends the breed `SELECT` and nothing else,
with the same result and the same database; this holds over every backend
whose breed lookup fails, whereas a lookup that succeeds is followed by the
`INSERT`. -/
theorem CreatePet_breed_first (s : PostgresStore) (name : String) (birth : Time)
    (breedID : String) (e : GoError) (hbreed : (s.GetBreedByID breedID).1 = .error e) :
    (s.CreatePet name birth breedID).1 =
        .error (.wrap ("failed to get breed with ID " ++ breedID) e) ∧
    (s.CreatePet name birth breedID).2 = s ∧
    errorsIs (.wrap ("failed to get breed with ID " ++ breedID) e) .ErrNotFound =
        errorsIs e .ErrNotFound ∧
    errorsIs (.wrap ("failed to get breed with ID " ++ breedID) e) .ErrForeignKeyViolation =
        errorsIs e .ErrForeignKeyViolation ∧
    (s.db.fault = none → (∀ b ∈ s.db.breeds, b.ID ≠ breedID) →
      e = .ErrNotFound ∧
      errorsIs (.wrap ("failed to get breed with ID " ++ breedID) e) .ErrNotFound = true) ∧
    CreatePetOn databaseBackend name birth breedID s.db =
        ((s.CreatePet name birth breedID).1, (s.CreatePet name birth breedID).2.db) ∧
    CreatePetOn (tracedBackend databaseBackend) name birth breedID (s.db, []) =
        ((s.CreatePet name birth breedID).1,
          ((s.CreatePet name birth breedID).2.db, [.SelectBreed breedID])) ∧
    (CreatePetOn (tracedBackend databaseBackend) name birth breedID (s.db, [])).2.2.any
        SqlStatement.isInsert = false ∧
    (∀ (τ : Type) (db : SqlBackend τ) (t : τ) (e2 : GoError),
      (GetBreedByIDOn db breedID t).1 = .error e2 →
      CreatePetOn (tracedBackend db) name birth breedID (t, []) =
        (.error (.wrap ("failed to get breed with ID " ++ breedID) e2),
          ((GetBreedByIDOn db breedID t).2, [.SelectBreed breedID]))) ∧
    (∀ (τ : Type) (db : SqlBackend τ) (t : τ) (b : Breed),
      (GetBreedByIDOn db breedID t).1 = .ok b →
      (CreatePetOn (tracedBackend db) name birth breedID (t, [])).2.2 =
        [.SelectBreed breedID, .InsertPet name birth breedID]) := by
  have hst := GetBreedByID_state s breedID
  have hc : s.CreatePet name birth breedID =
      (.error (.wrap ("failed to get breed with ID " ++ breedID) e), s) := by
    unfold PostgresStore.CreatePet
    generalize s.GetBreedByID breedID = x at hbreed hst
    obtain ⟨res, s1⟩ := x
    simp only at hbreed hst
    subst hbreed hst
    rfl
  have hon : (GetBreedByIDOn databaseBackend breedID s.db).1 = .error e := by
    rw [GetBreedByIDOn_databaseBackend, hbreed]
  have hon2 : (GetBreedByIDOn databaseBackend breedID s.db).2 = s.db := by
    rw [GetBreedByIDOn_databaseBackend, hst]
  have htr := CreatePetOn_traced_breed_error databaseBackend name birth breedID s.db [] e hon
  rw [hon2] at htr
  refine ⟨by rw [hc], by rw [hc], errorsIs_wrap_sentinel _ e, by simp [errorsIs], ?_,
    CreatePetOn_databaseBackend s name birth breedID, by rw [htr, hc]; rfl,
    by rw [htr]; rfl, ?_, ?_⟩
  · intro hf hnone
    have hfind : s.db.breeds.find? (fun b => b.ID == breedID) = none := by
      rw [List.find?_eq_none]
      intro b hb
      simp [hnone b hb]
    have he : e = .ErrNotFound := by
      simp only [PostgresStore.GetBreedByID, Database.queryRowBreed, hf, hfind,
        Except.error.injEq] at hbreed
      exact hbreed.symm
    subst he
    exact ⟨rfl, rfl⟩
  · intro τ db t e2 h2
    exact CreatePetOn_traced_breed_error db name birth breedID t [] e2 h2
  · intro τ db t b h2
    exact CreatePetOn_traced_breed_ok db name birth breedID t [] b h2

/-- Creating a pet of the unknown breed `b2` in a store that knows only
`b1`: the error wraps `ErrNotFound`, the store is as before, and the one
statement sent is the breed `SELECT`. -/
theorem CreatePet_breed_first_witness :
    (PostgresStore.GetBreedByID
        { db := { breeds := [{ ID := "b1", Name := "Breed1", Temperament := "T1",
                               Origin := "O1" }],
                  pets := [], seq := 1, fault := none } } "b2").1 = .error .ErrNotFound ∧
    PostgresStore.CreatePet
        { db := { breeds := [{ ID := "b1", Name := "Breed1", Temperament := "T1",
                               Origin := "O1" }],
                  pets := [], seq := 1, fault := none } }
        "Fido" { year := 2020, month := 1, day := 1 } "b2" =
      (.error (.wrap "failed to get breed with ID b2" .ErrNotFound),
        { db := { breeds := [{ ID := "b1", Name := "Breed1", Temperament := "T1",
                               Origin := "O1" }],
                  pets := [], seq := 1, fault := none } }) ∧
    (CreatePetOn (tracedBackend databaseBackend) "Fido" { year := 2020, month := 1, day := 1 }
        "b2"
        ({ breeds := [{ ID := "b1", Name := "Breed1", Temperament := "T1", Origin := "O1" }],
           pets := [], seq := 1, fault := none }, [])).2.2 = [.SelectBreed "b2"] :=
  ⟨rfl,
    Prod.ext
      (CreatePet_breed_first
        { db := { breeds := [{ ID := "b1", Name := "Breed1", Temperament := "T1",
                               Origin := "O1" }],
                  pets := [], seq := 1, fault := none } }
        "Fido" { year := 2020, month := 1, day := 1 } "b2" .ErrNotFound rfl).1
      (CreatePet_breed_first
        { db := { breeds := [{ ID := "b1", Name := "Breed1", Temperament := "T1",
                               Origin := "O1" }],
                  pets := [], seq := 1, fault := none } }
        "Fido" { year := 2020, month := 1, day := 1 } "b2" .ErrNotFound rfl).2.1,
    congrArg (fun x => x.2.2)
      (CreatePet_breed_first
        { db := { breeds := [{ ID := "b1", Name := "Breed1", Temperament := "T1",
                               Origin := "O1" }],
                  pets := [], seq := 1, fault := none } }
        "Fido" { year := 2020, month := 1, day := 1 } "b2" .ErrNotFound rfl).2.2.2.2.2.2.1⟩

/-- C14: when the breed lookup returns `b` and the `INSERT` succeeds with the
generated identifier `g`, `PostgresStore.CreatePet` returns no error and the
pet with `ID = g`, the given name and birth and the breed `b`; on a healthy
backend `b.ID` is `breedID`, and the `pets` table afterwards is the table
before with the one row `(g, name, birth, breedID)` added, the `breeds` table
being unchanged. -/
theorem CreatePet_result (s : PostgresStore) (name : String) (birth : Time)
    (breedID : String) (b : Breed) (g : String)
    (hbreed : (s.GetBreedByID breedID).1 = .ok b)
    (hinsert : (s.db.insertPet name birth breedID).1 = .ok g) :
    (s.CreatePet name birth breedID).1 =
        .ok { ID := g, Name := name, Birth := birth, Breed := b } ∧
    b.ID = breedID ∧
    (s.CreatePet name birth breedID).2.db.pets =
        s.db.pets ++ [{ id := g, name := name, birth := birth, breed_id := breedID }] ∧
    (s.CreatePet name birth breedID).2.db.breeds = s.db.breeds ∧
    (s.CreatePet name birth breedID).2.db.pets.length = s.db.pets.length + 1 := by
  have hst := GetBreedByID_state s breedID
  have hf : s.db.fault = none := by
    cases hfault : s.db.fault with
    | none => rfl
    | some e => simp [Database.insertPet, hfault] at hinsert
  have hany : s.db.breeds.any (fun b => b.ID == breedID) = true := by
    by_contra hno
    simp only [Database.insertPet, hf, hno] at hinsert
    simp at hinsert
  have hg : g = String.mk (Nat.toDigits 10 s.db.seq) := by
    simp only [Database.insertPet, hf, hany, if_true, Except.ok.injEq] at hinsert
    exact hinsert.symm
  have hid : b.ID = breedID := by
    simp only [PostgresStore.GetBreedByID, Database.queryRowBreed, hf] at hbreed
    cases hfind : s.db.breeds.find? (fun b => b.ID == breedID) with
    | none => simp [hfind] at hbreed
    | some b2 =>
      simp only [hfind, Except.ok.injEq] at hbreed
      subst hbreed
      have hp := List.find?_some hfind
      simpa using hp
  have hc : s.CreatePet name birth breedID =
      (.ok { ID := g, Name := name, Birth := birth, Breed := b },
        { db := { s.db with
            pets := s.db.pets ++ [{ id := g, name := name, birth := birth,
                                    breed_id := breedID }],
            seq := s.db.seq + 1 } }) := by
    unfold PostgresStore.CreatePet
    generalize s.GetBreedByID breedID = x at hbreed hst
    obtain ⟨res, s1⟩ := x
    simp only at hbreed hst
    subst hbreed hst
    simp only [Database.insertPet, hf, hany, if_true, hg]
  rw [hc]
  exact ⟨rfl, hid, rfl, rfl, by simp⟩

/-- Creating `Fido` of breed `b1` in a store that knows `b1` and has issued no
identifier yet. -/
theorem CreatePet_result_witness :
    (PostgresStore.CreatePet
        { db := { breeds := [{ ID := "b1", Name := "Breed1", Temperament := "T1",
                               Origin := "O1" }],
                  pets := [], seq := 1, fault := none } }
        "Fido" { year := 2020, month := 1, day := 1 } "b1").1 =
      .ok { ID := "1", Name := "Fido", Birth := { year := 2020, month := 1, day := 1 },
            Breed := { ID := "b1", Name := "Breed1", Temperament := "T1", Origin := "O1" } } :=
  (CreatePet_result
    { db := { breeds := [{ ID := "b1", Name := "Breed1", Temperament := "T1", Origin := "O1" }],
              pets := [], seq := 1, fault := none } }
    "Fido" { year := 2020, month := 1, day := 1 } "b1"
    { ID := "b1", Name := "Breed1", Temperament := "T1", Origin := "O1" } "1" rfl rfl).1

/-! ## Fixed error responses -/

theorem GetBreedsHandler_error {σ : Type} (h : BreedHandler σ) (r : Request) (s : σ)
    (e : GoError) (he : (h.breedStore.GetBreeds s).1 = .error e) :
    (GetBreedsHandler h NewRecorder r s).1.result =
      { status := 500, contentType := "text/plain; charset=utf-8",
        body := "Internal Server Error\n" } := by
  simp only [GetBreedsHandler]
  generalize h.breedStore.GetBreeds s = x at he ⊢
  obtain ⟨res, s1⟩ := x
  simp only at he
  subst he
  simp only [httpError_fresh_result, StatusInternalServerError]
  rfl

theorem getPetsHandler_error {σ : Type} (ph : PetHandler σ) (r : Request) (s : σ)
    (e : GoError) (he : (ph.petStore.GetPets s).1 = .error e) :
    (getPetsHandler ph NewRecorder r s).1.result =
      { status := 500, contentType := "text/plain; charset=utf-8",
        body := "Internal Server Error\n" } := by
  simp only [getPetsHandler]
  generalize ph.petStore.GetPets s = x at he ⊢
  obtain ⟨res, s1⟩ := x
  simp only at he
  subst he
  simp only [httpError_fresh_result, StatusInternalServerError]
  rfl

theorem GetBreedByIDHandler_error {σ : Type} (h : BreedHandler σ) (r : Request) (s : σ)
    (e : GoError) (he : (h.breedStore.GetBreedByID (pathBase r.Path) s).1 = .error e)
    (hnf : errorsIs e .ErrNotFound = false) :
    (GetBreedByIDHandler h NewRecorder r s).1.result =
      { status := 500, contentType := "text/plain; charset=utf-8",
        body := "Internal Server Error\n" } := by
  simp only [GetBreedByIDHandler]
  generalize h.breedStore.GetBreedByID (pathBase r.Path) s = x at he ⊢
  obtain ⟨res, s1⟩ := x
  simp only at he
  subst he
  simp only [hnf, httpError_fresh_result, StatusInternalServerError]
  rfl

theorem GetPetByIDHandler_error {σ : Type} (ph : PetHandler σ) (r : Request) (s : σ)
    (e : GoError) (he : (ph.petStore.GetPetByID (pathBase r.Path) s).1 = .error e)
    (hnf : errorsIs e .ErrNotFound = false) :
    (GetPetByIDHandler ph NewRecorder r s).1.result =
      { status := 500, contentType := "text/plain; charset=utf-8",
        body := "Internal Server Error\n" } := by
  simp only [GetPetByIDHandler]
  generalize ph.petStore.GetPetByID (pathBase r.Path) s = x at he ⊢
  obtain ⟨res, s1⟩ := x
  simp only at he
  subst he
  simp only [hnf, httpError_fresh_result, StatusInternalServerError]
  rfl

theorem createPetHandler_breed_stage {σ : Type} (ph : PetHandler σ) (r : Request) (s : σ)
    (req : CreatePetRequest) (e : GoError)
    (hdec : decodeCreatePetRequest r.Body = .ok req)
    (hbreed : (ph.breedStore.GetBreedByID req.BreedID s).1 = .error e) :
    (createPetHandler ph NewRecorder r s).1.result =
      { status := 400, contentType := "text/plain; charset=utf-8",
        body := "Error at checking the breed\n" } := by
  simp only [createPetHandler, hdec]
  generalize ph.breedStore.GetBreedByID req.BreedID s = x at hbreed ⊢
  obtain ⟨res, s1⟩ := x
  simp only at hbreed
  subst hbreed
  simp only [httpError_fresh_result, StatusBadRequest]
  rfl

/-- C13: the error responses of the handlers do not depend on the store error.
For any two runs (over any stores, states and requests) in which the same
store call of the same handler fails, with errors that both are not and do
not wrap `ErrNotFound` in the read-by-ID handlers and with any two errors in
the list handlers and at the breed and persist gates of `createPetHandler`,
the two responses are equal, and equal to the fixed response of that
handler. -/
theorem handlers_error_opacity {σ τ : Type} (h1 : BreedHandler σ) (h2 : BreedHandler τ)
    (ph1 : PetHandler σ) (ph2 : PetHandler τ) (r1 r2 : Request) (s1 : σ) (s2 : τ)
    (e1 e2 : GoError) :
    ((h1.breedStore.GetBreeds s1).1 = .error e1 → (h2.breedStore.GetBreeds s2).1 = .error e2 →
      (GetBreedsHandler h1 NewRecorder r1 s1).1.result =
          (GetBreedsHandler h2 NewRecorder r2 s2).1.result ∧
        (GetBreedsHandler h1 NewRecorder r1 s1).1.result =
          { status := 500, contentType := "text/plain; charset=utf-8",
            body := "Internal Server Error\n" }) ∧
    ((h1.breedStore.GetBreedByID (pathBase r1.Path) s1).1 = .error e1 →
      (h2.breedStore.GetBreedByID (pathBase r2.Path) s2).1 = .error e2 →
      errorsIs e1 .ErrNotFound = false → errorsIs e2 .ErrNotFound = false →
      (GetBreedByIDHandler h1 NewRecorder r1 s1).1.result =
          (GetBreedByIDHandler h2 NewRecorder r2 s2).1.result ∧
        (GetBreedByIDHandler h1 NewRecorder r1 s1).1.result =
          { status := 500, contentType := "text/plain; charset=utf-8",
            body := "Internal Server Error\n" }) ∧
    ((ph1.petStore.GetPets s1).1 = .error e1 → (ph2.petStore.GetPets s2).1 = .error e2 →
      (getPetsHandler ph1 NewRecorder r1 s1).1.result =
          (getPetsHandler ph2 NewRecorder r2 s2).1.result ∧
        (getPetsHandler ph1 NewRecorder r1 s1).1.result =
          { status := 500, contentType := "text/plain; charset=utf-8",
            body := "Internal Server Error\n" }) ∧
    ((ph1.petStore.GetPetByID (pathBase r1.Path) s1).1 = .error e1 →
      (ph2.petStore.GetPetByID (pathBase r2.Path) s2).1 = .error e2 →
      errorsIs e1 .ErrNotFound = false → errorsIs e2 .ErrNotFound = false →
      (GetPetByIDHandler ph1 NewRecorder r1 s1).1.result =
          (GetPetByIDHandler ph2 NewRecorder r2 s2).1.result ∧
        (GetPetByIDHandler ph1 NewRecorder r1 s1).1.result =
          { status := 500, contentType := "text/plain; charset=utf-8",
            body := "Internal Server Error\n" }) ∧
    (∀ req1 req2, decodeCreatePetRequest r1.Body = .ok req1 →
      decodeCreatePetRequest r2.Body = .ok req2 →
      (ph1.breedStore.GetBreedByID req1.BreedID s1).1 = .error e1 →
      (ph2.breedStore.GetBreedByID req2.BreedID s2).1 = .error e2 →
      (createPetHandler ph1 NewRecorder r1 s1).1.result =
          (createPetHandler ph2 NewRecorder r2 s2).1.result ∧
        (createPetHandler ph1 NewRecorder r1 s1).1.result =
          { status := 400, contentType := "text/plain; charset=utf-8",
            body := "Error at checking the breed\n" }) ∧
    (∀ req1 req2 b1 b2 d1 d2, decodeCreatePetRequest r1.Body = .ok req1 →
      decodeCreatePetRequest r2.Body = .ok req2 →
      (ph1.breedStore.GetBreedByID req1.BreedID s1).1 = .ok b1 →
      (ph2.breedStore.GetBreedByID req2.BreedID s2).1 = .ok b2 →
      timeParse req1.Birth = .ok d1 → timeParse req2.Birth = .ok d2 →
      (ph1.petStore.CreatePet req1.Name d1 req1.BreedID
        (ph1.breedStore.GetBreedByID req1.BreedID s1).2).1 = .error e1 →
      (ph2.petStore.CreatePet req2.Name d2 req2.BreedID
        (ph2.breedStore.GetBreedByID req2.BreedID s2).2).1 = .error e2 →
      (createPetHandler ph1 NewRecorder r1 s1).1.result =
          (createPetHandler ph2 NewRecorder r2 s2).1.result ∧
        (createPetHandler ph1 NewRecorder r1 s1).1.result =
          { status := 500, contentType := "text/plain; charset=utf-8",
            body := "Error creating pet\n" }) := by
  refine ⟨?_, ?_, ?_, ?_, ?_, ?_⟩
  · intro a b
    rw [GetBreedsHandler_error h1 r1 s1 e1 a, GetBreedsHandler_error h2 r2 s2 e2 b]
    exact ⟨rfl, rfl⟩
  · intro a b c d
    rw [GetBreedByIDHandler_error h1 r1 s1 e1 a c, GetBreedByIDHandler_error h2 r2 s2 e2 b d]
    exact ⟨rfl, rfl⟩
  · intro a b
    rw [getPetsHandler_error ph1 r1 s1 e1 a, getPetsHandler_error ph2 r2 s2 e2 b]
    exact ⟨rfl, rfl⟩
  · intro a b c d
    rw [GetPetByIDHandler_error ph1 r1 s1 e1 a c, GetPetByIDHandler_error ph2 r2 s2 e2 b d]
    exact ⟨rfl, rfl⟩
  · intro req1 req2 a b c d
    rw [createPetHandler_breed_stage ph1 r1 s1 req1 e1 a c,
      createPetHandler_breed_stage ph2 r2 s2 req2 e2 b d]
    exact ⟨rfl, rfl⟩
  · intro req1 req2 b1 b2 d1 d2 a b c d e f g k
    rw [createPetHandler_persist_stage ph1 r1 s1 req1 b1 d1 e1 a c e g,
      createPetHandler_persist_stage ph2 r2 s2 req2 b2 d2 e2 b d f k]
    exact ⟨rfl, rfl⟩

/-- The failing test double and a relational store whose backend refuses
connections fail `GetPets` with different errors and get the same response. -/
theorem handlers_error_opacity_witness :
    (mockPetStore.GetPets
        { testWorld with petStore := { pets := none, breeds := none, fail := true } }).1 =
      .error (.other "store error") ∧
    (postgresPetStore.GetPets
        { db := { breeds := [], pets := [], seq := 1,
                  fault := some (.other "dial tcp: connection refused") } }).1 =
      .error (.wrap "failed to query pets" (.other "dial tcp: connection refused")) ∧
    (getPetsHandler mockPetHandler NewRecorder
        { Method := "GET", Path := "/api/v1/pets", Body := "" }
        { testWorld with petStore := { pets := none, breeds := none, fail := true } }).1.result =
      (getPetsHandler (NewPetHandler postgresPetStore postgresBreedStore) NewRecorder
        { Method := "GET", Path := "/api/v1/pets", Body := "" }
        { db := { breeds := [], pets := [], seq := 1,
                  fault := some (.other "dial tcp: connection refused") } }).1.result :=
  ⟨rfl, rfl,
    ((handlers_error_opacity (NewBreedHandler mockBreedStore)
      (NewBreedHandler postgresBreedStore) mockPetHandler
      (NewPetHandler postgresPetStore postgresBreedStore)
      { Method := "GET", Path := "/api/v1/pets", Body := "" }
      { Method := "GET", Path := "/api/v1/pets", Body := "" }
      { testWorld with petStore := { pets := none, breeds := none, fail := true } }
      { db := { breeds := [], pets := [], seq := 1,
                fault := some (.other "dial tcp: connection refused") } }
      (.other "store error")
      (.wrap "failed to query pets" (.other "dial tcp: connection refused"))).2.2.1
      rfl rfl).1⟩

/-! ## `path.Base` -/

theorem dropWhile_replicate_append (p : Char → Bool) (c : Char) (k : Nat) (l : List Char)
    (hc : p c = true) : (List.replicate k c ++ l).dropWhile p = l.dropWhile p := by
  induction k with
  | zero => rfl
  | succ k ih => simp [List.replicate_succ, List.dropWhile_cons, hc, ih]

theorem takeWhile_append_stop (p : Char → Bool) (l1 : List Char) (c : Char) (l2 : List Char)
    (h1 : ∀ x ∈ l1, p x = true) (hc : p c = false) :
    (l1 ++ c :: l2).takeWhile p = l1 := by
  induction l1 with
  | nil => simp [List.takeWhile_cons, hc]
  | cons a l ih =>
    have ha : p a = true := h1 a (by simp)
    have hl : ∀ x ∈ l, p x = true := fun x hx => h1 x (by simp [hx])
    simp [List.takeWhile_cons, ha, ih hl]

theorem takeWhile_all (p : Char → Bool) (l : List Char) (h : ∀ x ∈ l, p x = true) :
    l.takeWhile p = l := by
  induction l with
  | nil => rfl
  | cons a l ih =>
    have ha : p a = true := h a (by simp)
    have hl : ∀ x ∈ l, p x = true := fun x hx => h x (by simp [hx])
    simp [List.takeWhile_cons, ha, ih hl]

theorem dropWhile_slash_of_last (elem : List Char) (rest : List Char) (hne : elem ≠ [])
    (hns : ∀ x ∈ elem, x ≠ '/') :
    (elem.reverse ++ rest).dropWhile (fun c => c == '/') = elem.reverse ++ rest := by
  cases hrev : elem.reverse with
  | nil => exact absurd (List.reverse_eq_nil_iff.mp hrev) hne
  | cons a l =>
    have ha : a ∈ elem := by
      have : a ∈ elem.reverse := by rw [hrev]; simp
      exact List.mem_reverse.mp this
    have : (a == '/') = false := by simpa using hns a ha
    simp [List.dropWhile_cons, this]

/-- The last element of a path that ends in a non-empty element followed by
any number of slashes. -/
theorem pathBase_last_element (front elem : List Char) (k : Nat) (hne : elem ≠ [])
    (hns : ∀ x ∈ elem, x ≠ '/') (hfront : front = [] ∨ front.getLast? = some '/') :
    pathBase (String.mk (front ++ elem ++ List.replicate k '/')) = String.mk elem := by
  have hdata : front ++ elem ++ List.replicate k '/' ≠ [] := by
    intro h
    simp [hne] at h
  have hstr : String.mk (front ++ elem ++ List.replicate k '/') ≠ "" := by
    intro h
    exact hdata (congrArg String.data h)
  have hp : ∀ x ∈ elem.reverse, (fun c : Char => c != '/') x = true := by
    intro x hx
    simpa using hns x (List.mem_reverse.mp hx)
  have hstrip : ((front ++ elem ++ List.replicate k '/').reverse.dropWhile
      (fun c => c == '/')).reverse = front ++ elem := by
    rw [List.reverse_append, List.reverse_replicate, dropWhile_replicate_append _ _ _ _ (by rfl),
      List.reverse_append, dropWhile_slash_of_last elem _ hne hns]
    simp
  have hlast : ((front ++ elem).reverse.takeWhile (fun c => c != '/')).reverse = elem := by
    rw [List.reverse_append]
    rcases hfront with hf | hf
    · subst hf
      simp only [List.reverse_nil, List.append_nil]
      rw [takeWhile_all _ _ hp, List.reverse_reverse]
    · obtain ⟨init, hinit⟩ : ∃ init, front = init ++ ['/'] := by
        cases hfr : front.reverse with
        | nil =>
          have := List.reverse_eq_nil_iff.mp hfr
          subst this
          simp at hf
        | cons a l =>
          have h2 : front = l.reverse ++ [a] := by
            have := congrArg List.reverse hfr
            simpa using this
          rw [h2] at hf
          simp at hf
          exact ⟨l.reverse, by rw [h2, hf]⟩
      subst hinit
      simp only [List.reverse_append, List.reverse_cons, List.reverse_nil, List.nil_append,
        List.singleton_append]
      rw [takeWhile_append_stop _ _ _ _ hp (by rfl), List.reverse_reverse]
  unfold pathBase
  rw [if_neg hstr]
  simp only [hstrip, hlast, hne, if_false]

theorem GetBreedByIDHandler_calls {σ : Type} (h : BreedHandler σ) (r : Request) (s : σ) :
    (GetBreedByIDHandler (tracedBreedHandler h) NewRecorder r (s, [])).2.2 =
      [.GetBreedByID (pathBase r.Path)] := by
  simp only [GetBreedByIDHandler, tracedBreedHandler, NewBreedHandler, tracedBreedStore]
  generalize h.breedStore.GetBreedByID (pathBase r.Path) s = x
  obtain ⟨res, s1⟩ := x
  cases res with
  | error e =>
    simp only
    split <;> rfl
  | ok b => rfl

theorem GetPetByIDHandler_calls {σ : Type} (ph : PetHandler σ) (r : Request) (s : σ) :
    (GetPetByIDHandler (tracedPetHandler ph) NewRecorder r (s, [])).2.2 =
      [.GetPetByID (pathBase r.Path)] := by
  simp only [GetPetByIDHandler, tracedPetHandler, NewPetHandler, tracedPetStore]
  generalize ph.petStore.GetPetByID (pathBase r.Path) s = x
  obtain ⟨res, s1⟩ := x
  cases res with
  | error e =>
    simp only
    split <;> rfl
  | ok p =>
    simp only
    cases marshalPet p <;> rfl

/-- C16: `GetBreedByIDHandler` and `GetPetByIDHandler` make exactly one store
call, the lookup of `path.Base` of the URL path, whatever the method of the
request; for a path that ends in a non-empty element followed by any number of
slashes that identifier is the element, so `/api/v1/pets/` looks up `pets`,
`/api/v1/pets/p1/` looks up `p1` and `/api/v1/pets/a/b` looks up `b`. -/
theorem readByID_identifier {σ : Type} (h : BreedHandler σ) (ph : PetHandler σ) (r : Request)
    (s : σ) :
    (GetBreedByIDHandler (tracedBreedHandler h) NewRecorder r (s, [])).2.2 =
        [.GetBreedByID (pathBase r.Path)] ∧
    (GetPetByIDHandler (tracedPetHandler ph) NewRecorder r (s, [])).2.2 =
        [.GetPetByID (pathBase r.Path)] ∧
    (∀ method : String,
      GetBreedByIDHandler h NewRecorder { r with Method := method } s =
          GetBreedByIDHandler h NewRecorder r s ∧
        GetPetByIDHandler ph NewRecorder { r with Method := method } s =
          GetPetByIDHandler ph NewRecorder r s) ∧
    (∀ (front elem : List Char) (k : Nat), elem ≠ [] → (∀ x ∈ elem, x ≠ '/') →
      (front = [] ∨ front.getLast? = some '/') →
      r.Path = String.mk (front ++ elem ++ List.replicate k '/') →
      (GetBreedByIDHandler (tracedBreedHandler h) NewRecorder r (s, [])).2.2 =
          [.GetBreedByID (String.mk elem)] ∧
        (GetPetByIDHandler (tracedPetHandler ph) NewRecorder r (s, [])).2.2 =
          [.GetPetByID (String.mk elem)]) ∧
    (GetPetByIDHandler (tracedPetHandler ph) NewRecorder
        { r with Path := "/api/v1/pets/" } (s, [])).2.2 = [.GetPetByID "pets"] ∧
    (GetPetByIDHandler (tracedPetHandler ph) NewRecorder
        { r with Path := "/api/v1/pets/p1/" } (s, [])).2.2 = [.GetPetByID "p1"] ∧
    (GetPetByIDHandler (tracedPetHandler ph) NewRecorder
        { r with Path := "/api/v1/pets/a/b" } (s, [])).2.2 = [.GetPetByID "b"] ∧
    (GetBreedByIDHandler (tracedBreedHandler h) NewRecorder
        { r with Path := "/api/v1/breeds/" } (s, [])).2.2 = [.GetBreedByID "breeds"] := by
  refine ⟨GetBreedByIDHandler_calls h r s, GetPetByIDHandler_calls ph r s, ?_, ?_,
    ?_, ?_, ?_, ?_⟩
  · intro method
    exact ⟨rfl, rfl⟩
  · intro front elem k hne hns hfront hpath
    have hb := pathBase_last_element front elem k hne hns hfront
    rw [← hpath] at hb
    rw [GetBreedByIDHandler_calls, GetPetByIDHandler_calls, hb]
    exact ⟨rfl, rfl⟩
  · rw [GetPetByIDHandler_calls]; rfl
  · rw [GetPetByIDHandler_calls]; rfl
  · rw [GetPetByIDHandler_calls]; rfl
  · rw [GetBreedByIDHandler_calls]; rfl

/-- The nested path `/api/v1/pets/a/b/` under a POST looks up `b`. -/
theorem readByID_identifier_witness :
    (GetPetByIDHandler (tracedPetHandler mockPetHandler) NewRecorder
        { Method := "POST", Path := "/api/v1/pets/a/b/", Body := "" } (testWorld, [])).2.2 =
      [.GetPetByID "b"] :=
  ((readByID_identifier (NewBreedHandler mockBreedStore) mockPetHandler
    { Method := "POST", Path := "/api/v1/pets/a/b/", Body := "" } testWorld).2.2.2.1
    "/api/v1/pets/a/".data ['b'] 1 (by decide) (by decide) (Or.inr (by rfl)) (by rfl)).2

/-! ## The list responses read back -/

theorem skipSpace_comma (cs : List Char) : skipSpace (',' :: cs) = ',' :: cs :=
  skipSpace_cons_of_not_space _ (by decide)

theorem skipSpace_bracket (cs : List Char) : skipSpace (']' :: cs) = ']' :: cs :=
  skipSpace_cons_of_not_space _ (by decide)

theorem joinElems_cons_cons (x y : List Char) (rest : List (List Char)) :
    joinElems (x :: y :: rest) = x ++ ',' :: joinElems (y :: rest) := by
  simp [joinElems]

theorem joinElems_head_brace (t : List Char) (ts : List (List Char))
    (ht : ∃ tl, t = '\x7b' :: tl) : ∃ tl, joinElems (t :: ts) = '\x7b' :: tl := by
  obtain ⟨tl, rfl⟩ := ht
  cases ts with
  | nil => exact ⟨tl, rfl⟩
  | cons y rest => exact ⟨tl ++ ',' :: joinElems (y :: rest), by simp [joinElems]⟩

theorem length_joinElems (k : Nat) (texts : List (List Char)) (hne : texts ≠ [])
    (h : ∀ t ∈ texts, k ≤ t.length) : texts.length + k ≤ (joinElems texts).length + 1 := by
  induction texts with
  | nil => exact absurd rfl hne
  | cons t ts ih =>
    have ht := h t (by simp)
    cases ts with
    | nil =>
      simp only [joinElems, List.length_cons, List.length_nil]
      omega
    | cons y rest =>
      have := ih (by simp) (fun x hx => h x (by simp [hx]))
      rw [joinElems_cons_cons]
      simp only [List.length_append, List.length_cons] at this ⊢
      omega

/-- The elements of an array whose texts are objects that the scanner reads
with fuel `k` are read in order up to the closing bracket. -/
theorem scanElems_join (d k : Nat) (texts : List (List Char)) (vals : List JSON)
    (h : List.Forall₂
      (fun t v => (∃ tl, t = '\x7b' :: tl) ∧
        ∀ f rest, scanValue (f + k) d (t ++ rest) = some (v, rest)) texts vals)
    (hne : texts ≠ []) (f : Nat) (rest : List Char) :
    scanElems (f + texts.length + k) d (joinElems texts ++ ']' :: rest) = some (vals, rest) := by
  induction h with
  | nil => exact absurd rfl hne
  | @cons t v ts vs htv hrest ih =>
    have hfuel : f + (t :: ts).length + k = (f + ts.length + k) + 1 := by
      simp only [List.length_cons]; omega
    have hnc : ¬ (']' = ',') := by decide
    rw [hfuel, scanElems]
    cases hrest with
    | nil =>
      have hj : joinElems [t] ++ ']' :: rest = t ++ ']' :: rest := rfl
      rw [hj, htv.2 (f + ([] : List (List Char)).length) (']' :: rest)]
      simp only [skipSpace_bracket, hnc, if_false, if_true]
    | @cons t2 v2 ts2 vs2 htv2 hrest2 =>
      have hj : joinElems (t :: t2 :: ts2) ++ ']' :: rest =
          t ++ ',' :: (joinElems (t2 :: ts2) ++ ']' :: rest) := by
        rw [joinElems_cons_cons]; simp
      obtain ⟨tl, htl⟩ := joinElems_head_brace t2 ts2 htv2.1
      have hsp : skipSpace (joinElems (t2 :: ts2) ++ ']' :: rest) =
          joinElems (t2 :: ts2) ++ ']' :: rest := by
        rw [htl]; exact skipSpace_brace _
      rw [hj, htv.2 (f + (t2 :: ts2).length) (',' :: (joinElems (t2 :: ts2) ++ ']' :: rest))]
      simp only [skipSpace_comma, if_true, hsp]
      rw [ih (by simp)]

/-- A non-empty array of such objects is scanned back to the array of their
values. -/
theorem scanValue_array (k : Nat) (texts : List (List Char)) (vals : List JSON)
    (h : List.Forall₂
      (fun t v => (∃ tl, t = '\x7b' :: tl) ∧
        ∀ f rest, scanValue (f + k) 1 (t ++ rest) = some (v, rest)) texts vals)
    (hne : texts ≠ []) (f : Nat) (rest : List Char) :
    scanValue (f + texts.length + k + 1) 0 ('[' :: (joinElems texts ++ ']' :: rest)) =
      some (.arr vals, rest) := by
  have h1 : ¬ ('[' = '\x7b') := by decide
  have h2 : ¬ (maxNestingDepth ≤ 0) := by decide
  have h3 : ¬ ('\x7b' = ']') := by decide
  obtain ⟨t, ts, rfl⟩ : ∃ t ts, texts = t :: ts := by
    cases texts with
    | nil => exact absurd rfl hne
    | cons t ts => exact ⟨t, ts, rfl⟩
  have ht : ∃ tl, t = '\x7b' :: tl := by
    cases h with
    | cons htv _ => exact htv.1
  obtain ⟨tl, htl⟩ := joinElems_head_brace t ts ht
  have hs := scanElems_join 1 k (t :: ts) vals h hne f rest
  rw [scanValue, if_neg h1, if_pos rfl, if_neg h2]
  rw [htl] at hs ⊢
  simp only [List.cons_append, skipSpace_brace, h3, if_false] at hs ⊢
  rw [hs]

/-- The body of a non-empty list response reads back as the array of the
values of its elements. -/
theorem readValue_array_body (k : Nat) (texts : List (List Char)) (vals : List JSON)
    (h : List.Forall₂
      (fun t v => (∃ tl, t = '\x7b' :: tl) ∧
        ∀ f rest, scanValue (f + k) 1 (t ++ rest) = some (v, rest)) texts vals)
    (hne : texts ≠ []) (hlen : ∀ t ∈ texts, k ≤ t.length) :
    readValue (String.mk (['['] ++ joinElems texts ++ [']'] ++ ['\n'])) = .ok (.arr vals) := by
  have hj := length_joinElems k texts hne hlen
  obtain ⟨t, ts, rfl⟩ : ∃ t ts, texts = t :: ts := by
    cases texts with
    | nil => exact absurd rfl hne
    | cons t ts => exact ⟨t, ts, rfl⟩
  have hfuel : (t :: ts).length + k + 1 ≤
      ('[' :: (joinElems (t :: ts) ++ ']' :: ['\n'])).length + 1 := by
    simp only [List.length_cons, List.length_append, List.length_nil] at hj ⊢
    omega
  have htext : ['['] ++ joinElems (t :: ts) ++ [']'] ++ ['\n'] =
      '[' :: (joinElems (t :: ts) ++ ']' :: ['\n']) := by simp
  rw [htext]
  refine readValue_of_scan '[' _ (.arr vals) ['\n'] (by decide) ((t :: ts).length + k + 1)
    hfuel ?_
  intro f
  have := scanValue_array k (t :: ts) vals h hne f ['\n']
  have e : f + ((t :: ts).length + k + 1) = f + (t :: ts).length + k + 1 := by omega
  rw [e]
  exact this

theorem length_marshalBreed (b : Breed) : 6 ≤ (marshalBreed b).length := by
  rw [marshalBreed_eq]
  simp only [List.length_cons, List.length_append]
  omega

theorem forall2_marshalBreed (l : List Breed) :
    List.Forall₂
      (fun t v => (∃ tl, t = '\x7b' :: tl) ∧
        ∀ f rest, scanValue (f + 6) 1 (t ++ rest) = some (v, rest))
      (l.map marshalBreed) (l.map breedJSON) := by
  induction l with
  | nil => exact List.Forall₂.nil
  | cons b l ih =>
    refine List.Forall₂.cons ⟨?_, ?_⟩ ih
    · exact ⟨_, marshalBreed_eq b⟩
    · intro f rest
      exact scanValue_marshalBreed b f 1 rest (by decide)

theorem storeBreed_breedJSON (b : Breed) (old : Breed) :
    storeBreed (breedJSON b) old none = (b, none) := rfl

theorem storeBreedElems_breedJSON (l : List Breed) :
    storeBreedElems (l.map breedJSON) none = (l, none) := by
  induction l with
  | nil => rfl
  | cons b l ih =>
    simp only [List.map_cons, storeBreedElems, storeBreed_breedJSON, ih]

/-- Decoding the body written for a slice of breeds gives the slice back. -/
theorem decodeBreeds_marshalBreeds (breeds : Slice Breed) :
    decodeBreeds (String.mk (marshalBreeds breeds ++ ['\n'])) = .ok breeds := by
  cases breeds with
  | none => rfl
  | some l =>
    cases l with
    | nil => rfl
    | cons b l =>
      have hr := readValue_array_body 6 ((b :: l).map marshalBreed) ((b :: l).map breedJSON)
        (forall2_marshalBreed (b :: l)) (by simp)
        (by
          intro t ht
          obtain ⟨x, _, rfl⟩ := List.mem_map.mp ht
          exact length_marshalBreed x)
      simp only [decodeBreeds, marshalBreeds, hr, unmarshalBreeds, storeBreedElems_breedJSON]

/-- The scanner reads the encoding of a pet back as its JSON value at any
depth below the nesting limit. -/
theorem scanValue_marshalPet_nested (p : Pet) (t : List Char) (f d : Nat) (rest : List Char)
    (hd : d + 1 < maxNestingDepth)
    (h1 : 0 ≤ p.Birth.year) (h2 : p.Birth.year < 10000) (ht : marshalPet p = .ok t) :
    scanValue (f + 11) d (t ++ rest) = some (petJSON p, rest) := by
  rw [marshalPet_eq p h1 h2] at ht
  simp only [Except.ok.injEq] at ht
  subst ht
  have hd2 : ¬ (maxNestingDepth ≤ d) := by omega
  have hne : ¬ ('\"' = '\x7d') := by decide
  simp only [List.cons_append, List.nil_append, List.append_assoc]
  rw [scanValue, if_pos rfl, if_neg hd2, skipSpace_quote]
  simp only [hne, if_false]
  rw [scanMembers_string_more "id" p.ID (f + 8) (d + 1),
    scanMembers_string_more "name" p.Name (f + 7) (d + 1),
    scanMembers_string_more "birth" _ (f + 6) (d + 1)]
  have hb := scanValue_marshalBreed p.Breed f (d + 1) ('\x7d' :: rest) hd
  have hm := scanMembers_member "breed" (f + 5) (d + 1) (marshalBreed p.Breed)
    ('\x7d' :: rest) (breedJSON p.Breed) hb (by rw [marshalBreed_eq]; exact skipSpace_brace _)
  have h3 : skipSpace ('\x7d' :: rest) = '\x7d' :: rest :=
    skipSpace_cons_of_not_space _ (by decide)
  have h4 : ¬ ('\x7d' = ',') := by decide
  simp only [h3, h4, if_false, if_true] at hm
  rw [hm]
  rfl

theorem length_formatDate (year month day : Nat) :
    (formatDate year month day).data.length = 10 := by
  simp [formatDate, pad4, pad2]

/-- The birth written by the encoder is read back by `Time.UnmarshalJSON`. -/
theorem storeTime_birth (t old : Time) (h1 : 0 ≤ t.year) (h2 : t.year < 10000)
    (hdate : t.IsDate) :
    storeTime (.str (formatDate t.year.toNat t.month t.day ++ "T00:00:00Z")) old = .ok t := by
  obtain ⟨hm1, hm2, hd1, hd2⟩ := hdate
  have hlen := length_formatDate t.year.toNat t.month t.day
  have hdata : (formatDate t.year.toNat t.month t.day ++ "T00:00:00Z").data =
      (formatDate t.year.toNat t.month t.day).data ++
        ['T', '0', '0', ':', '0', '0', ':', '0', '0', 'Z'] := by
    rw [String.data_append]
  have hdrop : ((formatDate t.year.toNat t.month t.day).data ++
      ['T', '0', '0', ':', '0', '0', ':', '0', '0', 'Z']).drop 10 =
      ['T', '0', '0', ':', '0', '0', ':', '0', '0', 'Z'] := by
    rw [← hlen, List.drop_left]
  have htake : ((formatDate t.year.toNat t.month t.day).data ++
      ['T', '0', '0', ':', '0', '0', ':', '0', '0', 'Z']).take 10 =
      (formatDate t.year.toNat t.month t.day).data := by
    rw [← hlen, List.take_left]
  have hy : t.year.toNat ≤ 9999 := by omega
  have hml := daysIn_eq_monthLength t.year.toNat t.month hm1 hm2
  have hp := timeParse_formatDate t.year.toNat t.month t.day hy hm1 hm2 hd1 (by omega)
  have hcast : ((t.year.toNat : Nat) : Int) = t.year := Int.toNat_of_nonneg h1
  simp only [storeTime, hdata, hdrop, htake, if_true]
  rw [hp, hcast]

theorem storePet_petJSON (p : Pet) (h1 : 0 ≤ p.Birth.year) (h2 : p.Birth.year < 10000)
    (hdate : p.Birth.IsDate) : storePet (petJSON p) zeroPet none = .ok (p, none) := by
  have hunfold : storePet (petJSON p) zeroPet none =
      match storeTime
          (.str (formatDate p.Birth.year.toNat p.Birth.month p.Birth.day ++ "T00:00:00Z"))
          zeroPet.Birth with
      | .error e => .error e
      | .ok t => .ok ({ ID := p.ID, Name := p.Name, Birth := t, Breed := p.Breed }, none) := by
    rfl
  rw [hunfold, storeTime_birth p.Birth _ h1 h2 hdate]

theorem storePetElems_petJSON (l : List Pet)
    (h : ∀ p ∈ l, 0 ≤ p.Birth.year ∧ p.Birth.year < 10000 ∧ p.Birth.IsDate) :
    storePetElems (l.map petJSON) none = .ok (l, none) := by
  induction l with
  | nil => rfl
  | cons p l ih =>
    obtain ⟨h1, h2, h3⟩ := h p (by simp)
    have hl := ih (fun q hq => h q (by simp [hq]))
    simp only [List.map_cons, storePetElems, storePet_petJSON p h1 h2 h3, hl]

theorem marshalPetList_ok (l : List Pet)
    (h : ∀ p ∈ l, 0 ≤ p.Birth.year ∧ p.Birth.year < 10000) :
    ∃ ts, marshalPetList l = .ok ts ∧ ts.length = l.length ∧ (∀ t ∈ ts, 11 ≤ t.length) ∧
      List.Forall₂
        (fun t v => (∃ tl, t = '\x7b' :: tl) ∧
          ∀ f rest, scanValue (f + 11) 1 (t ++ rest) = some (v, rest))
        ts (l.map petJSON) := by
  induction l with
  | nil => exact ⟨[], rfl, rfl, by simp, List.Forall₂.nil⟩
  | cons p l ih =>
    obtain ⟨h1, h2⟩ := h p (by simp)
    obtain ⟨ts, hts, hlen, hmin, hall⟩ := ih (fun q hq => h q (by simp [hq]))
    have hm := marshalPet_eq p h1 h2
    obtain ⟨t, ht, hbr, hl11⟩ :
        ∃ t, marshalPet p = .ok t ∧ (∃ tl, t = '\x7b' :: tl) ∧ 11 ≤ t.length :=
      ⟨_, hm, ⟨_, rfl⟩, by simp only [List.length_cons, List.length_append]; omega⟩
    refine ⟨t :: ts, by simp only [marshalPetList, ht, hts], by simp [hlen], ?_, ?_⟩
    · intro x hx
      rcases List.mem_cons.mp hx with rfl | hmem
      · exact hl11
      · exact hmin x hmem
    · refine List.Forall₂.cons ⟨hbr, ?_⟩ hall
      intro f rest
      exact scanValue_marshalPet_nested p t f 1 rest (by decide) h1 h2 ht

theorem marshalPetList_error (l : List Pet)
    (h : ∃ p ∈ l, ¬ (0 ≤ p.Birth.year ∧ p.Birth.year < 10000)) :
    ∃ e, marshalPetList l = .error e := by
  induction l with
  | nil =>
    obtain ⟨p, hp, _⟩ := h
    simp at hp
  | cons q l ih =>
    cases hq : marshalPet q with
    | error e => exact ⟨e, by simp only [marshalPetList, hq]⟩
    | ok t =>
      have hin : 0 ≤ q.Birth.year ∧ q.Birth.year < 10000 := by
        by_contra hno
        have hy : q.Birth.year < 0 ∨ 10000 ≤ q.Birth.year := by omega
        simp [marshalPet, Time.MarshalJSON, hy] at hq
      obtain ⟨p, hp, hbad⟩ := h
      have hpl : p ∈ l := by
        rcases List.mem_cons.mp hp with rfl | hm
        · exact absurd hin hbad
        · exact hm
      obtain ⟨e, he⟩ := ih ⟨p, hpl, hbad⟩
      exact ⟨e, by simp only [marshalPetList, hq, he]⟩

/-- Decoding the body written for a slice of encodable pets gives the slice
back. -/
theorem decodePets_marshalPets (pets : Slice Pet)
    (h : ∀ p ∈ Slice.elems pets, 0 ≤ p.Birth.year ∧ p.Birth.year < 10000 ∧ p.Birth.IsDate) :
    ∃ t, marshalPets pets = .ok t ∧ decodePets (String.mk (t ++ ['\n'])) = .ok pets := by
  cases pets with
  | none => exact ⟨_, rfl, rfl⟩
  | some l =>
    cases l with
    | nil => exact ⟨_, rfl, rfl⟩
    | cons p l =>
      have h' : ∀ q ∈ p :: l, 0 ≤ q.Birth.year ∧ q.Birth.year < 10000 ∧ q.Birth.IsDate := h
      obtain ⟨ts, hts, hlen, hmin, hall⟩ :=
        marshalPetList_ok (p :: l) (fun q hq => ⟨(h' q hq).1, (h' q hq).2.1⟩)
      have hne : ts ≠ [] := by
        intro h0
        rw [h0] at hlen
        simp at hlen
      have hr := readValue_array_body 11 ts ((p :: l).map petJSON) hall hne hmin
      refine ⟨['['] ++ joinElems ts ++ [']'], by simp only [marshalPets, hts], ?_⟩
      simp only [decodePets, hr, unmarshalPets, storePetElems_petJSON (p :: l) h']

/-- C15 (as amended): when the store's `GetBreeds` returns a slice of breeds
without error, `GetBreedsHandler` answers 200 with content type
`application/json`, and JSON-decoding the body into a `[]types.Breed` yields
that slice again: the same breeds, all four fields equal, in the same order
(and the nil slice for the nil slice).  The same holds for `PetsHandler` on a
GET with the result of `GetPets` when every birth is an existing calendar day
of a year in `0..9999`; when some pet has a birth year outside `0..9999` the
list cannot be encoded and the answer is 500 `Internal Server Error`. -/
theorem list_response_round_trip {σ : Type} (h : BreedHandler σ) (ph : PetHandler σ)
    (r : Request) (s : σ) :
    (∀ breeds, (h.breedStore.GetBreeds s).1 = .ok breeds →
      (GetBreedsHandler h NewRecorder r s).1.result.status = 200 ∧
      (GetBreedsHandler h NewRecorder r s).1.result.contentType = "application/json" ∧
      decodeBreeds (GetBreedsHandler h NewRecorder r s).1.result.body = .ok breeds) ∧
    (∀ pets, (ph.petStore.GetPets s).1 = .ok pets →
      ((∀ p ∈ Slice.elems pets,
          0 ≤ p.Birth.year ∧ p.Birth.year < 10000 ∧ p.Birth.IsDate) →
        (PetsHandler ph NewRecorder { r with Method := "GET" } s).1.result.status = 200 ∧
        (PetsHandler ph NewRecorder { r with Method := "GET" } s).1.result.contentType =
          "application/json" ∧
        decodePets (PetsHandler ph NewRecorder { r with Method := "GET" } s).1.result.body =
          .ok pets) ∧
      ((∃ p ∈ Slice.elems pets, ¬ (0 ≤ p.Birth.year ∧ p.Birth.year < 10000)) →
        (PetsHandler ph NewRecorder { r with Method := "GET" } s).1.result =
          { status := 500, contentType := "text/plain; charset=utf-8",
            body := "Internal Server Error\n" })) := by
  constructor
  · intro breeds hb
    have hres : (GetBreedsHandler h NewRecorder r s).1.result =
        { status := StatusOK, contentType := "application/json",
          body := String.mk (marshalBreeds breeds ++ ['\n']) } := by
      simp only [GetBreedsHandler]
      generalize h.breedStore.GetBreeds s = x at hb ⊢
      obtain ⟨res, s1⟩ := x
      simp only at hb
      subst hb
      simp only [encodeTo]
      exact encode_ok_result (marshalBreeds breeds)
    rw [hres]
    exact ⟨rfl, rfl, decodeBreeds_marshalBreeds breeds⟩
  · intro pets hp
    have hres : (PetsHandler ph NewRecorder { r with Method := "GET" } s).1.result =
        match marshalPets pets with
        | .ok t => { status := StatusOK, contentType := "application/json",
                     body := String.mk (t ++ ['\n']) }
        | .error _ => { status := 500, contentType := "text/plain; charset=utf-8",
                        body := "Internal Server Error\n" } := by
      simp only [PetsHandler, if_true, getPetsHandler]
      generalize ph.petStore.GetPets s = x at hp ⊢
      obtain ⟨res, s1⟩ := x
      simp only at hp
      subst hp
      simp only [encodeTo]
      generalize marshalPets pets = m
      cases m with
      | ok t => exact encode_ok_result t
      | error e =>
        simp only [httpError_json_result, StatusInternalServerError]
        rfl
    rw [hres]
    constructor
    · intro hall
      obtain ⟨t, ht, hdec⟩ := decodePets_marshalPets pets hall
      simp only [ht]
      refine ⟨?_, ?_, hdec⟩
      · rfl
      · trivial
    · intro hbad
      have herr : ∃ e, marshalPets pets = .error e := by
        cases pets with
        | none =>
          obtain ⟨p, hp, _⟩ := hbad
          simp [Slice.elems] at hp
        | some l =>
          obtain ⟨e, he⟩ := marshalPetList_error l hbad
          exact ⟨e, by simp only [marshalPets, he]⟩
      obtain ⟨e, he⟩ := herr
      simp only [he]

/-- The list request of the pet handler tests: one pet `p1` born on
2020-01-01. -/
theorem list_response_round_trip_witness :
    decodePets
        (PetsHandler mockPetHandler NewRecorder
          { Method := "GET", Path := "/api/v1/pets", Body := "" }
          { testWorld with petStore :=
              { pets := some [{ ID := "p1", Name := "Fido",
                                Birth := { year := 2020, month := 1, day := 1 },
                                Breed := { ID := "b1", Name := "Breed1", Temperament := "T1",
                                           Origin := "O1" } }],
                breeds := none, fail := false } }).1.result.body =
      .ok (some [{ ID := "p1", Name := "Fido", Birth := { year := 2020, month := 1, day := 1 },
                   Breed := { ID := "b1", Name := "Breed1", Temperament := "T1",
                              Origin := "O1" } }]) :=
  (((list_response_round_trip (NewBreedHandler mockBreedStore) mockPetHandler
    { Method := "GET", Path := "/api/v1/pets", Body := "" }
    { testWorld with petStore :=
        { pets := some [{ ID := "p1", Name := "Fido",
                          Birth := { year := 2020, month := 1, day := 1 },
                          Breed := { ID := "b1", Name := "Breed1", Temperament := "T1",
                                     Origin := "O1" } }],
          breeds := none, fail := false } }).2
    (some [{ ID := "p1", Name := "Fido", Birth := { year := 2020, month := 1, day := 1 },
             Breed := { ID := "b1", Name := "Breed1", Temperament := "T1", Origin := "O1" } }])
    rfl).1
    (by
      intro p hp
      simp only [Slice.elems, List.mem_singleton] at hp
      subst hp
      refine ⟨by decide, by decide, ?_⟩
      unfold Time.IsDate
      decide)).2.2

/-- C15 as stated fails for pets: the test double holding a pet born in the
year 10000 returns the list without error, and `PetsHandler` answers the GET
with 500, not 200. -/
theorem list_response_round_trip_counterexample :
    (mockPetStore.GetPets
        { testWorld with petStore :=
            { pets := some [{ ID := "p1", Name := "Fido",
                              Birth := { year := 10000, month := 1, day := 1 },
                              Breed := { ID := "b1", Name := "Breed1", Temperament := "T1",
                                         Origin := "O1" } }],
              breeds := none, fail := false } }).1 =
      .ok (some [{ ID := "p1", Name := "Fido",
                   Birth := { year := 10000, month := 1, day := 1 },
                   Breed := { ID := "b1", Name := "Breed1", Temperament := "T1",
                              Origin := "O1" } }]) ∧
    (PetsHandler mockPetHandler NewRecorder
        { Method := "GET", Path := "/api/v1/pets", Body := "" }
        { testWorld with petStore :=
            { pets := some [{ ID := "p1", Name := "Fido",
                              Birth := { year := 10000, month := 1, day := 1 },
                              Breed := { ID := "b1", Name := "Breed1", Temperament := "T1",
                                         Origin := "O1" } }],
              breeds := none, fail := false } }).1.result =
      { status := 500, contentType := "text/plain; charset=utf-8",
        body := "Internal Server Error\n" } := by
  exact ⟨by rfl, by rfl⟩

end DogApp
